import Mathlib

/-!
ncnn layers `ConvolutionDepthWise`, `ReLU_arm` and `Split`: a shallow embedding

The development embeds `src/layer/convolutiondepthwise.cpp` (parameter loading, model
loading, pipeline creation, requantize-op creation and `forward`), the int8 path of
`src/layer/arm/relu_arm.cpp` (`forward_inplace_int8` in its three builds and the dispatch of
`forward_inplace`) and `Split::forward` of `src/layer/split.cpp` as executable Lean functions
and proves properties of them.

Conventions of the embedding

* C `int` values are `Int`; `/` and `%` are the truncating `Int.tdiv` / `Int.tmod`.
  A division or remainder by zero, and `INT_MIN / -1` or `INT_MIN % -1`, are undefined
  behaviour in the source and are a fault (`none`) in the embedding. The 32-bit accumulator
  of the int8 kernels wraps explicitly; the sizes, strides and indices computed elsewhere
  are taken to stay within `int`.
* `float` values are rationals: every statement about float data is a statement in exact
  arithmetic, without rounding, infinities or NaN. The quotient of a rational by zero stands
  for no `float` value: a statement about a quotient carries the hypothesis that the divisor
  is not zero. The fused activation is also embedded on values that may be NaN
  (`activation_float`).
* A function of the source that can fault (division by zero, a read outside a buffer,
  a read through a null pointer) returns `Option`; `none` is the fault.
* Code that is not part of the embedded file (the sub-layers `Quantize`, `Dequantize`,
  `Requantize`, `copy_make_border`, the allocators, `exp`) is a field of the environment
  `Env`: every theorem holds for every environment.
-/

namespace ncnn

/-! ## C integer arithmetic -/

/-- C remainder `a % b` on a 32-bit `int`: a fault (undefined behaviour, a trap on the
common targets) when the divisor is zero and when the quotient `a / b` does not fit, which
is the case `INT_MIN % -1`; the truncated remainder otherwise. -/
def c_mod (a b : Int) : Option Int :=
  if b = 0 ∨ (a = -2147483648 ∧ b = -1) then none else some (Int.tmod a b)

/-- C quotient `a / b` on a 32-bit `int`: a fault (undefined behaviour, a trap on the common
targets) when the divisor is zero and when the quotient does not fit, which is the case
`INT_MIN / -1`; the truncated quotient otherwise. -/
def c_div (a b : Int) : Option Int :=
  if b = 0 ∨ (a = -2147483648 ∧ b = -1) then none else some (Int.tdiv a b)

/-- Two's complement wrap of an integer to the range of a 32-bit `int`. -/
def wrap32 (x : Int) : Int :=
  (x + 2147483648) % 4294967296 - 2147483648

/-- Element `l[i]` through a C pointer: a fault when the index is negative or past the end. -/
def at? {α : Type} (l : List α) (i : Int) : Option α :=
  if i < 0 then none else l[i.toNat]?

/-- Gather `f 0, f 1, ..., f (n-1)` into a list; a fault in any of them is a fault of the
whole. It is the shape of every loop of the source that fills consecutive cells. -/
def collect {α : Type} (f : Nat → Option α) : Nat → Option (List α)
  | 0 => some []
  | n + 1 => (collect f n).bind fun xs => (f n).map fun x => xs ++ [x]

/-- Run `step 0`, `step 1`, ..., `step (n-1)` on an accumulator: the shape of every loop of
the source that updates one running value. -/
def accumulate {σ : Type} (step : Nat → σ → Option σ) : Nat → σ → Option σ
  | 0, s => some s
  | n + 1, s => (accumulate step n s).bind (step n)

/-! ## Tensors -/

/-- An allocator is known by its identity only; `none` is the null pointer. -/
abbrev Allocator := Option Nat

/-- Storage of a tensor: no storage (`null`), storage that was obtained and never written
(`raw`), or one flat row-major plane per written channel holding floats or integers (signed
8-bit or 32-bit, told apart by the element size of the tensor). A channel that was never
written has no plane: reading it is a fault. -/
inductive Buf where
  | null
  | raw
  | floats (planes : List (List ℚ))
  | ints (planes : List (List Int))
  deriving DecidableEq

/-- Modelled from the spec: the tensor type `Mat` (declared in `mat.h`, not part of the
sources): width, height, channel count, element size in bytes, the allocator that produced
the storage, and the storage. -/
structure Mat where
  dims : Nat
  w : Int
  h : Int
  c : Int
  elemsize : Nat
  allocator : Allocator
  data : Buf
  deriving DecidableEq

namespace Mat

/-- The default-constructed tensor `Mat()`. -/
def nil : Mat :=
  { dims := 0, w := 0, h := 0, c := 0, elemsize := 0, allocator := none, data := Buf.null }

/-- Element count `total()`. -/
def total (m : Mat) : Int := m.w * m.h * m.c

/-- The test `empty()`: no storage or no element. -/
def empty (m : Mat) : Bool :=
  decide (m.data = Buf.null) || decide (m.total = 0)

/-- Read of cell `i` of channel `q` through a `const float*`; a fault when the cell does not
exist or the storage does not hold floats. -/
def read_float (m : Mat) (q i : Int) : Option ℚ :=
  match m.data with
  | Buf.floats planes => (at? planes q).bind fun p => at? p i
  | _ => none

/-- Read of cell `i` of channel `q` through a `const signed char*`; a fault when the cell does
not exist or the storage does not hold integers. -/
def read_int (m : Mat) (q i : Int) : Option Int :=
  match m.data with
  | Buf.ints planes => (at? planes q).bind fun p => at? p i
  | _ => none

/-- The float planes a tensor holds (none when it holds something else). -/
def float_planes (m : Mat) : List (List ℚ) :=
  match m.data with
  | Buf.floats planes => planes
  | _ => []

/-- The integer planes a tensor holds (none when it holds something else). -/
def int_planes (m : Mat) : List (List Int) :=
  match m.data with
  | Buf.ints planes => planes
  | _ => []

/-- View `channel_range(start, n)`: the channels `start, ..., start+n-1`. -/
def channel_range (m : Mat) (start n : Int) : Mat :=
  { m with
    c := n
    data := match m.data with
      | Buf.null => Buf.null
      | Buf.raw => Buf.raw
      | Buf.floats planes => Buf.floats ((planes.drop start.toNat).take n.toNat)
      | Buf.ints planes => Buf.ints ((planes.drop start.toNat).take n.toNat) }

/-- View `range(x, n)` of a one-dimensional tensor: the elements `x, ..., x+n-1`. -/
def range (m : Mat) (x n : Int) : Mat :=
  { m with
    dims := 1, w := n, h := 1, c := 1
    data := match m.data with
      | Buf.null => Buf.null
      | Buf.raw => Buf.raw
      | Buf.floats planes => Buf.floats (planes.map fun p => (p.drop x.toNat).take n.toNat)
      | Buf.ints planes => Buf.ints (planes.map fun p => (p.drop x.toNat).take n.toNat) }

/-- Element `m[i]` of a one-dimensional float tensor. -/
def float_at (m : Mat) (i : Int) : Option ℚ :=
  m.read_float 0 i

/-- Modelled from the spec: `create(w, h, c, elemsize, allocator)` (defined in `mat.h`, not
part of the sources). A three-dimensional tensor that already has the requested shape is kept
as it is; otherwise the old storage is dropped and fresh, unwritten storage is obtained,
provided there is at least one element and the allocator grants the request (`granted`). -/
def create (m : Mat) (w h c : Int) (elemsize : Nat) (a : Allocator) (granted : Bool) : Mat :=
  if m.dims = 3 ∧ m.w = w ∧ m.h = h ∧ m.c = c ∧ m.elemsize = elemsize ∧ m.allocator = a then m
  else
    { dims := 3, w := w, h := h, c := c, elemsize := elemsize, allocator := a
      data := if 0 < w * h * c ∧ granted = true then Buf.raw else Buf.null }

/-- Modelled from the spec: the constructor `Mat(w, elemsize)` of a one-dimensional tensor
(defined in `mat.h`, not part of the sources), with the default allocator. -/
def create1 (w : Int) (elemsize : Nat) (granted : Bool) : Mat :=
  { dims := 1, w := w, h := 1, c := 1, elemsize := elemsize, allocator := none
    data := if 0 < w ∧ granted = true then Buf.raw else Buf.null }

/-- The one-dimensional float tensor `Mat(n)` after `fill(v)`: a fault when there are cells to
fill and the allocator has not granted the storage (the fill writes through a null pointer). -/
def filled (n : Int) (v : ℚ) (granted : Bool) : Option Mat :=
  if 0 < n ∧ granted = false then none
  else
    some { dims := 1, w := n, h := 1, c := 1, elemsize := 4, allocator := none
           data := if 0 < n then Buf.floats [List.replicate n.toNat v] else Buf.null }

end Mat

/-! ## Parameter dictionary, options, weight source -/

/-- Modelled from the spec: the key-indexed parameter dictionary `ParamDict` (declared in
`paramdict.h`, not part of the sources), `get(index, default) -> typed value`. -/
structure ParamDict where
  ints : List (Nat × Int)
  floats : List (Nat × ℚ)
  arrays : List (Nat × Mat)

namespace ParamDict

/-- Typed read `get(id, def)` of an `int` parameter. -/
def get (pd : ParamDict) (id : Nat) (d : Int) : Int :=
  (pd.ints.lookup id).getD d

/-- Typed read `get(id, def)` of a `float` parameter. -/
def get_float (pd : ParamDict) (id : Nat) (d : ℚ) : ℚ :=
  (pd.floats.lookup id).getD d

/-- Typed read `get(id, def)` of an array parameter. -/
def get_array (pd : ParamDict) (id : Nat) (d : Mat) : Mat :=
  (pd.arrays.lookup id).getD d

end ParamDict

/-- Modelled from the spec: the configuration value `Option` (declared in `option.h`, not
part of the sources): allocators, thread count and feature toggles. -/
structure Opt where
  lightmode : Bool
  num_threads : Int
  blob_allocator : Allocator
  workspace_allocator : Allocator
  use_winograd_convolution : Bool
  use_sgemm_convolution : Bool
  use_int8_inference : Bool
  use_fp16_storage : Bool
  use_fp16_arithmetic : Bool
  use_packing_layout : Bool
  deriving DecidableEq

/-- Modelled from the spec: the sequential weight source `ModelBin` (declared in `modelbin.h`,
not part of the sources). A read `load(count, tag)` is answered from the reads already issued
and is recorded. -/
structure ModelBin where
  respond : List (Int × Int) → Int → Int → Mat
  reads : List (Int × Int)

/-- One read `mb.load(w, type)`. -/
def ModelBin.load (mb : ModelBin) (w type : Int) : Mat × ModelBin :=
  (mb.respond mb.reads w type, { mb with reads := mb.reads ++ [(w, type)] })

/-! ## Sub-layers and environment -/

/-- A `Quantize` sub-layer after `load_param`: its parameter 0. -/
structure QuantizeOp where
  scale : ℚ
  deriving DecidableEq

/-- A `Dequantize` sub-layer after `load_param` and `load_model`: its parameters 0, 1, 2 and
its single weight tensor. -/
structure DequantizeOp where
  scale : ℚ
  bias_term : Int
  bias_data_size : Int
  bias_data : Mat
  deriving DecidableEq

/-- A `Requantize` sub-layer after `load_param` and `load_model`: its parameters 0, 1, 2, 3
and its single weight tensor. -/
structure RequantizeOp where
  scale_in : ℚ
  scale_out : ℚ
  bias_term : Int
  bias_data_size : Int
  bias_data : Mat
  deriving DecidableEq

/-- The places of the embedded file that ask an allocator for storage. -/
inductive AllocSite where
  | weight_data_int8_scales
  | bottom_blob_int8_scales
  | int8_weight_data
  | bottom_blob_int8
  | top_blob_tm
  | top_blob
  deriving DecidableEq

/-- Everything the embedded file calls and does not define. The sub-layer calls return their
status and the tensor they wrote (for `forward`, given the source tensor and the destination
view). -/
structure Env where
  quantize_forward : QuantizeOp → Mat → Mat → Opt → Int × Mat
  dequantize_forward_inplace : DequantizeOp → Mat → Opt → Int × Mat
  requantize_forward : RequantizeOp → Mat → Mat → Opt → Int × Mat
  copy_make_border : Mat → Int → Int → Int → Int → ℚ → Opt → Mat
  granted : AllocSite → Bool
  exp : ℚ → ℚ
  default_opt : Opt

/-! ## The layer -/

/-- The fields of `ConvolutionDepthWise` (those of `Convolution` in `convolution.h`, with
per-group input scales and quantize sub-layers) and of its base class `Layer` that the
embedded file uses. -/
structure ConvolutionDepthWise where
  one_blob_only : Bool
  support_inplace : Bool
  num_output : Int
  kernel_w : Int
  kernel_h : Int
  dilation_w : Int
  dilation_h : Int
  stride_w : Int
  stride_h : Int
  pad_left : Int
  pad_right : Int
  pad_top : Int
  pad_bottom : Int
  pad_value : ℚ
  bias_term : Int
  weight_data_size : Int
  group : Int
  int8_scale_term : Int
  activation_type : Int
  activation_params : Mat
  weight_data : Mat
  bias_data : Mat
  weight_data_int8_scales : Mat
  bottom_blob_int8_scales : Mat
  top_blob_int8_scale : ℚ
  use_int8_inference : Bool
  use_int8_requantize : Bool
  quantize_ops : List QuantizeOp
  dequantize_ops : List DequantizeOp
  requantize_ops : List RequantizeOp
  dequantize_scales : List ℚ
  requantize_scales : List ℚ

namespace ConvolutionDepthWise

/-- The constructor: the scalar fields it does not assign keep whatever `uninit` holds, the
tensors and vectors are default-constructed. -/
def new (uninit : ConvolutionDepthWise) : ConvolutionDepthWise :=
  { uninit with
    one_blob_only := true
    support_inplace := false
    use_int8_requantize := false
    activation_params := Mat.nil
    weight_data := Mat.nil
    bias_data := Mat.nil
    weight_data_int8_scales := Mat.nil
    bottom_blob_int8_scales := Mat.nil
    quantize_ops := []
    dequantize_ops := []
    requantize_ops := []
    dequantize_scales := []
    requantize_scales := [] }

/-- Lines 33-50 of `load_param`: the fields read from the dictionary. -/
def read_params (self : ConvolutionDepthWise) (pd : ParamDict) : ConvolutionDepthWise :=
  let num_output := pd.get 0 0
  let kernel_w := pd.get 1 0
  let kernel_h := pd.get 11 kernel_w
  let dilation_w := pd.get 2 1
  let dilation_h := pd.get 12 dilation_w
  let stride_w := pd.get 3 1
  let stride_h := pd.get 13 stride_w
  let pad_left := pd.get 4 0
  let pad_right := pd.get 15 pad_left
  let pad_top := pd.get 14 pad_left
  let pad_bottom := pd.get 16 pad_top
  { self with
    num_output := num_output
    kernel_w := kernel_w
    kernel_h := kernel_h
    dilation_w := dilation_w
    dilation_h := dilation_h
    stride_w := stride_w
    stride_h := stride_h
    pad_left := pad_left
    pad_right := pad_right
    pad_top := pad_top
    pad_bottom := pad_bottom
    pad_value := pd.get_float 18 0
    bias_term := pd.get 5 0
    weight_data_size := pd.get 6 0
    group := pd.get 7 1
    int8_scale_term := pd.get 8 0
    activation_type := pd.get 9 0
    activation_params := pd.get_array 10 Mat.nil }

/-- The method `load_param`: status and layer afterwards. -/
def load_param (self : ConvolutionDepthWise) (pd : ParamDict) :
    Option (Int × ConvolutionDepthWise) :=
  let self1 := self.read_params pd
  (c_mod self1.num_output self1.group).bind fun r =>
    if r ≠ 0 then
      -- reject invalid group
      some (-100, self1)
    else some (0, self1)

/-- The scales read by `load_model` for `int8_scale_term` 1 and 2 (lines 74-96). -/
def load_scales (self : ConvolutionDepthWise) (env : Env) (mb : ModelBin) :
    Option (ConvolutionDepthWise × ModelBin) :=
  if self.int8_scale_term = 1 then
    let r1 := mb.load self.group 1
    let r2 := r1.2.load 1 1
    (r2.1.float_at 0).bind fun bottom_blob_int8_scale =>
      (Mat.filled self.group bottom_blob_int8_scale
        (env.granted AllocSite.bottom_blob_int8_scales)).map fun bottom_scales =>
        ({ self with
            weight_data_int8_scales := r1.1
            bottom_blob_int8_scales := bottom_scales }, r2.2)
  else if self.int8_scale_term = 2 then
    let r1 := mb.load 1 1
    let r2 := r1.2.load 1 1
    -- extend group if only one provided
    (r1.1.float_at 0).bind fun weight_data_int8_scale =>
      (Mat.filled self.group weight_data_int8_scale
        (env.granted AllocSite.weight_data_int8_scales)).bind fun weight_scales =>
        (r2.1.float_at 0).bind fun bottom_blob_int8_scale =>
          (Mat.filled self.group bottom_blob_int8_scale
            (env.granted AllocSite.bottom_blob_int8_scales)).map fun bottom_scales =>
            ({ self with
                weight_data_int8_scales := weight_scales
                bottom_blob_int8_scales := bottom_scales }, r2.2)
  else some (self, mb)

/-- The method `load_model`: status, layer and weight source afterwards. -/
def load_model (self : ConvolutionDepthWise) (env : Env) (mb : ModelBin) :
    Option (Int × ConvolutionDepthWise × ModelBin) :=
  let r0 := mb.load self.weight_data_size 0
  let self1 := { self with weight_data := r0.1 }
  if r0.1.empty then some (-100, self1, r0.2)
  else if self.bias_term ≠ 0 then
    let r1 := r0.2.load self.num_output 1
    let self2 := { self1 with bias_data := r1.1 }
    if r1.1.empty then some (-100, self2, r1.2)
    else (self2.load_scales env r1.2).map fun r => (0, r.1, r.2)
  else (self1.load_scales env r0.2).map fun r => (0, r.1, r.2)

/-- One turn of the loop of lines 123-142: the int8 weights of group `g`. -/
def quantize_weight_group (self : ConvolutionDepthWise) (env : Env) (int8_weight_data : Mat)
    (weight_data_size_g : Int) (g : Nat) : Option (List Int) :=
  (self.weight_data_int8_scales.float_at g).map fun scale =>
    let op : QuantizeOp := { scale := scale }
    let opt : Opt := { env.default_opt with blob_allocator := int8_weight_data.allocator }
    let weight_data_g := self.weight_data.range (weight_data_size_g * g) weight_data_size_g
    let int8_weight_data_g := int8_weight_data.range (weight_data_size_g * g) weight_data_size_g
    ((env.quantize_forward op weight_data_g int8_weight_data_g opt).2.int_planes.headD []).take
      weight_data_size_g.toNat

/-- Lines 114-145 of `create_pipeline`: float weights are quantized group by group. The
result is a status to return at once, or the layer to go on with. -/
def quantize_weight (self : ConvolutionDepthWise) (env : Env) :
    Option (Int ⊕ ConvolutionDepthWise) :=
  if self.weight_data.elemsize = 4 ∧ self.use_int8_inference = true then
    let int8_weight_data := Mat.create1 self.weight_data_size 1
      (env.granted AllocSite.int8_weight_data)
    if int8_weight_data.empty then some (Sum.inl (-100))
    else
      (c_div self.weight_data_size self.group).bind fun weight_data_size_g =>
        (collect (self.quantize_weight_group env int8_weight_data weight_data_size_g)
          self.group.toNat).map fun parts =>
          Sum.inr { self with
            weight_data := { int8_weight_data with data := Buf.ints [parts.flatten] } }
  else some (Sum.inr self)

/-- The dequantize sub-layer of group `g` built at lines 166-186, with the operands of the
divisions (numerator, denominator) evaluated for it. The input scale is read only when the
weight scale is not zero. -/
def make_dequantize_op (self : ConvolutionDepthWise) (g : Nat) :
    Option (DequantizeOp × List (ℚ × ℚ)) :=
  (self.weight_data_int8_scales.float_at g).bind fun weight_scale =>
    if weight_scale = 0 then
      some ({ scale := 0, bias_term := self.bias_term, bias_data_size := 1
              bias_data := self.bias_data.range g 1 }, [])
    else
      (self.bottom_blob_int8_scales.float_at g).map fun bottom_scale =>
        ({ scale := 1 / (bottom_scale * weight_scale), bias_term := self.bias_term
           bias_data_size := 1, bias_data := self.bias_data.range g 1 },
         [(1, bottom_scale * weight_scale)])

/-- Lines 147-190 of `create_pipeline`: the quantize and dequantize sub-layers. Resizing a
vector to a negative size is a fault. -/
def make_ops (self : ConvolutionDepthWise) : Option ConvolutionDepthWise :=
  if self.use_int8_inference = true then
    if self.group < 0 then none
    else
      (collect (fun g => (self.bottom_blob_int8_scales.float_at g).map fun scale =>
          ({ scale := scale } : QuantizeOp)) self.group.toNat).bind fun quantize_ops =>
        (collect self.make_dequantize_op self.group.toNat).map fun built =>
          { self with
            quantize_ops := quantize_ops
            dequantize_ops := built.map Prod.fst
            dequantize_scales := self.dequantize_scales ++ built.map fun b => b.1.scale }
  else some self

/-- The method `create_pipeline`: status and layer afterwards. -/
def create_pipeline (self : ConvolutionDepthWise) (env : Env) (opt : Opt) :
    Option (Int × ConvolutionDepthWise) :=
  let weight_data_is_int8 := decide (self.weight_data.elemsize = 1)
  let weight_data_is_float32 := decide (self.weight_data.elemsize = 4)
  if weight_data_is_int8 = true ∧ opt.use_int8_inference = false then
    some (-1, self)
  else
    let self1 := { self with
      use_int8_inference := opt.use_int8_inference &&
        (weight_data_is_int8 || (weight_data_is_float32 && decide (self.int8_scale_term ≠ 0))) }
    (self1.quantize_weight env).bind fun r =>
      match r with
      | Sum.inl status => some (status, self1)
      | Sum.inr self2 => self2.make_ops.map fun self3 => (0, self3)

/-- The method `destroy_pipeline`: status and layer afterwards. -/
def destroy_pipeline (self : ConvolutionDepthWise) (_opt : Opt) : Int × ConvolutionDepthWise :=
  (0, { self with
        quantize_ops := []
        dequantize_ops := []
        requantize_ops := []
        dequantize_scales := []
        requantize_scales := [] })

/-- The requantize sub-layer of group `g` built at lines 235-262, with the operands of the
divisions (numerator, denominator) evaluated for it. The input scale is read only when the
weight scale is not zero. -/
def make_requantize_op (self : ConvolutionDepthWise) (g : Nat) :
    Option (RequantizeOp × List (ℚ × ℚ)) :=
  (self.weight_data_int8_scales.float_at g).bind fun weight_scale =>
    if weight_scale = 0 then
      some ({ scale_in := 0, scale_out := self.top_blob_int8_scale, bias_term := self.bias_term
              bias_data_size := 1, bias_data := self.bias_data.range g 1 }, [])
    else
      (self.bottom_blob_int8_scales.float_at g).map fun bottom_scale =>
        ({ scale_in := 1 / (bottom_scale * weight_scale)
           scale_out := self.top_blob_int8_scale, bias_term := self.bias_term
           bias_data_size := 1, bias_data := self.bias_data.range g 1 },
         [(1, bottom_scale * weight_scale)])

/-- The method `create_requantize_op`: status and layer afterwards. Resizing a vector to a
negative size is a fault. -/
def create_requantize_op (self : ConvolutionDepthWise) : Option (Int × ConvolutionDepthWise) :=
  if self.use_int8_requantize = false then
    some (-1, self)
  else if self.group < 0 then none
  else
    (collect self.make_requantize_op self.group.toNat).map fun built =>
      (0, { self with
            requantize_ops := built.map Prod.fst
            requantize_scales := self.requantize_scales ++
              (built.map fun b => [b.1.scale_in, b.1.scale_out]).flatten })

/-! ### `forward` -/

/-- Lines 289-290: the extent of a dilated kernel on one axis. -/
def kernel_extent (dilation kernel : Int) : Int :=
  dilation * (kernel - 1) + 1

/-- Lines 328-329 and 340-341: the total automatic pad on one axis. -/
def auto_pad (kernel_extent n stride : Int) : Option Int :=
  (c_div (n - 1) stride).map fun q => kernel_extent + q * stride - n

/-- The pair `(leading, trailing)` into which line 334 (pad code -233, SAME_UPPER) splits
the total pad of one axis: `p / 2` and `p - p / 2`. -/
def split_upper (p : Int) : Int × Int :=
  (p.tdiv 2, p - p.tdiv 2)

/-- The pair `(leading, trailing)` into which line 346 (pad code -234, SAME_LOWER) splits
the total pad of one axis: `p - p / 2` and `p / 2`. -/
def split_lower (p : Int) : Int × Int :=
  (p - p.tdiv 2, p.tdiv 2)

/-- The four pads `(top, bottom, left, right)` handed to `copy_make_border` at line 334
(pad code -233, SAME_UPPER). -/
def pads_upper (hpad wpad : Int) : Int × Int × Int × Int :=
  ((split_upper hpad).1, (split_upper hpad).2, (split_upper wpad).1, (split_upper wpad).2)

/-- The four pads `(top, bottom, left, right)` handed to `copy_make_border` at line 346
(pad code -234, SAME_LOWER). -/
def pads_lower (hpad wpad : Int) : Int × Int × Int × Int :=
  ((split_lower hpad).1, (split_lower hpad).2, (split_lower wpad).1, (split_lower wpad).2)

/-- The option `opt_b` of the border step. -/
def opt_b (opt : Opt) : Opt :=
  { opt with blob_allocator := opt.workspace_allocator }

/-- The option `opt_g` of a sub-layer call. -/
def opt_g (opt : Opt) (a : Allocator) : Opt :=
  { opt with num_threads := 1, blob_allocator := a }

/-- Lines 328-335 and 340-347: the border step of an automatic mode, `pads` being
`pads_upper` or `pads_lower`. -/
def border_auto (self : ConvolutionDepthWise) (env : Env) (bottom_blob_unbordered : Mat)
    (w h : Int) (opt : Opt) (pads : Int → Int → Int × Int × Int × Int) : Option Mat :=
  (auto_pad (kernel_extent self.dilation_w self.kernel_w) w self.stride_w).bind fun wpad =>
    (auto_pad (kernel_extent self.dilation_h self.kernel_h) h self.stride_h).map fun hpad =>
      if wpad > 0 ∨ hpad > 0 then
        let p := pads hpad wpad
        env.copy_make_border bottom_blob_unbordered p.1 p.2.1 p.2.2.1 p.2.2.2 self.pad_value
          (opt_b opt)
      else bottom_blob_unbordered

/-- Lines 318-348: the bordered input. -/
def border (self : ConvolutionDepthWise) (env : Env) (bottom_blob_unbordered : Mat)
    (w h : Int) (opt : Opt) : Option Mat :=
  if self.pad_left > 0 ∨ self.pad_right > 0 ∨ self.pad_top > 0 ∨ self.pad_bottom > 0 then
    some (env.copy_make_border bottom_blob_unbordered self.pad_top self.pad_bottom
      self.pad_left self.pad_right self.pad_value (opt_b opt))
  else if self.pad_left = -233 ∧ self.pad_right = -233 ∧ self.pad_top = -233 ∧
      self.pad_bottom = -233 then
    -- tensorflow padding=SAME or onnx padding=SAME_UPPER
    self.border_auto env bottom_blob_unbordered w h opt pads_upper
  else if self.pad_left = -234 ∧ self.pad_right = -234 ∧ self.pad_top = -234 ∧
      self.pad_bottom = -234 then
    -- onnx padding=SAME_LOWER
    self.border_auto env bottom_blob_unbordered w h opt pads_lower
  else some bottom_blob_unbordered

/-- The inner loop of lines 369-374: `n` entries from `p2` on, and `p2` afterwards. -/
def space_ofs_row (dilation_w : Int) : Nat → Int → List Int × Int
  | 0, p2 => ([], p2)
  | n + 1, p2 =>
    let r := space_ofs_row dilation_w n (p2 + dilation_w)
    (p2 :: r.1, r.2)

/-- The outer loop of lines 367-376: the entries written by `n` rows from `p2` on. -/
def space_ofs_rows (kernel_w dilation_w gap : Int) : Nat → Int → List Int
  | 0, _ => []
  | n + 1, p2 =>
    let r := space_ofs_row dilation_w kernel_w.toNat p2
    r.1 ++ space_ofs_rows kernel_w dilation_w gap n (r.2 + gap)

/-- Lines 361-377: the table of kernel-tap offsets, a zero-filled vector of `maxk` entries
whose leading entries are written by the loops. A negative vector size is a fault. -/
def space_ofs (self : ConvolutionDepthWise) (w : Int) : Option (List Int) :=
  let maxk := self.kernel_w * self.kernel_h
  if maxk < 0 then none
  else
    let gap := w * self.dilation_h - self.kernel_w * self.dilation_w
    let written := space_ofs_rows self.kernel_w self.dilation_w gap self.kernel_h.toNat 0
    some (written ++ List.replicate (maxk.toNat - written.length) 0)

/-- The innermost loop `for k < maxk: sum += sptr[space_ofs[k]] * kptr[k]`, for an input
pointer `sptr`, a weight pointer `kptr` and the accumulation `fma sum val w`. -/
def taps {α : Type} (fma : α → α → α → α) (ofs : List Int) (sptr kptr : Int → Option α)
    (maxk : Int) (sum : α) : Option α :=
  accumulate (fun k s =>
    (at? ofs k).bind fun o => (sptr o).bind fun val => (kptr k).map fun w => fma s val w)
    maxk.toNat sum

/-- Float accumulation `sum += val * w`. -/
def fma_float (sum val w : ℚ) : ℚ := sum + val * w

/-- Accumulation `sum += val * w` in a 32-bit `int`. -/
def fma_int (sum val w : Int) : Int := wrap32 (sum + val * w)

/-- The shape data shared by the kernels: the input reader, the weight reader, the table
of offsets, the bordered width, the strides and `maxk`. -/
structure Kernel (α : Type) where
  fma : α → α → α → α
  input : Int → Int → Option α
  weight : Int → Option α
  ofs : List Int
  w : Int
  stride_w : Int
  stride_h : Int
  maxk : Int

/-- One output pixel of the depth-wise kernels (lines 407-416, 545-554, 687-694): the taps of
channel `g` at output position `(i, j)` added to `sum`. -/
def depthwise_pixel {α : Type} (K : Kernel α) (g i j : Nat) (sum : α) : Option α :=
  taps K.fma K.ofs (fun o => K.input g (K.w * (i * K.stride_h) + j * K.stride_w + o))
    (fun k => K.weight (K.maxk * g + k)) K.maxk sum

/-- One output pixel of the grouped kernels (lines 469-487, 605-623, 753-769): the taps of
the `channels_g` input channels of group `g` for output channel `p` of the group at output
position `(i, j)`, added to `sum`. -/
def grouped_pixel {α : Type} (K : Kernel α) (channels_g num_output_g : Int) (g p i j : Nat)
    (sum : α) : Option α :=
  accumulate (fun q s =>
    taps K.fma K.ofs
      (fun o => K.input (channels_g * g + q) (K.w * (i * K.stride_h) + j * K.stride_w + o))
      (fun k => K.weight
        (K.maxk * channels_g * num_output_g * g + K.maxk * channels_g * p + K.maxk * q + k))
      K.maxk s)
    channels_g.toNat sum

/-- The loops over `i < outh` and `j < outw` that fill one output channel row by row. -/
def plane {α : Type} (outw outh : Int) (pixel : Nat → Nat → Option α) : Option (List α) :=
  (collect (fun i => collect (fun j => pixel i j) outw.toNat) outh.toNat).map List.flatten

/-- The fused activation of lines 696-717 and 771-792. -/
def activation (self : ConvolutionDepthWise) (env : Env) (sum : ℚ) : Option ℚ :=
  if self.activation_type = 1 then some (max sum 0)
  else if self.activation_type = 2 then
    (self.activation_params.float_at 0).map fun slope =>
      if sum > 0 then sum else sum * slope
  else if self.activation_type = 3 then
    (self.activation_params.float_at 0).bind fun min =>
      (self.activation_params.float_at 1).map fun max =>
        let sum1 := if sum < min then min else sum
        if sum1 > max then max else sum1
  else if self.activation_type = 4 then some (1 / (1 + env.exp (-sum)))
  else some sum

/-- The kernel data of the float path. -/
def float_kernel (self : ConvolutionDepthWise) (bottom_blob_bordered : Mat) (ofs : List Int) :
    Kernel ℚ :=
  { fma := fma_float
    input := bottom_blob_bordered.read_float
    weight := self.weight_data.read_float 0
    ofs := ofs
    w := bottom_blob_bordered.w
    stride_w := self.stride_w
    stride_h := self.stride_h
    maxk := self.kernel_w * self.kernel_h }

/-- The kernel data of the int8 path. -/
def int8_kernel (self : ConvolutionDepthWise) (bottom_blob_bordered : Mat) (ofs : List Int) :
    Kernel Int :=
  { fma := fma_int
    input := bottom_blob_bordered.read_int
    weight := self.weight_data.read_int 0
    ofs := ofs
    w := bottom_blob_bordered.w
    stride_w := self.stride_w
    stride_h := self.stride_h
    maxk := self.kernel_w * self.kernel_h }

/-- The start value of a float sum (lines 682-685, 748-751): `bias_data[n]` or `0`. -/
def bias_at (self : ConvolutionDepthWise) (n : Int) : Option ℚ :=
  if self.bias_term ≠ 0 then self.bias_data.float_at n else some 0

/-- Lines 669-724: the output channels of the float depth-wise branch. -/
def float_depthwise (self : ConvolutionDepthWise) (env : Env) (K : Kernel ℚ)
    (outw outh : Int) : Option (List (List ℚ)) :=
  collect (fun g =>
    plane outw outh fun i j =>
      (self.bias_at g).bind fun sum => (depthwise_pixel K g i j sum).bind (self.activation env))
    self.group.toNat

/-- Lines 729-800: the output channels of the float grouped branch, `channels` being the
channel count of the input. The group count is not zero here: `forward` has evaluated
`channels % group` before. -/
def float_grouped (self : ConvolutionDepthWise) (env : Env) (K : Kernel ℚ)
    (channels outw outh : Int) : Option (List (List ℚ)) :=
  let channels_g := channels.tdiv self.group
  let num_output_g := self.num_output.tdiv self.group
  (collect (fun g =>
    collect (fun p =>
      plane outw outh fun i j =>
        (self.bias_at (num_output_g * g + p)).bind fun sum =>
          (grouped_pixel K channels_g num_output_g g p i j sum).bind (self.activation env))
      num_output_g.toNat)
    self.group.toNat).map List.flatten

/-- Lines 458-495 and 594-631: the 32-bit sums of the int8 grouped branches, the planes of
a group together. -/
def int8_grouped_sums (self : ConvolutionDepthWise) (K : Kernel Int)
    (channels outw outh : Int) : Option (List (List (List Int))) :=
  let channels_g := channels.tdiv self.group
  let num_output_g := self.num_output.tdiv self.group
  collect (fun g =>
    collect (fun p =>
      plane outw outh fun i j => grouped_pixel K channels_g num_output_g g p i j 0)
      num_output_g.toNat)
    self.group.toNat

/-- Lines 562-581 and 635-655: dequantization in place of the `n` channels of group `g`
followed by the fused ReLU. The status of the sub-layer is not looked at. -/
def dequantize_group (self : ConvolutionDepthWise) (env : Env) (top_blob : Mat) (opt : Opt)
    (n : Int) (g : Nat) (sums : List (List Int)) : Option (List (List ℚ)) :=
  (at? self.dequantize_ops g).map fun op =>
    let top_blob_g : Mat := { top_blob with c := n, data := Buf.ints sums }
    let r := env.dequantize_forward_inplace op top_blob_g (opt_g opt top_blob.allocator)
    let planes := r.2.float_planes.take n.toNat
    if self.activation_type = 1 then planes.map fun pl => pl.map fun x => max x 0
    else planes

/-- Lines 424-445 and 499-522: requantization of the `n` channels of group `g` from the
32-bit sums into the output view, followed by the fused ReLU. The status of the sub-layer is
not looked at. -/
def requantize_group (self : ConvolutionDepthWise) (env : Env) (top_blob_tm top_blob : Mat)
    (opt : Opt) (n : Int) (g : Nat) (sums : List (List Int)) : Option (List (List Int)) :=
  (at? self.requantize_ops g).map fun op =>
    let top_blob_tm_g : Mat := { top_blob_tm with c := n, data := Buf.ints sums }
    let top_blob_g := top_blob.channel_range (n * g) n
    let r := env.requantize_forward op top_blob_tm_g top_blob_g (opt_g opt top_blob.allocator)
    let planes := r.2.int_planes.take n.toNat
    if self.activation_type = 1 then planes.map fun pl => pl.map fun x => if x < 0 then 0 else x
    else planes

/-- For every group in turn, post-process the planes of the group with `post`. -/
def each_group {α β : Type} (post : Nat → List (List α) → Option (List (List β)))
    (groups : List (List (List α))) : Option (List (List β)) :=
  (collect (fun g => (groups[g]?).bind (post g)) groups.length).map List.flatten

/-- Lines 394-447: the output channels of the depth-wise branch with requantization. -/
def requantize_depthwise (self : ConvolutionDepthWise) (env : Env) (K : Kernel Int)
    (outw outh : Int) (top_blob_tm top_blob : Mat) (opt : Opt) : Option (List (List Int)) :=
  (collect (fun g =>
      (plane outw outh fun i j => depthwise_pixel K g i j 0).bind fun sums =>
        self.requantize_group env top_blob_tm top_blob opt 1 g [sums])
    self.group.toNat).map List.flatten

/-- Lines 448-523: the output channels of the grouped branch with requantization. -/
def requantize_grouped (self : ConvolutionDepthWise) (env : Env) (K : Kernel Int)
    (channels outw outh : Int) (top_blob_tm top_blob : Mat) (opt : Opt) :
    Option (List (List Int)) :=
  (self.int8_grouped_sums K channels outw outh).bind fun sums =>
    each_group
      (self.requantize_group env top_blob_tm top_blob opt (self.num_output.tdiv self.group)) sums

/-- Lines 532-583: the output channels of the depth-wise branch with dequantization. -/
def dequantize_depthwise (self : ConvolutionDepthWise) (env : Env) (K : Kernel Int)
    (outw outh : Int) (top_blob : Mat) (opt : Opt) : Option (List (List ℚ)) :=
  (collect (fun g =>
      (plane outw outh fun i j => depthwise_pixel K g i j 0).bind fun sums =>
        self.dequantize_group env top_blob opt 1 g [sums])
    self.group.toNat).map List.flatten

/-- Lines 584-657: the output channels of the grouped branch with dequantization. -/
def dequantize_grouped (self : ConvolutionDepthWise) (env : Env) (K : Kernel Int)
    (channels outw outh : Int) (top_blob : Mat) (opt : Opt) : Option (List (List ℚ)) :=
  (self.int8_grouped_sums K channels outw outh).bind fun sums =>
    each_group (self.dequantize_group env top_blob opt (self.num_output.tdiv self.group)) sums

/-- Lines 382-524: the int8 path with requantization. -/
def forward_requantize (self : ConvolutionDepthWise) (env : Env) (K : Kernel Int)
    (channels outw outh : Int) (top_blob : Mat) (opt : Opt) : Option (Int × Mat) :=
  let top_blob_tm := Mat.create Mat.nil outw outh self.num_output 4 opt.workspace_allocator
    (env.granted AllocSite.top_blob_tm)
  if top_blob_tm.empty then some (-100, top_blob)
  else
    let top_blob1 := top_blob.create outw outh self.num_output 1 opt.blob_allocator
      (env.granted AllocSite.top_blob)
    if top_blob1.empty then some (-100, top_blob1)
    else if channels = self.group ∧ self.group = self.num_output then
      -- depth-wise
      (self.requantize_depthwise env K outw outh top_blob_tm top_blob1 opt).map fun planes =>
        (0, { top_blob1 with data := Buf.ints planes })
    else
      (self.requantize_grouped env K channels outw outh top_blob_tm top_blob1 opt).map
        fun planes => (0, { top_blob1 with data := Buf.ints planes })

/-- Lines 525-660: the int8 path with dequantization. -/
def forward_dequantize (self : ConvolutionDepthWise) (env : Env) (K : Kernel Int)
    (channels outw outh : Int) (top_blob : Mat) (opt : Opt) : Option (Int × Mat) :=
  let top_blob1 := top_blob.create outw outh self.num_output 4 opt.blob_allocator
    (env.granted AllocSite.top_blob)
  if top_blob1.empty then some (-100, top_blob1)
  else if channels = self.group ∧ self.group = self.num_output then
    -- depth-wise
    (self.dequantize_depthwise env K outw outh top_blob1 opt).map fun planes =>
      (0, { top_blob1 with data := Buf.floats planes })
  else
    (self.dequantize_grouped env K channels outw outh top_blob1 opt).map fun planes =>
      (0, { top_blob1 with data := Buf.floats planes })

/-- Lines 663-802: the float path. -/
def forward_float (self : ConvolutionDepthWise) (env : Env) (K : Kernel ℚ)
    (channels outw outh : Int) (elemsize : Nat) (top_blob : Mat) (opt : Opt) :
    Option (Int × Mat) :=
  let top_blob1 := top_blob.create outw outh self.num_output elemsize opt.blob_allocator
    (env.granted AllocSite.top_blob)
  if top_blob1.empty then some (-100, top_blob1)
  else if channels = self.group ∧ self.group = self.num_output then
    -- depth-wise
    (self.float_depthwise env K outw outh).map fun planes =>
      (0, { top_blob1 with data := Buf.floats planes })
  else
    (self.float_grouped env K channels outw outh).map fun planes =>
      (0, { top_blob1 with data := Buf.floats planes })

/-- Lines 349-803: `forward` from the bordered input on. -/
def forward_bordered (self : ConvolutionDepthWise) (env : Env) (bottom_blob_bordered : Mat)
    (channels : Int) (elemsize : Nat) (top_blob : Mat) (opt : Opt) : Option (Int × Mat) :=
  if bottom_blob_bordered.empty then some (-100, top_blob)
  else
    let w := bottom_blob_bordered.w
    let h := bottom_blob_bordered.h
    (c_div (w - kernel_extent self.dilation_w self.kernel_w) self.stride_w).bind fun qw =>
      (c_div (h - kernel_extent self.dilation_h self.kernel_h) self.stride_h).bind fun qh =>
        let outw := qw + 1
        let outh := qh + 1
        (self.space_ofs w).bind fun ofs =>
          if self.use_int8_inference = true then
            if self.use_int8_requantize = true then
              self.forward_requantize env (self.int8_kernel bottom_blob_bordered ofs)
                channels outw outh top_blob opt
            else
              self.forward_dequantize env (self.int8_kernel bottom_blob_bordered ofs)
                channels outw outh top_blob opt
          else
            self.forward_float env (self.float_kernel bottom_blob_bordered ofs)
              channels outw outh elemsize top_blob opt

/-- Lines 300-313: the input quantized group by group into `bottom_blob_int8`. The status
of the sub-layer is not looked at. -/
def quantize_input (self : ConvolutionDepthWise) (env : Env) (bottom_blob bottom_blob_int8 : Mat)
    (opt : Opt) : Option Mat :=
  let channels_g := bottom_blob.c.tdiv self.group
  (collect (fun g => (at? self.quantize_ops g).map fun op =>
      let bottom_blob_g := bottom_blob.channel_range (channels_g * g) channels_g
      let bottom_blob_int8_g := bottom_blob_int8.channel_range (channels_g * g) channels_g
      ((env.quantize_forward op bottom_blob_g bottom_blob_int8_g
        (opt_g opt bottom_blob_int8.allocator)).2.int_planes).take channels_g.toNat)
    self.group.toNat).map fun parts =>
    { bottom_blob_int8 with data := Buf.ints parts.flatten }

/-- Lines 287-803: `forward` once the group check has passed. -/
def forward_checked (self : ConvolutionDepthWise) (env : Env) (bottom_blob top_blob : Mat)
    (opt : Opt) : Option (Int × Mat) :=
  let w := bottom_blob.w
  let h := bottom_blob.h
  let channels := bottom_blob.c
  let elemsize := bottom_blob.elemsize
  if self.use_int8_inference = true ∧ elemsize ≠ 1 then
    let bottom_blob_int8 := Mat.create Mat.nil w h channels 1 opt.workspace_allocator
      (env.granted AllocSite.bottom_blob_int8)
    if bottom_blob_int8.empty then some (-100, top_blob)
    else
      (self.quantize_input env bottom_blob bottom_blob_int8 opt).bind fun unbordered =>
        (self.border env unbordered w h opt).bind fun bordered =>
          self.forward_bordered env bordered channels elemsize top_blob opt
  else
    (self.border env bottom_blob w h opt).bind fun bordered =>
      self.forward_bordered env bordered channels elemsize top_blob opt

/-- The method `forward`: status and output blob afterwards. -/
def forward (self : ConvolutionDepthWise) (env : Env) (bottom_blob top_blob : Mat) (opt : Opt) :
    Option (Int × Mat) :=
  (c_mod bottom_blob.c self.group).bind fun r1 =>
    if r1 ≠ 0 then
      -- reject invalid group
      some (-100, top_blob)
    else
      (c_mod self.num_output self.group).bind fun r2 =>
        if r2 ≠ 0 then
          -- reject invalid group
          some (-100, top_blob)
        else self.forward_checked env bottom_blob top_blob opt

end ConvolutionDepthWise

/-! ## Concrete values used to instantiate the theorems -/

namespace Sample

/-- An option value with every toggle off and one thread. -/
def opt : Opt :=
  { lightmode := false, num_threads := 1, blob_allocator := none, workspace_allocator := none
    use_winograd_convolution := false, use_sgemm_convolution := false
    use_int8_inference := false, use_fp16_storage := false, use_fp16_arithmetic := false
    use_packing_layout := false }

/-- An environment whose sub-layers copy, whose border step returns its input and whose
allocators always grant. -/
def env : Env :=
  { quantize_forward := fun _ _ dst _ => (0, dst)
    dequantize_forward_inplace := fun _ m _ => (0, m)
    requantize_forward := fun _ _ dst _ => (0, dst)
    copy_make_border := fun m _ _ _ _ _ _ => m
    granted := fun _ => true
    exp := fun x => x
    default_opt := opt }

/-- A freshly constructed layer whose unassigned scalar fields hold zero. -/
def layer : ConvolutionDepthWise :=
  ConvolutionDepthWise.new
    { one_blob_only := false, support_inplace := false, num_output := 0, kernel_w := 0
      kernel_h := 0, dilation_w := 0, dilation_h := 0, stride_w := 0, stride_h := 0
      pad_left := 0, pad_right := 0, pad_top := 0, pad_bottom := 0, pad_value := 0
      bias_term := 0, weight_data_size := 0, group := 0, int8_scale_term := 0
      activation_type := 0, activation_params := Mat.nil, weight_data := Mat.nil
      bias_data := Mat.nil, weight_data_int8_scales := Mat.nil
      bottom_blob_int8_scales := Mat.nil, top_blob_int8_scale := 0
      use_int8_inference := false, use_int8_requantize := false, quantize_ops := []
      dequantize_ops := [], requantize_ops := [], dequantize_scales := []
      requantize_scales := [] }

/-- The dictionary of the invalid-group scenario: `num_output=10`, `group=3`. -/
def pd_10_3 : ParamDict :=
  { ints := [(0, 10), (7, 3)], floats := [], arrays := [] }

/-- The dictionary `num_output=INT_MIN`, `group=-1`. -/
def pd_min_neg_one : ParamDict :=
  { ints := [(0, -2147483648), (7, -1)], floats := [], arrays := [] }

/-- A one-dimensional float tensor holding `xs`. -/
def vec (xs : List ℚ) : Mat :=
  { dims := 1, w := xs.length, h := 1, c := 1, elemsize := 4, allocator := none
    data := Buf.floats [xs] }

/-- A one-dimensional int8 tensor holding `xs`. -/
def bytes (xs : List Int) : Mat :=
  { dims := 1, w := xs.length, h := 1, c := 1, elemsize := 1, allocator := none
    data := Buf.ints [xs] }

/-- A three-dimensional float tensor of `c` channels filled with `v`. -/
def blob (w h c : Nat) (v : ℚ) : Mat :=
  { dims := 3, w := w, h := h, c := c, elemsize := 4, allocator := none
    data := Buf.floats (List.replicate c (List.replicate (w * h) v)) }

/-- A layer with two groups, int8 weights, the weight scales `0` and `2`, the input scale `4`
and requantization enabled. -/
def int8_layer : ConvolutionDepthWise :=
  { layer with
    num_output := 2, group := 2, kernel_w := 1, kernel_h := 1, weight_data_size := 2
    weight_data := bytes [1, 2]
    weight_data_int8_scales := vec [0, 2]
    bottom_blob_int8_scales := vec [4, 4]
    top_blob_int8_scale := 3
    use_int8_requantize := true }

/-- A float depth-wise layer of `n` channels: 3x3 kernel, stride 1, dilation 1, no padding,
no activation, every weight `k` and every bias `b`. -/
def depthwise (n : Nat) (k b : ℚ) : ConvolutionDepthWise :=
  { layer with
    num_output := n, group := n, kernel_w := 3, kernel_h := 3, dilation_w := 1, dilation_h := 1
    stride_w := 1, stride_h := 1, bias_term := 1, weight_data_size := 9 * n
    weight_data := vec (List.replicate (9 * n) k)
    bias_data := vec (List.replicate n b) }

/-- The option value `opt` with int8 inference switched on. -/
def opt_int8 : Opt :=
  { opt with use_int8_inference := true }

end Sample

/-! ## Definitions in the words of the claims

The definitions of this section are not translated from the source: they name what the claims
talk about (the reads of `load_model`, the options a sub-layer may be handed, the products of
the taps), so that the embedded functions can be compared with them. -/

namespace ConvolutionDepthWise

/-- The first read of `load_model`: the weights. -/
def weight_read (self : ConvolutionDepthWise) (mb : ModelBin) : Mat × ModelBin :=
  mb.load self.weight_data_size 0

/-- The read of `load_model` that follows the weights when `bias_term` is not zero: the
bias. -/
def bias_read (self : ConvolutionDepthWise) (mb : ModelBin) : Mat × ModelBin :=
  (self.weight_read mb).2.load self.num_output 1

/-- The condition under which `load_model` gives up: the weight read yields an empty tensor,
or `bias_term` is not zero and the bias read yields an empty tensor. -/
def load_failed (self : ConvolutionDepthWise) (mb : ModelBin) : Bool :=
  (self.weight_read mb).1.empty || (decide (self.bias_term ≠ 0) && (self.bias_read mb).1.empty)

/-- The weight source as the scale reads of `load_model` find it: after the weights, and
after the bias when `bias_term` is not zero. -/
def scale_source (self : ConvolutionDepthWise) (mb : ModelBin) : ModelBin :=
  if self.bias_term ≠ 0 then (self.bias_read mb).2 else (self.weight_read mb).2

/-- The layer as the scale reads of `load_model` find it: the weights stored, and the bias
when `bias_term` is not zero. -/
def with_weights (self : ConvolutionDepthWise) (mb : ModelBin) : ConvolutionDepthWise :=
  if self.bias_term ≠ 0 then
    { self with weight_data := (self.weight_read mb).1, bias_data := (self.bias_read mb).1 }
  else { self with weight_data := (self.weight_read mb).1 }

/-- The scale reads of lines 74-96 can be carried out on the weight source `mb`: for
`int8_scale_term` 1 or 2 every tensor whose first element is read holds one, and every
per-group vector that is filled has been granted by the allocator. -/
def scales_loadable (self : ConvolutionDepthWise) (env : Env) (mb : ModelBin) : Bool :=
  if self.int8_scale_term = 1 then
    (((mb.load self.group 1).2.load 1 1).1.float_at 0).isSome &&
      (decide (self.group ≤ 0) || env.granted AllocSite.bottom_blob_int8_scales)
  else if self.int8_scale_term = 2 then
    ((mb.load 1 1).1.float_at 0).isSome && (((mb.load 1 1).2.load 1 1).1.float_at 0).isSome &&
      (decide (self.group ≤ 0) ||
        (env.granted AllocSite.weight_data_int8_scales &&
          env.granted AllocSite.bottom_blob_int8_scales))
  else true

/-- The scale reads of `load_model` as the claim words them: for `int8_scale_term` 1
`(group, tag 1)` then `(1, tag 1)`, for `int8_scale_term` 2 `(1, tag 1)` twice, none
otherwise. -/
def scale_reads (self : ConvolutionDepthWise) : List (Int × Int) :=
  if self.int8_scale_term = 1 then [(self.group, 1), (1, 1)]
  else if self.int8_scale_term = 2 then [(1, 1), (1, 1)]
  else []

/-- The reads of `load_model` as the claim words them: the weights; then the bias if and only
if `bias_term` is not zero; then the scale reads; nothing after a read whose failure ends
`load_model`. -/
def expected_reads (self : ConvolutionDepthWise) (mb : ModelBin) : List (Int × Int) :=
  if (self.weight_read mb).1.empty = true then [(self.weight_data_size, 0)]
  else if self.bias_term ≠ 0 then
    if (self.bias_read mb).1.empty = true then [(self.weight_data_size, 0), (self.num_output, 1)]
    else [(self.weight_data_size, 0), (self.num_output, 1)] ++ self.scale_reads
  else [(self.weight_data_size, 0)] ++ self.scale_reads

end ConvolutionDepthWise

/-- The environment `env` with the status of every sub-layer call replaced: `q`, `d` and `r`
give the status of the quantize, dequantize and requantize calls; the tensors written are
those of `env`. -/
def Env.with_status (env : Env) (q : QuantizeOp → Mat → Mat → Opt → Int)
    (d : DequantizeOp → Mat → Opt → Int) (r : RequantizeOp → Mat → Mat → Opt → Int) : Env :=
  { env with
    quantize_forward := fun op src dst o => (q op src dst o, (env.quantize_forward op src dst o).2)
    dequantize_forward_inplace := fun op m o =>
      (d op m o, (env.dequantize_forward_inplace op m o).2)
    requantize_forward := fun op src dst o =>
      (r op src dst o, (env.requantize_forward op src dst o).2) }

/-- The option `o` is one a sub-layer may be handed by a caller holding `opt`: its thread
count is 1 and it differs from `opt` in no field other than `num_threads` and
`blob_allocator`. -/
def sub_layer_option (opt o : Opt) : Bool :=
  decide (o.num_threads = 1) && decide (o.lightmode = opt.lightmode) &&
    decide (o.workspace_allocator = opt.workspace_allocator) &&
    decide (o.use_winograd_convolution = opt.use_winograd_convolution) &&
    decide (o.use_sgemm_convolution = opt.use_sgemm_convolution) &&
    decide (o.use_int8_inference = opt.use_int8_inference) &&
    decide (o.use_fp16_storage = opt.use_fp16_storage) &&
    decide (o.use_fp16_arithmetic = opt.use_fp16_arithmetic) &&
    decide (o.use_packing_layout = opt.use_packing_layout)

/-- The environment whose sub-layers behave as those of `env` on the options accepted by
`ok` and as those of `other` on every other option. -/
def Env.on_options (env other : Env) (ok : Opt → Bool) : Env :=
  { env with
    quantize_forward := fun op src dst o =>
      if ok o then env.quantize_forward op src dst o else other.quantize_forward op src dst o
    dequantize_forward_inplace := fun op m o =>
      if ok o then env.dequantize_forward_inplace op m o
      else other.dequantize_forward_inplace op m o
    requantize_forward := fun op src dst o =>
      if ok o then env.requantize_forward op src dst o
      else other.requantize_forward op src dst o }

namespace ConvolutionDepthWise

/-- The products `input * weight` of the `maxk` taps of one input channel, in tap order. -/
def tap_products (ofs : List Int) (sptr kptr : Int → Option ℚ) (maxk : Int) :
    Option (List ℚ) :=
  collect (fun k =>
    (at? ofs k).bind fun o => (sptr o).bind fun val => (kptr k).map fun w => val * w)
    maxk.toNat

/-- The products `input * weight` over all taps of output position `(i, j)` of channel `g`
of a depth-wise convolution. -/
def depthwise_products (K : Kernel ℚ) (g i j : Nat) : Option (List ℚ) :=
  tap_products K.ofs (fun o => K.input g (K.w * (i * K.stride_h) + j * K.stride_w + o))
    (fun k => K.weight (K.maxk * g + k)) K.maxk

/-- The products `input * weight` over all taps of all input channels of group `g`, for
output position `(i, j)` of output channel `p` of the group. -/
def grouped_products (K : Kernel ℚ) (channels_g num_output_g : Int) (g p i j : Nat) :
    Option (List ℚ) :=
  (collect (fun q =>
    tap_products K.ofs
      (fun o => K.input (channels_g * g + q) (K.w * (i * K.stride_h) + j * K.stride_w + o))
      (fun k => K.weight
        (K.maxk * channels_g * num_output_g * g + K.maxk * channels_g * p + K.maxk * q + k))
      K.maxk)
    channels_g.toNat).map List.flatten

/-- An output element as the claim words it: the activation of `s`, where `s` is the bias of
output channel `n` (or `0` when `bias_term` is `0`) plus the sum of the products. -/
def float_element (self : ConvolutionDepthWise) (env : Env) (n : Int)
    (products : Option (List ℚ)) : Option ℚ :=
  (self.bias_at n).bind fun b => products.bind fun ps => self.activation env (b + ps.sum)

end ConvolutionDepthWise

/-! ## More concrete values -/

namespace Sample

/-- A weight source that answers every read of `w` elements with `w` floats `3`. -/
def model_bin : ModelBin :=
  { respond := fun _ w _ => vec (List.replicate w.toNat 3), reads := [] }

/-- A weight source that holds weights only: a read with tag 0 yields two floats, every
other read yields the empty tensor. -/
def model_bin_weights_only : ModelBin :=
  { respond := fun _ _ type => if type = 0 then vec [3, 3] else Mat.nil, reads := [] }

/-- The layer `int8_layer` with per-group weight scales announced (`int8_scale_term` 1). -/
def scaled_layer : ConvolutionDepthWise :=
  { int8_layer with int8_scale_term := 1 }

end Sample

namespace Sample

/-- The environment `env` with an allocator that grants nothing. -/
def env_denied : Env :=
  { env with granted := fun _ => false }

/-- A three-dimensional int8 tensor of `c` channels filled with `v`. -/
def int8_blob (w h c : Nat) (v : Int) : Mat :=
  { dims := 3, w := w, h := h, c := c, elemsize := 1, allocator := none
    data := Buf.ints (List.replicate c (List.replicate (w * h) v)) }

/-- An environment whose sub-layers all return `status`: quantize leaves the destination as
it is, dequantize turns every 32-bit sum into the float of the same value, requantize copies
the sums. -/
def env_status (status : Int) : Env :=
  { env with
    quantize_forward := fun _ _ dst _ => (status, dst)
    dequantize_forward_inplace := fun _ m _ =>
      (status, { m with data := Buf.floats (m.int_planes.map fun p => p.map fun x => (x : ℚ)) })
    requantize_forward := fun _ src dst _ => (status, { dst with data := src.data }) }

/-- The layer `int8_layer` with its int8 pipeline in place, on the dequantize path: stride
and dilation 1, one quantize and one dequantize sub-layer per group. -/
def int8_dequant : ConvolutionDepthWise :=
  { int8_layer with
    dilation_w := 1, dilation_h := 1, stride_w := 1, stride_h := 1
    use_int8_inference := true, use_int8_requantize := false
    quantize_ops := [{ scale := 4 }, { scale := 4 }]
    dequantize_ops := [{ scale := 0, bias_term := 0, bias_data_size := 1, bias_data := Mat.nil },
      { scale := 1 / 8, bias_term := 0, bias_data_size := 1, bias_data := Mat.nil }] }

/-- The layer `int8_dequant` with a fused clamp to `[0, 1]` (`activation_type` 3). -/
def int8_clamped : ConvolutionDepthWise :=
  { int8_dequant with activation_type := 3, activation_params := vec [0, 1] }

/-- The float layer `depthwise 2 2 (1/2)` with a fused clamp to `[0, 1]`
(`activation_type` 3). -/
def clamped : ConvolutionDepthWise :=
  { depthwise 2 2 (1 / 2) with activation_type := 3, activation_params := vec [0, 1] }

end Sample

/-! ## `ReLU_arm` (`src/layer/arm/relu_arm.cpp`) -/

/-- C shift `a >> k` on `int`: the arithmetic shift, the floor of `a / 2^k`. -/
def c_shr (a : Int) (k : Nat) : Int := a >>> k

/-- C shift `a << k` on an `int` that does not overflow: `a * 2^k`. -/
def c_shl (a : Int) (k : Nat) : Int := a * 2 ^ k

/-- The builds of `relu_arm.cpp` that the preprocessor tells apart: without `__ARM_NEON`,
with `__ARM_NEON` and `__aarch64__` (intrinsics), with `__ARM_NEON` alone (inline
assembly). -/
inductive Build where
  | portable
  | aarch64
  | armv7
  deriving DecidableEq

/-- Modelled from the spec: the NEON load `vld1q_s8(ptr)` (from `arm_neon.h`, not part of the
sources): the 16 lanes at `ptr, ..., ptr+15` of the buffer `mem`; a fault when one of them is
outside. -/
def vld1q_s8 (mem : List Int) (ptr : Nat) : Option (List Int) :=
  collect (fun lane => mem[ptr + lane]?) 16

/-- Modelled from the spec: the NEON constant `vdupq_n_s8(v)`: 16 lanes holding `v`. -/
def vdupq_n_s8 (v : Int) : List Int :=
  List.replicate 16 v

/-- Modelled from the spec: the NEON maximum `vmaxq_s8(a, b)`, lane by lane. -/
def vmaxq_s8 (a b : List Int) : List Int :=
  List.zipWith max a b

/-- Modelled from the spec: the NEON store `vst1q_s8(ptr, v)`: the lanes of `v` written at
`ptr, ..., ptr+15`; a fault when one of the cells is outside the buffer. -/
def vst1q_s8 (mem : List Int) (ptr : Nat) (v : List Int) : Option (List Int) :=
  if ptr + 16 ≤ mem.length then some (mem.take ptr ++ v ++ mem.drop (ptr + 16)) else none

/-- The layer `ReLU_arm`: the field `slope` of its base class `ReLU` (`relu.h`). -/
structure ReLU_arm where
  slope : ℚ

namespace ReLU_arm

/-- Lines 58-62 (and the body of the assembly loop of lines 70-75): one 16-lane block, on
the state made of the channel buffer and the position of `ptr` in it. -/
def vector_block (s : List Int × Nat) : Option (List Int × Nat) :=
  (vld1q_s8 s.1 s.2).bind fun _p =>
    (vst1q_s8 s.1 s.2 (vmaxq_s8 _p (vdupq_n_s8 0))).map fun mem => (mem, s.2 + 16)

/-- Lines 87-90: one turn of the scalar loop. -/
def scalar_step (s : List Int × Nat) : Option (List Int × Nat) :=
  (s.1[s.2]?).map fun x => (if x < 0 then s.1.set s.2 0 else s.1, s.2 + 1)

/-- Lines 56-63: the loop `for (; nn>0; nn--)` over the 16-lane blocks. -/
def vector_loop (nn : Int) (s : List Int × Nat) : Option (List Int × Nat) :=
  accumulate (fun _ => vector_block) nn.toNat s

/-- Lines 69-75: the assembly loop, which runs its body, decrements the counter and goes
back to the label while the counter is not zero; `n` is the counter after the first
decrement. The channel pointer is taken to have the 16-byte alignment the loads and stores
ask for. -/
def asm_loop (body : List Int × Nat → Option (List Int × Nat)) :
    Nat → List Int × Nat → Option (List Int × Nat)
  | 0, s => body s
  | n + 1, s => (body s).bind (asm_loop body n)

/-- Lines 85-91: the loop `for (; remain>0; remain--)` over single elements. -/
def scalar_tail (remain : Int) (s : List Int × Nat) : Option (List Int × Nat) :=
  accumulate (fun _ => scalar_step) remain.toNat s

/-- Lines 44-91: the body of the loop over the channels, on the buffer of one channel. -/
def channel_int8 (build : Build) (size : Int) (mem : List Int) : Option (List Int) :=
  match build with
  | Build.portable =>
    let remain := size
    (scalar_tail remain (mem, 0)).map Prod.fst
  | Build.aarch64 =>
    let nn := c_shr size 4
    let remain := size - c_shl nn 4
    ((vector_loop nn (mem, 0)).bind (scalar_tail remain)).map Prod.fst
  | Build.armv7 =>
    let nn := c_shr size 4
    let remain := size - c_shl nn 4
    ((if nn > 0 then asm_loop vector_block (nn.toNat - 1) (mem, 0) else some (mem, 0)).bind
      (scalar_tail remain)).map Prod.fst

/-- The method `forward_inplace_int8` (lines 32-111): status and blob afterwards. With a
slope other than zero nothing is done (the branch holds a commented-out loop only). -/
def forward_inplace_int8 (self : ReLU_arm) (build : Build) (bottom_top_blob : Mat)
    (_opt : Opt) : Option (Int × Mat) :=
  let w := bottom_top_blob.w
  let h := bottom_top_blob.h
  let channels := bottom_top_blob.c
  let size := w * h
  if self.slope = 0 then
    (accumulate (fun q planes =>
        (channel_int8 build size (planes[q]?.getD [])).map fun mem => planes.set q mem)
      channels.toNat bottom_top_blob.int_planes).map fun planes =>
      (0, { bottom_top_blob with
            data := match bottom_top_blob.data with
              | Buf.ints _ => Buf.ints planes
              | d => d })
  else
    -- TODO
    some (0, bottom_top_blob)

/-- The method `forward_inplace`, lines 113-116: a blob of element size 1 goes to
`forward_inplace_int8`. The float paths of lines 118-417 are not embedded: what they do is
the parameter `float_paths`. -/
def forward_inplace (self : ReLU_arm) (build : Build)
    (float_paths : Mat → Opt → Option (Int × Mat)) (bottom_top_blob : Mat) (opt : Opt) :
    Option (Int × Mat) :=
  if bottom_top_blob.elemsize = 1 then self.forward_inplace_int8 build bottom_top_blob opt
  else float_paths bottom_top_blob opt

end ReLU_arm

/-! ## `Split` (`src/layer/split.cpp`) -/

namespace Split

/-- The method `Split::forward` (lines 29-38): status and output blobs afterwards. Taking
`bottom_blobs[0]` is a fault when there is no input blob; the input blobs are passed by
reference to `const` and are not part of the result. -/
def forward (bottom_blobs top_blobs : List Mat) (_opt : Opt) : Option (Int × List Mat) :=
  (bottom_blobs[0]?).bind fun bottom_blob =>
    (accumulate (fun i tops => some (tops.set i bottom_blob)) top_blobs.length top_blobs).map
      fun tops => (0, tops)

end Split

/-! ## More definitions in the words of the claims -/

/-- The list `l` with `f` applied to each of its first `k` entries, in place and in order;
the other entries are left alone. -/
def map_leading {α : Type} (f : α → α) (k : Nat) (l : List α) : List α :=
  (l.take k).map f ++ l.drop k

/-- The ReLU on the first `k` cells of a channel buffer as the claim words it: every element
`x` becomes `max(x, 0)`. -/
def relu_leading (k : Nat) (mem : List Int) : List Int :=
  map_leading (fun x => max x 0) k mem

/-- The ReLU on the first `size` cells of each of the first `channels` channel buffers. -/
def relu_channels (channels size : Nat) (planes : List (List Int)) : List (List Int) :=
  map_leading (relu_leading size) channels planes


/-! ## Concrete values for `ReLU_arm` and `Split` -/

namespace Sample

/-- A ReLU layer with slope 0. -/
def relu : ReLU_arm :=
  { slope := 0 }

/-- A leaky ReLU layer with slope 1/10. -/
def leaky_relu : ReLU_arm :=
  { slope := 1 / 10 }

/-- An int8 blob of one channel of 18 cells holding -9, -8, ..., 8: one 16-lane block and a
tail of two. -/
def int8_cells : Mat :=
  { dims := 3, w := 18, h := 1, c := 1, elemsize := 1, allocator := none
    data := Buf.ints [(List.range 18).map fun n => (n : Int) - 9] }

end Sample

/-! ## Concrete values for the padding modes and short inputs -/

namespace Sample

/-- A plane of `w` by `h` cells inside a border of `t` rows above, `b` rows below, `l`
columns to the left and `r` to the right, the cells of the border holding `v`. -/
def pad_plane {α : Type} (w h t b l r : Int) (v : α) (p : List α) : List α :=
  ((List.range (h + t + b).toNat).map fun y =>
    (List.range (w + l + r).toNat).map fun x =>
      if t ≤ (y : Int) ∧ (y : Int) < t + h ∧ l ≤ (x : Int) ∧ (x : Int) < l + w then
        (p[(((y : Int) - t) * w + ((x : Int) - l)).toNat]?).getD v
      else v).flatten

/-- The environment `env_status 0` with a border step that does add the border: the width
becomes `w + left + right`, the height `h + top + bottom`, float cells of the border hold
the pad value and integer cells of the border hold `0`. -/
def env_border : Env :=
  { env_status 0 with
    copy_make_border := fun m t b l r v _ =>
      { m with
        w := m.w + l + r
        h := m.h + t + b
        data := match m.data with
          | Buf.floats planes => Buf.floats (planes.map (pad_plane m.w m.h t b l r v))
          | Buf.ints planes => Buf.ints (planes.map (pad_plane m.w m.h t b l r 0))
          | d => d } }

/-- The int8 depth-wise layer `int8_dequant` with a 3x3 kernel of weights 1 (first channel)
and 2 (second channel), stride 2 and the pad code `pad` on the four sides. -/
def int8_same (pad : Int) : ConvolutionDepthWise :=
  { int8_dequant with
    kernel_w := 3, kernel_h := 3, stride_w := 2, stride_h := 2
    pad_left := pad, pad_right := pad, pad_top := pad, pad_bottom := pad
    weight_data_size := 18
    weight_data := bytes (List.replicate 9 1 ++ List.replicate 9 2) }

/-- The int8 depth-wise layer `int8_dequant` with a kernel 3 wide and 1 high of weights 1
(first channel) and 2 (second channel), horizontal stride `stride_w`, vertical stride 2 and
the pad code `pad` on the four sides. -/
def int8_wide (stride_w pad : Int) : ConvolutionDepthWise :=
  { int8_dequant with
    kernel_w := 3, kernel_h := 1, stride_w := stride_w, stride_h := 2
    pad_left := pad, pad_right := pad, pad_top := pad, pad_bottom := pad
    weight_data_size := 6
    weight_data := bytes [1, 1, 1, 2, 2, 2] }

end Sample

/-! ## Definitions in the words of the claims: int8 products and pipeline calls -/

namespace ConvolutionDepthWise

/-- The integer products `input * weight` of the `maxk` taps of one input channel, in tap
order, computed without wrapping. -/
def int_tap_products (ofs : List Int) (sptr kptr : Int → Option Int) (maxk : Int) :
    Option (List Int) :=
  collect (fun k =>
    (at? ofs k).bind fun o => (sptr o).bind fun val => (kptr k).map fun w => val * w)
    maxk.toNat

/-- The integer products over all taps of output position `(i, j)` of channel `g` of a
depth-wise convolution. -/
def int_depthwise_products (K : Kernel Int) (g i j : Nat) : Option (List Int) :=
  int_tap_products K.ofs (fun o => K.input g (K.w * (i * K.stride_h) + j * K.stride_w + o))
    (fun k => K.weight (K.maxk * g + k)) K.maxk

/-- The integer products over all taps of all input channels of group `g`, for output
position `(i, j)` of output channel `p` of the group. -/
def int_grouped_products (K : Kernel Int) (channels_g num_output_g : Int) (g p i j : Nat) :
    Option (List Int) :=
  (collect (fun q =>
    int_tap_products K.ofs
      (fun o => K.input (channels_g * g + q) (K.w * (i * K.stride_h) + j * K.stride_w + o))
      (fun k => K.weight
        (K.maxk * channels_g * num_output_g * g + K.maxk * channels_g * p + K.maxk * q + k))
      K.maxk)
    channels_g.toNat).map List.flatten

/-- A call of one of the two pipeline methods, with the option it is given. -/
inductive PipelineCall where
  | create (opt : Opt)
  | destroy (opt : Opt)

/-- The method behind a pipeline call, applied to a layer: status and layer afterwards. -/
def PipelineCall.apply (env : Env) (self : ConvolutionDepthWise) :
    PipelineCall → Option (Int × ConvolutionDepthWise)
  | PipelineCall.create opt => self.create_pipeline env opt
  | PipelineCall.destroy opt => some (self.destroy_pipeline opt)

/-- A sequence of successful pipeline calls: the layer after the calls have been made in
order, provided every one of them has returned `0`. -/
def run_calls (env : Env) : List PipelineCall → ConvolutionDepthWise →
    Option ConvolutionDepthWise
  | [], self => some self
  | c :: cs, self =>
    (c.apply env self).bind fun r => if r.1 = 0 then run_calls env cs r.2 else none

/-- No `create_pipeline` of the sequence follows another one without a `destroy_pipeline`
in between; `created` tells whether the call before the sequence was a `create_pipeline`. -/
def creates_apart (created : Bool) : List PipelineCall → Bool
  | [] => true
  | PipelineCall.create _ :: cs => !created && creates_apart true cs
  | PipelineCall.destroy _ :: cs => creates_apart false cs

/-- Whether the last call made was a `create_pipeline`, `created` telling it for the call
before the sequence. -/
def created_last (created : Bool) : List PipelineCall → Bool
  | [] => created
  | PipelineCall.create _ :: cs => created_last true cs
  | PipelineCall.destroy _ :: cs => created_last false cs

end ConvolutionDepthWise

namespace Sample

/-- An int8 layer of one group with two output channels, the bias `10` for the first and
`20` for the second, the weight scale `2` and the input scale `4`. -/
def int8_grouped : ConvolutionDepthWise :=
  { int8_layer with
    group := 1, num_output := 2, bias_term := 1
    bias_data := vec [10, 20]
    weight_data_int8_scales := vec [2]
    bottom_blob_int8_scales := vec [4] }

end Sample

/-! ## The activation on `float` values that may be NaN -/

/-- A `float` as the comparisons of lines 696-717 see it: a number (infinities are left
out), or NaN, with which every comparison is false and every product is NaN. -/
inductive FloatValue where
  | nan
  | num (x : ℚ)
  deriving DecidableEq

namespace FloatValue

/-- The comparison `a < b` of two `float` values: false when one of them is NaN. -/
def lt : FloatValue → FloatValue → Bool
  | num a, num b => decide (a < b)
  | _, _ => false

/-- The comparison `a <= b` of two `float` values: false when one of them is NaN. -/
def le : FloatValue → FloatValue → Bool
  | num a, num b => decide (a ≤ b)
  | _, _ => false

/-- The product `a * b` of two `float` values, exact on numbers. -/
def mul : FloatValue → FloatValue → FloatValue
  | num a, num b => num (a * b)
  | _, _ => nan

/-- Modelled from the spec: `std::max(a, b)` of the C++ library, which is
`(a < b) ? b : a`. -/
def std_max (a b : FloatValue) : FloatValue :=
  if a.lt b then b else a

end FloatValue

namespace ConvolutionDepthWise

/-- The fused activation of lines 696-717 and 771-792 on a sum that may be NaN. On numbers
it is `activation`. -/
def activation_float (self : ConvolutionDepthWise) (env : Env) (sum : FloatValue) :
    Option FloatValue :=
  if self.activation_type = 1 then some (FloatValue.std_max sum (FloatValue.num 0))
  else if self.activation_type = 2 then
    (self.activation_params.float_at 0).map fun slope =>
      if (FloatValue.num 0).lt sum then sum else sum.mul (FloatValue.num slope)
  else if self.activation_type = 3 then
    (self.activation_params.float_at 0).bind fun min =>
      (self.activation_params.float_at 1).map fun max =>
        let sum1 := if sum.lt (FloatValue.num min) then FloatValue.num min else sum
        if (FloatValue.num max).lt sum1 then FloatValue.num max else sum1
  else if self.activation_type = 4 then
    some (match sum with
      | FloatValue.num s => FloatValue.num (1 / (1 + env.exp (-s)))
      | FloatValue.nan => FloatValue.nan)
  else some sum

/-- The output elements of the float path as the claim words them: for the depth-wise
branch, one plane per group of elements `float_element` over the products of the taps; for
the grouped branch, one plane per output channel of every group. -/
def float_output_elements (self : ConvolutionDepthWise) (env : Env) (K : Kernel ℚ)
    (channels outw outh : Int) : Option (List (List ℚ)) :=
  if channels = self.group ∧ self.group = self.num_output then
    collect (fun g => plane outw outh fun i j =>
      self.float_element env g (depthwise_products K g i j)) self.group.toNat
  else
    (collect (fun g => collect (fun p => plane outw outh fun i j =>
      self.float_element env (self.num_output.tdiv self.group * g + p)
        (grouped_products K (channels.tdiv self.group) (self.num_output.tdiv self.group)
          g p i j))
      (self.num_output.tdiv self.group).toNat) self.group.toNat).map List.flatten

end ConvolutionDepthWise

namespace Sample

/-- A float depth-wise layer of two channels with a 1x1 kernel, the weights `2` and `3`,
the bias `1/2` and `-5` and a fused clamp to `[0, 1]` (`activation_type` 3). -/
def float_clamped : ConvolutionDepthWise :=
  { layer with
    num_output := 2, group := 2, kernel_w := 1, kernel_h := 1, dilation_w := 1
    dilation_h := 1, stride_w := 1, stride_h := 1, bias_term := 1, weight_data_size := 2
    weight_data := vec [2, 3]
    bias_data := vec [1 / 2, -5]
    activation_type := 3, activation_params := vec [0, 1] }

end Sample

/-! ## Basic facts about the arithmetic and the loops -/

theorem c_mod_of_ne {a b : Int} (h : b ≠ 0) (h1 : b ≠ -1) : c_mod a b = some (a.tmod b) := by
  simp [c_mod, h, h1]

theorem c_mod_of_safe {a b : Int} (h : b ≠ 0) (h1 : ¬ (a = -2147483648 ∧ b = -1)) :
    c_mod a b = some (a.tmod b) := by
  unfold c_mod
  rw [if_neg]
  rintro (h2 | h2)
  · exact h h2
  · exact h1 h2

theorem c_mod_of_pos {a b : Int} (h : 0 < b) : c_mod a b = some (a.tmod b) :=
  c_mod_of_ne (by omega) (by omega)

theorem c_div_of_pos {a b : Int} (h : 0 < b) : c_div a b = some (a.tdiv b) := by
  have h0 : b ≠ 0 := by omega
  have h1 : b ≠ -1 := by omega
  simp [c_div, h0, h1]

/-- The remainder by `-1` is zero. -/
theorem tmod_neg_one (a : Int) : a.tmod (-1) = 0 := by
  rw [Int.tmod_neg, Int.tmod_one]

/-- A remainder that is not zero comes from a divisor other than `-1`. -/
theorem ne_neg_one_of_tmod_ne {a b : Int} (h : a.tmod b ≠ 0) : b ≠ -1 := by
  intro hb
  rw [hb] at h
  exact h (tmod_neg_one a)

/-- The remainder faults exactly when the divisor is zero or the operands are `INT_MIN` and
`-1`. -/
theorem c_mod_eq_none_iff (a b : Int) :
    c_mod a b = none ↔ (b = 0 ∨ (a = -2147483648 ∧ b = -1)) := by
  unfold c_mod
  split <;> simp_all

theorem collect_succ {α : Type} (f : Nat → Option α) (n : Nat) :
    collect f (n + 1) = (collect f n).bind fun xs => (f n).map fun x => xs ++ [x] := rfl

theorem collect_eq_some_iff {α : Type} (f : Nat → Option α) (n : Nat) (xs : List α) :
    collect f n = some xs ↔ xs.length = n ∧ ∀ i, i < n → f i = xs[i]? := by
  induction n generalizing xs with
  | zero =>
    simp only [collect, Option.some.injEq]
    constructor
    · intro h; subst h; simp
    · intro h; exact (List.length_eq_zero.mp h.1).symm
  | succ n ih =>
    rw [collect_succ]
    constructor
    · intro h
      rw [Option.bind_eq_some] at h
      obtain ⟨ys, hys, h⟩ := h
      rw [Option.map_eq_some'] at h
      obtain ⟨y, hy, h⟩ := h
      subst h
      obtain ⟨hl, hi⟩ := (ih ys).mp hys
      refine ⟨by simp [hl], fun i hlt => ?_⟩
      rcases Nat.lt_succ_iff_lt_or_eq.mp hlt with h1 | h1
      · rw [hi i h1, List.getElem?_append_left (by omega)]
      · subst h1
        rw [hy, List.getElem?_append_right (by omega)]
        simp [hl]
    · intro ⟨hl, hi⟩
      have hne : xs ≠ [] := by
        intro h; subst h; simp at hl
      obtain ⟨ys, y, rfl⟩ : ∃ ys y, xs = ys ++ [y] :=
        ⟨xs.dropLast, xs.getLast hne, (List.dropLast_append_getLast hne).symm⟩
      have hl1 : ys.length = n := by simpa using hl
      have hys : collect f n = some ys := by
        refine (ih ys).mpr ⟨hl1, fun i hlt => ?_⟩
        rw [hi i (by omega), List.getElem?_append_left (by omega)]
      have hy : f n = some y := by
        rw [hi n (by omega), List.getElem?_append_right (by omega)]
        simp [hl1]
      simp [hys, hy]

theorem collect_length {α : Type} {f : Nat → Option α} {n : Nat} {xs : List α}
    (h : collect f n = some xs) : xs.length = n :=
  ((collect_eq_some_iff f n xs).mp h).1

theorem collect_get {α : Type} {f : Nat → Option α} {n : Nat} {xs : List α}
    (h : collect f n = some xs) {i : Nat} (hi : i < n) : xs[i]? = f i :=
  (((collect_eq_some_iff f n xs).mp h).2 i hi).symm

theorem collect_of_forall {α : Type} (f : Nat → Option α) (g : Nat → α) (n : Nat)
    (h : ∀ i, i < n → f i = some (g i)) : collect f n = some ((List.range n).map g) := by
  rw [collect_eq_some_iff]
  refine ⟨by simp, fun i hi => ?_⟩
  rw [h i hi]
  simp [hi]

theorem collect_congr {α : Type} (f g : Nat → Option α) (n : Nat)
    (h : ∀ i, i < n → f i = g i) : collect f n = collect g n := by
  induction n with
  | zero => rfl
  | succ n ih =>
    rw [collect_succ, collect_succ, ih (fun i hi => h i (by omega)), h n (by omega)]

theorem collect_isSome {α : Type} (f : Nat → Option α) (n : Nat)
    (h : ∀ i, i < n → ∃ y, f i = some y) : ∃ xs, collect f n = some xs := by
  induction n with
  | zero => exact ⟨[], rfl⟩
  | succ n ih =>
    obtain ⟨xs, hxs⟩ := ih (fun i hi => h i (by omega))
    obtain ⟨y, hy⟩ := h n (by omega)
    exact ⟨xs ++ [y], by simp [collect_succ, hxs, hy]⟩

theorem collect_eq_none_iff {α : Type} (f : Nat → Option α) (n : Nat) :
    collect f n = none ↔ ∃ i, i < n ∧ f i = none := by
  induction n with
  | zero => simp [collect]
  | succ n ih =>
    rw [collect_succ]
    constructor
    · intro h
      cases hc : collect f n with
      | none =>
        obtain ⟨i, hi, hf⟩ := ih.mp hc
        exact ⟨i, by omega, hf⟩
      | some xs =>
        rw [hc] at h
        cases hf : f n with
        | none => exact ⟨n, by omega, hf⟩
        | some y => simp [hf] at h
    · intro ⟨i, hi, hf⟩
      rcases Nat.lt_succ_iff_lt_or_eq.mp hi with h1 | h1
      · rw [ih.mpr ⟨i, h1, hf⟩]; rfl
      · subst h1
        cases collect f i <;> simp [hf]

theorem collect_one {α : Type} (f : Nat → Option α) :
    collect f 1 = (f 0).map fun x => [x] := by
  simp [collect]

theorem collect_singletons_flatten {α : Type} (f : Nat → Option (List α)) (n : Nat) :
    (collect (fun g => (f g).map fun x => [x]) n).map List.flatten = collect f n := by
  induction n with
  | zero => rfl
  | succ n ih =>
    rw [collect_succ, collect_succ, ← ih]
    cases collect (fun g => (f g).map fun x => [x]) n with
    | none => rfl
    | some xs =>
      cases f n with
      | none => rfl
      | some y => simp

theorem collect_bind_each_group {α β : Type} (C : Nat → Option (List (List α)))
    (post : Nat → List (List α) → Option (List (List β))) (n : Nat) :
    (collect C n).bind (ConvolutionDepthWise.each_group post) =
      (collect (fun g => (C g).bind (post g)) n).map List.flatten := by
  cases hc : collect C n with
  | none =>
    obtain ⟨i, hi, hf⟩ := (collect_eq_none_iff C n).mp hc
    have : collect (fun g => (C g).bind (post g)) n = none :=
      (collect_eq_none_iff _ n).mpr ⟨i, hi, by simp [hf]⟩
    rw [this]; rfl
  | some groups =>
    simp only [Option.some_bind, ConvolutionDepthWise.each_group, collect_length hc]
    congr 1
    apply collect_congr
    intro i hi
    rw [collect_get hc hi]

theorem accumulate_succ {σ : Type} (step : Nat → σ → Option σ) (n : Nat) (s : σ) :
    accumulate step (n + 1) s = (accumulate step n s).bind (step n) := rfl

theorem accumulate_add_const (step : Nat → ℚ → Option ℚ) (d : ℚ) (n : Nat) (s : ℚ)
    (h : ∀ i, i < n → ∀ s, step i s = some (s + d)) :
    accumulate step n s = some (s + n * d) := by
  induction n with
  | zero => simp [accumulate]
  | succ n ih =>
    rw [accumulate_succ, ih (fun i hi => h i (by omega)), Option.some_bind, h n (by omega)]
    push_cast
    congr 1
    ring

theorem collect_const {α : Type} (f : Nat → Option α) (v : α) (n : Nat)
    (h : ∀ i, i < n → f i = some v) : collect f n = some (List.replicate n v) := by
  induction n with
  | zero => rfl
  | succ n ih =>
    rw [collect_succ, ih (fun i hi => h i (by omega)), h n (by omega)]
    simp [List.replicate_succ']

theorem flatten_replicate_replicate {α : Type} (a b : Nat) (v : α) :
    (List.replicate a (List.replicate b v)).flatten = List.replicate (a * b) v := by
  induction a with
  | zero => simp
  | succ a ih =>
    rw [List.replicate_succ, List.flatten_cons, ih, ← List.replicate_add]
    congr 1
    ring

theorem at?_natCast {α : Type} (l : List α) (i : Nat) : at? l (i : Int) = l[i]? := by
  simp [at?]

theorem accumulate_one {σ : Type} (step : Nat → σ → Option σ) (s : σ) :
    accumulate step 1 s = step 0 s := by
  simp [accumulate]

theorem at?_replicate {α : Type} (n : Nat) (v : α) (i : Int) (h0 : 0 ≤ i) (h1 : i < n) :
    at? (List.replicate n v) i = some v := by
  have h2 : i.toNat < n := by omega
  simp [at?, not_lt.mpr h0, List.getElem?_replicate, h2]

theorem blob_read (w h c : Nat) (v : ℚ) (q i : Int) (hq0 : 0 ≤ q) (hq : q < c) (hi0 : 0 ≤ i)
    (hi : i < (w : Int) * h) : (Sample.blob w h c v).read_float q i = some v := by
  have hi1 : i < ((w * h : Nat) : Int) := by push_cast; exact hi
  simp [Sample.blob, Mat.read_float, at?_replicate _ _ q hq0 hq, at?_replicate _ _ i hi0 hi1]

theorem vec_replicate_at (n : Nat) (v : ℚ) (i : Int) (hi0 : 0 ≤ i) (hi : i < n) :
    (Sample.vec (List.replicate n v)).float_at i = some v := by
  have h0 : at? [List.replicate n v] 0 = some (List.replicate n v) := by simp [at?]
  simp [Sample.vec, Mat.float_at, Mat.read_float, h0, at?_replicate _ _ i hi0 hi]

namespace Mat

theorem create_w (m : Mat) (w h c : Int) (e : Nat) (a : Allocator) (g : Bool) :
    (m.create w h c e a g).w = w := by
  unfold create; split
  · rename_i hc; exact hc.2.1
  · rfl

theorem create_h (m : Mat) (w h c : Int) (e : Nat) (a : Allocator) (g : Bool) :
    (m.create w h c e a g).h = h := by
  unfold create; split
  · rename_i hc; exact hc.2.2.1
  · rfl

theorem create_c (m : Mat) (w h c : Int) (e : Nat) (a : Allocator) (g : Bool) :
    (m.create w h c e a g).c = c := by
  unfold create; split
  · rename_i hc; exact hc.2.2.2.1
  · rfl

/-- Creation succeeds when there is at least one element, the allocator grants the request
and a blob that already has the shape has storage. -/
theorem create_not_empty (m : Mat) (w h c : Int) (e : Nat) (a : Allocator)
    (hpos : 0 < w * h * c) (hm : m.dims = 3 → m.data ≠ Buf.null) :
    (m.create w h c e a true).empty = false := by
  have ht : (m.create w h c e a true).total ≠ 0 := by
    unfold total
    rw [create_w, create_h, create_c]
    exact ne_of_gt hpos
  have hd : (m.create w h c e a true).data ≠ Buf.null := by
    unfold create; split
    · rename_i hc; exact hm hc.1
    · simp [hpos]
  simp [empty, ht, hd]

end Mat

namespace ConvolutionDepthWise

/-! ## Rejection of an invalid group -/

theorem read_params_num_output (self : ConvolutionDepthWise) (pd : ParamDict) :
    (self.read_params pd).num_output = pd.get 0 0 := rfl

theorem read_params_group (self : ConvolutionDepthWise) (pd : ParamDict) :
    (self.read_params pd).group = pd.get 7 1 := rfl

/-- With a non-zero group in the dictionary, the pair `INT_MIN`, `-1` apart, `load_param`
returns, with status `-100` when the group does not divide the output count and `0`
otherwise. -/
theorem load_param_eq (self : ConvolutionDepthWise) (pd : ParamDict) (h : pd.get 7 1 ≠ 0)
    (hsafe : ¬ (pd.get 0 0 = -2147483648 ∧ pd.get 7 1 = -1)) :
    self.load_param pd =
      some (if (pd.get 0 0).tmod (pd.get 7 1) ≠ 0 then -100 else 0, self.read_params pd) := by
  unfold load_param
  simp only [read_params_num_output, read_params_group, c_mod_of_safe h hsafe,
    Option.some_bind]
  split <;> rfl

/-- The group check of `forward` answers `-100` and hands the output blob back untouched. -/
theorem forward_reject (self : ConvolutionDepthWise) (env : Env) (bottom_blob top_blob : Mat)
    (opt : Opt) (hg : self.group ≠ 0)
    (h : bottom_blob.c.tmod self.group ≠ 0 ∨ self.num_output.tmod self.group ≠ 0) :
    self.forward env bottom_blob top_blob opt = some (-100, top_blob) := by
  have hg1 : self.group ≠ -1 := by
    rcases h with h | h
    · exact ne_neg_one_of_tmod_ne h
    · exact ne_neg_one_of_tmod_ne h
  unfold forward
  simp only [c_mod_of_ne hg hg1, Option.some_bind]
  by_cases h1 : bottom_blob.c.tmod self.group ≠ 0
  · simp [h1]
  · have h2 : self.num_output.tmod self.group ≠ 0 := by tauto
    simp [h1, h2]

/-- C1, as stated, fails: for `num_output=10`, `group=3` the status of `load_param` is `-100`,
not the configuration-error status `-1`. -/
theorem load_param_10_3_status_is_not_config_error :
    (Sample.layer.load_param Sample.pd_10_3).map Prod.fst = some (-100) ∧
      (Sample.layer.load_param Sample.pd_10_3).map Prod.fst ≠ some (-1) := by
  decide

/-- C1, amended: whenever `load_param` rejects an invalid group (`num_output % group != 0`)
and whenever `forward` rejects one (`channels % group != 0` or `num_output % group != 0`),
the status returned is `-100`. -/
theorem invalid_group_status (layer0 : ConvolutionDepthWise) (pd : ParamDict)
    (self : ConvolutionDepthWise) (env : Env) (bottom_blob top_blob : Mat) (opt : Opt)
    (hpd0 : pd.get 7 1 ≠ 0) (hpd : (pd.get 0 0).tmod (pd.get 7 1) ≠ 0)
    (hg : self.group ≠ 0)
    (h : bottom_blob.c.tmod self.group ≠ 0 ∨ self.num_output.tmod self.group ≠ 0) :
    (layer0.load_param pd).map Prod.fst = some (-100) ∧
      (self.forward env bottom_blob top_blob opt).map Prod.fst = some (-100) := by
  rw [load_param_eq layer0 pd hpd0 (fun h0 => ne_neg_one_of_tmod_ne hpd h0.2),
    forward_reject self env bottom_blob top_blob opt hg h]
  simp [hpd]

/-- Instance of `invalid_group_status`: the dictionary `num_output=10`, `group=3`, and the
layer it leaves behind run on a three-channel input. -/
theorem invalid_group_status_witness :
    Sample.pd_10_3.get 7 1 ≠ 0 ∧ (Sample.pd_10_3.get 0 0).tmod (Sample.pd_10_3.get 7 1) ≠ 0 ∧
      (Sample.layer.load_param Sample.pd_10_3).map Prod.fst = some (-100) ∧
      ((Sample.layer.read_params Sample.pd_10_3).forward Sample.env (Sample.blob 3 3 3 1)
        Mat.nil Sample.opt).map Prod.fst = some (-100) :=
  ⟨by decide, by decide,
    invalid_group_status Sample.layer Sample.pd_10_3 (Sample.layer.read_params Sample.pd_10_3)
      Sample.env (Sample.blob 3 3 3 1) Mat.nil Sample.opt (by decide) (by decide) (by decide)
      (Or.inr (by decide))⟩

/-- C2, as stated, fails: for `num_output = INT_MIN` (-2147483648) and `group = -1` the group
is not zero and the mathematical remainder is `0`, but `load_param` evaluates
`INT_MIN % -1`, whose behaviour is undefined (a trap on the common targets): it returns no
status, and so not `0`. -/
theorem load_param_min_neg_one_faults :
    (Sample.pd_min_neg_one.ints.lookup 7).getD 1 ≠ 0 ∧
    ((Sample.pd_min_neg_one.ints.lookup 0).getD 0).tmod
      ((Sample.pd_min_neg_one.ints.lookup 7).getD 1) = 0 ∧
    Sample.layer.load_param Sample.pd_min_neg_one = none :=
  ⟨by decide, by decide, rfl⟩

/-- C2, amended: for every parameter dictionary whose group is non-zero, `load_param` fails
to return exactly when `num_output` is `INT_MIN` and `group` is `-1`; in every other case it
returns a status, and the status is `0` if and only if `num_output % group == 0`, where
`num_output` is the entry of key 0 (`0` when absent) and `group` the entry of key 7 (`1`
when absent). -/
theorem load_param_accepts_iff (self : ConvolutionDepthWise) (pd : ParamDict)
    (hgroup : (pd.ints.lookup 7).getD 1 ≠ 0) :
    (self.load_param pd = none ↔
      ((pd.ints.lookup 0).getD 0 = -2147483648 ∧ (pd.ints.lookup 7).getD 1 = -1)) ∧
    (¬ ((pd.ints.lookup 0).getD 0 = -2147483648 ∧ (pd.ints.lookup 7).getD 1 = -1) →
      ∃ status layer1, self.load_param pd = some (status, layer1) ∧
        (status = 0 ↔ ((pd.ints.lookup 0).getD 0).tmod ((pd.ints.lookup 7).getD 1) = 0)) := by
  have hret : ¬ ((pd.ints.lookup 0).getD 0 = -2147483648 ∧ (pd.ints.lookup 7).getD 1 = -1) →
      ∃ status layer1, self.load_param pd = some (status, layer1) ∧
        (status = 0 ↔ ((pd.ints.lookup 0).getD 0).tmod ((pd.ints.lookup 7).getD 1) = 0) := by
    intro hsafe
    refine ⟨_, _, load_param_eq self pd hgroup hsafe, ?_⟩
    show (if (pd.get 0 0).tmod (pd.get 7 1) ≠ 0 then (-100 : Int) else 0) = 0 ↔
      (pd.get 0 0).tmod (pd.get 7 1) = 0
    split <;> simp_all
  refine ⟨⟨fun hnone => ?_, fun hbad => ?_⟩, hret⟩
  · by_contra hsafe
    obtain ⟨status, layer1, hsome, -⟩ := hret hsafe
    rw [hnone] at hsome
    exact absurd hsome (by simp)
  · have h1 : c_mod (pd.get 0 0) (pd.get 7 1) = none :=
      (c_mod_eq_none_iff _ _).mpr (Or.inr hbad)
    unfold load_param
    simp only [read_params_num_output, read_params_group, h1, Option.none_bind]

/-- Instance of `load_param_accepts_iff`: `num_output=10`, `group=3` is rejected. -/
theorem load_param_accepts_iff_witness :
    (Sample.pd_10_3.ints.lookup 7).getD 1 ≠ 0 ∧
      Sample.layer.load_param Sample.pd_10_3 ≠ none ∧
      ∃ status layer1, Sample.layer.load_param Sample.pd_10_3 = some (status, layer1) ∧
        (status = 0 ↔
          ((Sample.pd_10_3.ints.lookup 0).getD 0).tmod ((Sample.pd_10_3.ints.lookup 7).getD 1)
            = 0) ∧
        status = -100 := by
  obtain ⟨h1, h2⟩ := load_param_accepts_iff Sample.layer Sample.pd_10_3 (by decide)
  obtain ⟨status, layer1, hl, hiff⟩ := h2 (by decide)
  refine ⟨by decide, fun hn => absurd (h1.mp hn) (by decide), status, layer1, hl, hiff, ?_⟩
  have hl2 := load_param_eq Sample.layer Sample.pd_10_3 (by decide) (by decide)
  rw [hl2] at hl
  simp only [Option.some.injEq, Prod.mk.injEq] at hl
  rw [← hl.1]
  decide

/-- C3: when `load_param` has returned a non-zero status, every later `forward` on the layer
(whatever else has been done to it, as long as `num_output` and `group` are as `load_param`
left them) returns a non-zero status and leaves the output blob as it was, for every input
blob and every option. -/
theorem forward_after_rejected_load_param (layer0 : ConvolutionDepthWise) (pd : ParamDict)
    (status : Int) (layer1 self : ConvolutionDepthWise)
    (hload : layer0.load_param pd = some (status, layer1)) (hstatus : status ≠ 0)
    (hn : self.num_output = layer1.num_output) (hgr : self.group = layer1.group)
    (env : Env) (bottom_blob top_blob : Mat) (opt : Opt) :
    ∃ status1, self.forward env bottom_blob top_blob opt = some (status1, top_blob) ∧
      status1 ≠ 0 := by
  have hg : pd.get 7 1 ≠ 0 := by
    intro h0
    simp [load_param, read_params_group, h0, c_mod] at hload
  have hsafe : ¬ (pd.get 0 0 = -2147483648 ∧ pd.get 7 1 = -1) := by
    intro h0
    simp [load_param, read_params_group, read_params_num_output, h0.1, h0.2, c_mod] at hload
  rw [load_param_eq layer0 pd hg hsafe] at hload
  simp only [Option.some.injEq, Prod.mk.injEq] at hload
  obtain ⟨hs, hl⟩ := hload
  have hbad : (pd.get 0 0).tmod (pd.get 7 1) ≠ 0 := by
    intro h0
    apply hstatus
    rw [← hs]
    simp [h0]
  have hn1 : self.num_output = pd.get 0 0 := by rw [hn, ← hl, read_params_num_output]
  have hg1 : self.group = pd.get 7 1 := by rw [hgr, ← hl, read_params_group]
  refine ⟨-100, forward_reject self env bottom_blob top_blob opt (by rw [hg1]; exact hg)
    (Or.inr (by rw [hn1, hg1]; exact hbad)), by decide⟩

/-- Instance of `forward_after_rejected_load_param`: the layer left by `num_output=10`,
`group=3`, run on a three-channel input. -/
theorem forward_after_rejected_load_param_witness :
    Sample.layer.load_param Sample.pd_10_3 =
        some (-100, Sample.layer.read_params Sample.pd_10_3) ∧
      ∃ status1, (Sample.layer.read_params Sample.pd_10_3).forward Sample.env
          (Sample.blob 3 3 3 1) Mat.nil Sample.opt = some (status1, Mat.nil) ∧ status1 ≠ 0 :=
  ⟨load_param_eq Sample.layer Sample.pd_10_3 (by decide) (by decide),
    forward_after_rejected_load_param Sample.layer Sample.pd_10_3 (-100)
      (Sample.layer.read_params Sample.pd_10_3) (Sample.layer.read_params Sample.pd_10_3)
      (load_param_eq Sample.layer Sample.pd_10_3 (by decide) (by decide)) (by decide) rfl rfl
      Sample.env (Sample.blob 3 3 3 1) Mat.nil Sample.opt⟩

/-! ## Automatic padding -/

theorem floor_half (p : Int) : ⌊(p : ℚ) / 2⌋ = p / 2 := by
  have h := Rat.floor_intCast_div_natCast p 2
  simpa using h

theorem ceil_half (p : Int) : ⌈(p : ℚ) / 2⌉ = (p + 1) / 2 := by
  rw [Int.ceil_eq_iff]
  rcases Int.emod_two_eq_zero_or_one p with h | h
  · have h1 : (p + 1) / 2 = p / 2 := by omega
    have h2 : p = 2 * (p / 2) := by omega
    have h3 : (p : ℚ) = 2 * ((p / 2 : Int) : ℚ) := by exact_mod_cast h2
    rw [h1]
    constructor <;> linarith
  · have h2 : p + 1 = 2 * ((p + 1) / 2) := by omega
    have h3 : (p : ℚ) + 1 = 2 * (((p + 1) / 2 : Int) : ℚ) := by exact_mod_cast h2
    constructor <;> linarith

theorem tdiv_two_of_nonneg {p : Int} (hp : 0 ≤ p) : p.tdiv 2 = p / 2 := by
  rw [Int.tdiv_eq_ediv hp (by decide)]

/-- The two ways to split a total pad `p > 0` of an axis: both sum to `p`; for odd `p` the
split of line 346 is (ceiling, floor) of `p/2` and the split of line 334 is (floor,
ceiling); for even `p` they are the same. -/
theorem pad_split_parity (p : Int) (hp : 0 < p) :
    ((split_upper p).1 + (split_upper p).2 = p ∧ (split_lower p).1 + (split_lower p).2 = p) ∧
    (p % 2 = 1 →
      (split_lower p).1 = ⌈(p : ℚ) / 2⌉ ∧ (split_lower p).2 = ⌊(p : ℚ) / 2⌋ ∧
      (split_upper p).1 = ⌊(p : ℚ) / 2⌋ ∧ (split_upper p).2 = ⌈(p : ℚ) / 2⌉) ∧
    (p % 2 = 0 → split_upper p = split_lower p) := by
  have ht : p.tdiv 2 = p / 2 := tdiv_two_of_nonneg (le_of_lt hp)
  simp only [split_upper, split_lower, ht, floor_half, ceil_half, Prod.mk.injEq]
  refine ⟨⟨by omega, by omega⟩, fun h => ⟨by omega, trivial, trivial, by omega⟩,
    fun h => ⟨by omega, by omega⟩⟩

/-- Instance of `pad_split_parity`: a total pad of 3 is split 1 + 2 by pad code -233 and
2 + 1 by pad code -234. -/
theorem pad_split_parity_witness :
    (0 : Int) < 3 ∧ split_upper 3 = (1, 2) ∧ split_lower 3 = (2, 1) ∧
      (((split_upper 3).1 + (split_upper 3).2 = 3 ∧ (split_lower 3).1 + (split_lower 3).2 = 3) ∧
      ((3 : Int) % 2 = 1 →
        (split_lower 3).1 = ⌈((3 : Int) : ℚ) / 2⌉ ∧ (split_lower 3).2 = ⌊((3 : Int) : ℚ) / 2⌋ ∧
        (split_upper 3).1 = ⌊((3 : Int) : ℚ) / 2⌋ ∧ (split_upper 3).2 = ⌈((3 : Int) : ℚ) / 2⌉) ∧
      ((3 : Int) % 2 = 0 → split_upper 3 = split_lower 3)) :=
  ⟨by decide, by decide, by decide, pad_split_parity 3 (by decide)⟩

/-- C7: for every input extent `n >= 1` and stride `>= 1` the total automatic pad of an axis,
`kernel_extent + (n - 1) / stride * stride - n` with
`kernel_extent = dilation * (kernel - 1) + 1` and truncating division, is computed and equals
`kernel_extent - ((n - 1) mod stride) - 1`; the same function serves both axes and both
automatic modes. -/
theorem auto_pad_eq (dilation kernel n stride : Int) (hn : 1 ≤ n) (hs : 1 ≤ stride) :
    auto_pad (kernel_extent dilation kernel) n stride =
      some (dilation * (kernel - 1) + 1 - (n - 1) % stride - 1) := by
  unfold auto_pad kernel_extent
  rw [c_div_of_pos (by omega)]
  simp only [Option.map_some', Option.some.injEq]
  rw [Int.tdiv_eq_ediv (by omega) (by omega)]
  have h1 := Int.emod_add_ediv (n - 1) stride
  have h2 : (n - 1) / stride * stride = stride * ((n - 1) / stride) := by ring
  rw [h2]
  omega

/-- Instance of `auto_pad_eq`: a 3-tap kernel of dilation 1 on 7 cells with stride 2. -/
theorem auto_pad_eq_witness :
    (1 : Int) ≤ 7 ∧ (1 : Int) ≤ 2 ∧ auto_pad (kernel_extent 1 3) 7 2 = some 2 ∧
      auto_pad (kernel_extent 1 3) 7 2 = some (1 * (3 - 1) + 1 - (7 - 1) % 2 - 1) :=
  ⟨by decide, by decide, by decide, auto_pad_eq 1 3 7 2 (by decide) (by decide)⟩

/-! ## Pipeline creation -/

/-- C9: whenever the loaded weights are int8 (element size 1) and `opt.use_int8_inference`
is false, `create_pipeline` returns `-1` and the layer is exactly what it was: no sub-layer
is created and the weights, the scales and every other field are unchanged. -/
theorem create_pipeline_int8_disabled (self : ConvolutionDepthWise) (env : Env) (opt : Opt)
    (hw : self.weight_data.elemsize = 1) (ho : opt.use_int8_inference = false) :
    self.create_pipeline env opt = some (-1, self) := by
  simp [create_pipeline, hw, ho]

/-- Instance of `create_pipeline_int8_disabled`: a layer holding two int8 weights. -/
theorem create_pipeline_int8_disabled_witness :
    ({ Sample.layer with weight_data := Sample.bytes [1, 2] }).weight_data.elemsize = 1 ∧
      Sample.opt.use_int8_inference = false ∧
      ({ Sample.layer with weight_data := Sample.bytes [1, 2] }).create_pipeline Sample.env
        Sample.opt = some (-1, { Sample.layer with weight_data := Sample.bytes [1, 2] }) :=
  ⟨rfl, rfl, create_pipeline_int8_disabled _ Sample.env Sample.opt rfl rfl⟩

/-! ## Sub-layers built by `create_pipeline` and `create_requantize_op` -/

/-- What `make_requantize_op` builds, read off the two scales of the group. -/
theorem make_requantize_op_eq (self : ConvolutionDepthWise) (g : Nat) (ws : ℚ)
    (hws : self.weight_data_int8_scales.float_at g = some ws) :
    (ws = 0 → self.make_requantize_op g =
      some ({ scale_in := 0, scale_out := self.top_blob_int8_scale, bias_term := self.bias_term
              bias_data_size := 1, bias_data := self.bias_data.range g 1 }, [])) ∧
    (ws ≠ 0 → ∀ bs, self.bottom_blob_int8_scales.float_at g = some bs →
      self.make_requantize_op g =
        some ({ scale_in := 1 / (bs * ws), scale_out := self.top_blob_int8_scale
                bias_term := self.bias_term, bias_data_size := 1
                bias_data := self.bias_data.range g 1 }, [(1, bs * ws)])) := by
  constructor
  · intro h0
    simp [make_requantize_op, hws, h0]
  · intro h0 bs hbs
    simp [make_requantize_op, hws, h0, hbs]

theorem make_dequantize_op_eq (self : ConvolutionDepthWise) (g : Nat) (ws : ℚ)
    (hws : self.weight_data_int8_scales.float_at g = some ws) :
    (ws = 0 → self.make_dequantize_op g =
      some ({ scale := 0, bias_term := self.bias_term
              bias_data_size := 1, bias_data := self.bias_data.range g 1 }, [])) ∧
    (ws ≠ 0 → ∀ bs, self.bottom_blob_int8_scales.float_at g = some bs →
      self.make_dequantize_op g =
        some ({ scale := 1 / (bs * ws)
                bias_term := self.bias_term, bias_data_size := 1
                bias_data := self.bias_data.range g 1 }, [(1, bs * ws)])) := by
  constructor
  · intro h0
    simp [make_dequantize_op, hws, h0]
  · intro h0 bs hbs
    simp [make_dequantize_op, hws, h0, hbs]

theorem make_requantize_op_scale_out (self : ConvolutionDepthWise) (g : Nat)
    (r : RequantizeOp × List (ℚ × ℚ)) (h : self.make_requantize_op g = some r) :
    r.1.scale_out = self.top_blob_int8_scale := by
  unfold make_requantize_op at h
  rw [Option.bind_eq_some] at h
  obtain ⟨ws, -, h⟩ := h
  split at h
  · simp only [Option.some.injEq] at h
    rw [← h]
  · rw [Option.map_eq_some'] at h
    obtain ⟨bs, -, h⟩ := h
    rw [← h]

/-- The scales of every group can be read: the weight scale, and the input scale when the
weight scale is not zero. -/
theorem make_requantize_op_isSome (self : ConvolutionDepthWise) (g : Nat)
    (h : ∃ ws, self.weight_data_int8_scales.float_at g = some ws ∧
      (ws ≠ 0 → ∃ bs, self.bottom_blob_int8_scales.float_at g = some bs)) :
    ∃ r, self.make_requantize_op g = some r := by
  obtain ⟨ws, hws, hbs⟩ := h
  by_cases h0 : ws = 0
  · exact ⟨_, (self.make_requantize_op_eq g ws hws).1 h0⟩
  · obtain ⟨bs, hbs⟩ := hbs h0
    exact ⟨_, (self.make_requantize_op_eq g ws hws).2 h0 bs hbs⟩

theorem make_dequantize_op_isSome (self : ConvolutionDepthWise) (g : Nat)
    (h : ∃ ws, self.weight_data_int8_scales.float_at g = some ws ∧
      (ws ≠ 0 → ∃ bs, self.bottom_blob_int8_scales.float_at g = some bs)) :
    ∃ r, self.make_dequantize_op g = some r := by
  obtain ⟨ws, hws, hbs⟩ := h
  by_cases h0 : ws = 0
  · exact ⟨_, (self.make_dequantize_op_eq g ws hws).1 h0⟩
  · obtain ⟨bs, hbs⟩ := hbs h0
    exact ⟨_, (self.make_dequantize_op_eq g ws hws).2 h0 bs hbs⟩

/-- The sub-layers built by `make_ops` when the int8 path is on and the scales of every group
can be read. -/
theorem make_ops_spec (self : ConvolutionDepthWise) (hint8 : self.use_int8_inference = true)
    (hgroup : 0 ≤ self.group)
    (hread : ∀ g, g < self.group.toNat →
      ∃ ws bs, self.weight_data_int8_scales.float_at g = some ws ∧
        self.bottom_blob_int8_scales.float_at g = some bs) :
    ∃ layer1, self.make_ops = some layer1 ∧
      layer1.dequantize_scales =
        self.dequantize_scales ++ layer1.dequantize_ops.map (fun op => op.scale) ∧
      ∀ g, g < self.group.toNat →
        layer1.dequantize_ops[g]? = (self.make_dequantize_op g).map Prod.fst := by
  obtain ⟨qops, hq⟩ := collect_isSome
    (fun g => (self.bottom_blob_int8_scales.float_at g).map fun scale =>
      ({ scale := scale } : QuantizeOp)) self.group.toNat
    (fun g hg => by
      obtain ⟨ws, bs, -, hbs⟩ := hread g hg
      exact ⟨{ scale := bs }, by simp [hbs]⟩)
  obtain ⟨built, hb⟩ := collect_isSome self.make_dequantize_op self.group.toNat
    (fun g hg => by
      obtain ⟨ws, bs, hws, hbs⟩ := hread g hg
      exact self.make_dequantize_op_isSome g ⟨ws, hws, fun _ => ⟨bs, hbs⟩⟩)
  refine ⟨_, by simp [make_ops, hint8, not_lt.mpr hgroup, hq, hb]; rfl, by simp, ?_⟩
  intro g hg
  simp only [List.getElem?_map, collect_get hb hg]

theorem create_pipeline_int8 (self : ConvolutionDepthWise) (env : Env) (opt : Opt)
    (hopt : opt.use_int8_inference = true)
    (hkind : self.weight_data.elemsize = 1 ∨
      (self.weight_data.elemsize = 4 ∧ self.int8_scale_term ≠ 0 ∧ 0 < self.weight_data_size ∧
        env.granted AllocSite.int8_weight_data = true))
    (hgroup : 0 < self.group)
    (hread : ∀ g, g < self.group.toNat →
      ∃ ws bs, self.weight_data_int8_scales.float_at g = some ws ∧
        self.bottom_blob_int8_scales.float_at g = some bs) :
    ∃ layer1, self.create_pipeline env opt = some (0, layer1) ∧
      layer1.dequantize_scales =
        self.dequantize_scales ++ layer1.dequantize_ops.map (fun op => op.scale) ∧
      ∀ g, g < self.group.toNat →
        layer1.dequantize_ops[g]? = (self.make_dequantize_op g).map Prod.fst := by
  rcases hkind with h1 | ⟨h4, hterm, hsize, hgrant⟩
  · obtain ⟨layer1, hm, hs, ho⟩ := make_ops_spec
      { self with use_int8_inference := true } rfl (le_of_lt hgroup) hread
    refine ⟨layer1, ?_, hs, ho⟩
    simp [create_pipeline, quantize_weight, hopt, h1, hm]
  · obtain ⟨parts, hp⟩ := collect_isSome
      (quantize_weight_group { self with use_int8_inference := true } env
        (Mat.create1 self.weight_data_size 1 true)
        (self.weight_data_size.tdiv self.group)) self.group.toNat
      (fun g hg => by
        obtain ⟨ws, bs, hws, -⟩ := hread g hg
        simp only [quantize_weight_group, hws, Option.map_some']
        exact ⟨_, rfl⟩)
    obtain ⟨layer1, hm, hs, ho⟩ := make_ops_spec
      { self with
        use_int8_inference := true
        weight_data := { Mat.create1 self.weight_data_size 1 true with
          data := Buf.ints [parts.flatten] } } rfl (le_of_lt hgroup) hread
    refine ⟨layer1, ?_, hs, ho⟩
    have hne : self.group ≠ 0 := ne_of_gt hgroup
    have hemp : (Mat.create1 self.weight_data_size 1 true).empty = false := by
      simp [Mat.create1, Mat.empty, Mat.total, hsize, ne_of_gt hsize]
    simp [create_pipeline, quantize_weight, hopt, h4, hterm, hgrant, hemp, c_div_of_pos hgroup, hp,
      hm]

/-- The requantize sub-layers and scales left by `create_requantize_op` when requantization is
enabled and the scales of every group can be read. -/
theorem create_requantize_op_built (self : ConvolutionDepthWise)
    (hrq : self.use_int8_requantize = true) (hgroup : 0 ≤ self.group)
    (hread : ∀ g, g < self.group.toNat →
      ∃ ws, self.weight_data_int8_scales.float_at g = some ws ∧
        (ws ≠ 0 → ∃ bs, self.bottom_blob_int8_scales.float_at g = some bs)) :
    ∃ built, collect self.make_requantize_op self.group.toNat = some built ∧
      self.create_requantize_op = some (0, { self with
        requantize_ops := built.map Prod.fst
        requantize_scales := self.requantize_scales ++
          (built.map fun b => [b.1.scale_in, b.1.scale_out]).flatten }) := by
  obtain ⟨built, hb⟩ := collect_isSome self.make_requantize_op self.group.toNat
    (fun g hg => self.make_requantize_op_isSome g (hread g hg))
  exact ⟨built, hb, by simp [create_requantize_op, hrq, not_lt.mpr hgroup, hb]⟩

theorem make_dequantize_op_rule (self : ConvolutionDepthWise) (g : Nat) (ws bs : ℚ)
    (hws : self.weight_data_int8_scales.float_at g = some ws)
    (hbs : self.bottom_blob_int8_scales.float_at g = some bs) :
    ∃ dq tr, self.make_dequantize_op g = some (dq, tr) ∧
      dq.scale = (if ws = 0 then 0 else 1 / (bs * ws)) ∧ (ws = 0 → tr = []) := by
  by_cases h0 : ws = 0
  · exact ⟨_, _, (self.make_dequantize_op_eq g ws hws).1 h0, by simp [h0], fun _ => rfl⟩
  · exact ⟨_, _, (self.make_dequantize_op_eq g ws hws).2 h0 bs hbs, by simp [h0],
      fun h => absurd h h0⟩

theorem make_requantize_op_rule (self : ConvolutionDepthWise) (g : Nat) (ws bs : ℚ)
    (hws : self.weight_data_int8_scales.float_at g = some ws)
    (hbs : self.bottom_blob_int8_scales.float_at g = some bs) :
    ∃ rq tr, self.make_requantize_op g = some (rq, tr) ∧
      rq.scale_in = (if ws = 0 then 0 else 1 / (bs * ws)) ∧ (ws = 0 → tr = []) := by
  by_cases h0 : ws = 0
  · exact ⟨_, _, (self.make_requantize_op_eq g ws hws).1 h0, by simp [h0], fun _ => rfl⟩
  · exact ⟨_, _, (self.make_requantize_op_eq g ws hws).2 h0 bs hbs, by simp [h0],
      fun h => absurd h h0⟩

theorem int8_layer_read (i : Nat) (hi : i < Sample.int8_layer.group.toNat) :
    ∃ w b, Sample.int8_layer.weight_data_int8_scales.float_at i = some w ∧
      Sample.int8_layer.bottom_blob_int8_scales.float_at i = some b := by
  have h2 : i < 2 := hi
  interval_cases i
  · exact ⟨0, 4, by simp [Sample.int8_layer, Sample.vec, Mat.float_at, Mat.read_float, at?],
      by simp [Sample.int8_layer, Sample.vec, Mat.float_at, Mat.read_float, at?]⟩
  · exact ⟨2, 4, by simp [Sample.int8_layer, Sample.vec, Mat.float_at, Mat.read_float, at?],
      by simp [Sample.int8_layer, Sample.vec, Mat.float_at, Mat.read_float, at?]⟩

/-- C10: `create_requantize_op` returns `-1` if and only if `use_int8_requantize` is false,
and then leaves the layer (so `requantize_ops` and `requantize_scales`) unchanged; otherwise
it returns `0`, `requantize_ops` holds exactly `group` sub-layers, the one of group `g` at
index `g`, each with output scale `top_blob_int8_scale`, and `requantize_scales` has gained
the two scales (`scale_in`, then `top_blob_int8_scale`) of each group in group order. With
requantization enabled the group count is not negative and the scales of every group can be
read. -/
theorem create_requantize_op_spec (self : ConvolutionDepthWise)
    (hwf : self.use_int8_requantize = true → 0 ≤ self.group ∧
      ∀ g, g < self.group.toNat → ∃ ws, self.weight_data_int8_scales.float_at g = some ws ∧
        (ws ≠ 0 → ∃ bs, self.bottom_blob_int8_scales.float_at g = some bs)) :
    ∃ status layer1, self.create_requantize_op = some (status, layer1) ∧
      (status = -1 ↔ self.use_int8_requantize = false) ∧
      (self.use_int8_requantize = false → layer1 = self) ∧
      (self.use_int8_requantize = true →
        status = 0 ∧ (layer1.requantize_ops.length : Int) = self.group ∧
        (∀ g, g < self.group.toNat →
          layer1.requantize_ops[g]? = (self.make_requantize_op g).map Prod.fst) ∧
        (∀ op, op ∈ layer1.requantize_ops → op.scale_out = self.top_blob_int8_scale) ∧
        layer1.requantize_scales = self.requantize_scales ++
          (layer1.requantize_ops.map fun op =>
            [op.scale_in, self.top_blob_int8_scale]).flatten) := by
  by_cases hrq : self.use_int8_requantize = true
  · obtain ⟨hgroup, hread⟩ := hwf hrq
    obtain ⟨built, hb, hc⟩ := self.create_requantize_op_built hrq hgroup hread
    have hout : ∀ b, b ∈ built → b.1.scale_out = self.top_blob_int8_scale := by
      intro b hmem
      obtain ⟨i, hi, hbi⟩ := List.getElem_of_mem hmem
      have hlen := collect_length hb
      have h1 := collect_get hb (i := i) (by omega)
      rw [List.getElem?_eq_getElem hi, hbi] at h1
      exact self.make_requantize_op_scale_out i b h1.symm
    refine ⟨0, _, hc, by simp [hrq], by simp [hrq], fun _ => ⟨rfl, ?_, ?_, ?_, ?_⟩⟩
    · simp [collect_length hb, Int.toNat_of_nonneg hgroup]
    · intro g hg
      simp only [List.getElem?_map, collect_get hb hg]
    · intro op hop
      simp only [List.mem_map] at hop
      obtain ⟨b, hmem, rfl⟩ := hop
      exact hout b hmem
    · simp only [List.map_map]
      congr 2
      apply List.map_congr_left
      intro b hmem
      simp [hout b hmem]
  · have hrq1 : self.use_int8_requantize = false := by simpa using hrq
    exact ⟨-1, self, by simp [create_requantize_op, hrq1], by simp [hrq1], fun _ => rfl,
      fun h => absurd h hrq⟩

/-- Instance of `create_requantize_op_spec`: `Sample.int8_layer`, two groups with
requantization enabled. -/
theorem create_requantize_op_spec_witness :
    (Sample.int8_layer.use_int8_requantize = true → 0 ≤ Sample.int8_layer.group ∧
      ∀ g, g < Sample.int8_layer.group.toNat →
        ∃ ws, Sample.int8_layer.weight_data_int8_scales.float_at g = some ws ∧
          (ws ≠ 0 → ∃ bs, Sample.int8_layer.bottom_blob_int8_scales.float_at g = some bs)) ∧
    ∃ status layer1, Sample.int8_layer.create_requantize_op = some (status, layer1) ∧
      (status = -1 ↔ Sample.int8_layer.use_int8_requantize = false) ∧
      (Sample.int8_layer.use_int8_requantize = false → layer1 = Sample.int8_layer) ∧
      (Sample.int8_layer.use_int8_requantize = true →
        status = 0 ∧ (layer1.requantize_ops.length : Int) = Sample.int8_layer.group ∧
        (∀ g, g < Sample.int8_layer.group.toNat →
          layer1.requantize_ops[g]? = (Sample.int8_layer.make_requantize_op g).map Prod.fst) ∧
        (∀ op, op ∈ layer1.requantize_ops →
          op.scale_out = Sample.int8_layer.top_blob_int8_scale) ∧
        layer1.requantize_scales = Sample.int8_layer.requantize_scales ++
          (layer1.requantize_ops.map fun op =>
            [op.scale_in, Sample.int8_layer.top_blob_int8_scale]).flatten) :=
  have hwf : Sample.int8_layer.use_int8_requantize = true → 0 ≤ Sample.int8_layer.group ∧
      ∀ g, g < Sample.int8_layer.group.toNat →
        ∃ ws, Sample.int8_layer.weight_data_int8_scales.float_at g = some ws ∧
          (ws ≠ 0 → ∃ bs, Sample.int8_layer.bottom_blob_int8_scales.float_at g = some bs) :=
    fun _ => ⟨by decide, fun g hg => by
      obtain ⟨w, b, hw, hb⟩ := int8_layer_read g hg
      exact ⟨w, hw, fun _ => ⟨b, hb⟩⟩⟩
  ⟨hwf, create_requantize_op_spec Sample.int8_layer hwf⟩

/-! ## The depth-wise branches against the grouped branches -/

theorem grouped_pixel_one {α : Type} (K : Kernel α) (g i j : Nat) (s : α) :
    grouped_pixel K 1 1 g 0 i j s = depthwise_pixel K g i j s := by
  unfold grouped_pixel depthwise_pixel
  have h1 : (1 : Int).toNat = 1 := rfl
  rw [h1, accumulate_one]
  simp

theorem tdiv_self_of_pos {n : Int} (h : 0 < n) : n.tdiv n = 1 := by
  rw [Int.tdiv_eq_ediv (le_of_lt h) (le_of_lt h)]
  exact Int.ediv_self (ne_of_gt h)

/-- C4: for every configuration with `group == channels == num_output`, whatever the kernel
data (kernel size, strides, dilation through the table of offsets, bordered input, weights),
the depth-wise branch of `forward` yields exactly what the grouped branch yields: for the
float accumulation with bias and activation, for the int8 path with dequantization and with
requantization, and sum by sum for the 32-bit accumulation of every output pixel (the grouped
kernel then runs with one input and one output channel per group). -/
theorem depthwise_eq_grouped (self : ConvolutionDepthWise) (env : Env) (Kf : Kernel ℚ)
    (Ki : Kernel Int) (channels outw outh : Int) (top_blob_tm top_blob : Mat) (opt : Opt)
    (h : channels = self.group ∧ self.group = self.num_output) :
    self.float_depthwise env Kf outw outh = self.float_grouped env Kf channels outw outh ∧
    self.dequantize_depthwise env Ki outw outh top_blob opt =
      self.dequantize_grouped env Ki channels outw outh top_blob opt ∧
    self.requantize_depthwise env Ki outw outh top_blob_tm top_blob opt =
      self.requantize_grouped env Ki channels outw outh top_blob_tm top_blob opt ∧
    (0 < self.group → ∀ g i j sum,
      depthwise_pixel Ki g i j sum =
        grouped_pixel Ki (channels.tdiv self.group) (self.num_output.tdiv self.group)
          g 0 i j sum) := by
  obtain ⟨hc, hn⟩ := h
  by_cases hpos : 0 < self.group
  · have h1 : channels.tdiv self.group = 1 := by rw [hc]; exact tdiv_self_of_pos hpos
    have h2 : self.num_output.tdiv self.group = 1 := by rw [← hn]; exact tdiv_self_of_pos hpos
    have h3 : (1 : Int).toNat = 1 := rfl
    refine ⟨?_, ?_, ?_, fun _ g i j s => by rw [h1, h2, grouped_pixel_one]⟩
    · unfold float_depthwise float_grouped
      simp only [h1, h2, h3, collect_one, grouped_pixel_one]
      rw [collect_singletons_flatten]
      simp
    · unfold dequantize_depthwise dequantize_grouped int8_grouped_sums
      simp only [h1, h2, h3, collect_one, grouped_pixel_one]
      rw [collect_bind_each_group]
      congr 1
      apply collect_congr
      intro g _
      cases plane outw outh fun i j => depthwise_pixel Ki g i j 0 <;> rfl
    · unfold requantize_depthwise requantize_grouped int8_grouped_sums
      simp only [h1, h2, h3, collect_one, grouped_pixel_one]
      rw [collect_bind_each_group]
      congr 1
      apply collect_congr
      intro g _
      cases plane outw outh fun i j => depthwise_pixel Ki g i j 0 <;> rfl
  · have h0 : self.group.toNat = 0 := Int.toNat_of_nonpos (not_lt.mp hpos)
    refine ⟨?_, ?_, ?_, fun hp => absurd hp hpos⟩
    · simp [float_depthwise, float_grouped, h0, collect]
    · simp [dequantize_depthwise, dequantize_grouped, int8_grouped_sums, h0, collect, each_group]
    · simp [requantize_depthwise, requantize_grouped, int8_grouped_sums, h0, collect, each_group]

/-- Instance of `depthwise_eq_grouped`: a depth-wise layer of two channels on a 4x5 input. -/
theorem depthwise_eq_grouped_witness :
    ((2 : Int) = (Sample.depthwise 2 2 (1 / 2)).group ∧
      (Sample.depthwise 2 2 (1 / 2)).group = (Sample.depthwise 2 2 (1 / 2)).num_output) ∧
    (Sample.depthwise 2 2 (1 / 2)).float_depthwise Sample.env
        ((Sample.depthwise 2 2 (1 / 2)).float_kernel (Sample.blob 4 5 2 1)
          [0, 1, 2, 4, 5, 6, 8, 9, 10]) 2 3 =
      (Sample.depthwise 2 2 (1 / 2)).float_grouped Sample.env
        ((Sample.depthwise 2 2 (1 / 2)).float_kernel (Sample.blob 4 5 2 1)
          [0, 1, 2, 4, 5, 6, 8, 9, 10]) 2 2 3 :=
  ⟨⟨rfl, rfl⟩,
    (depthwise_eq_grouped (Sample.depthwise 2 2 (1 / 2)) Sample.env
      ((Sample.depthwise 2 2 (1 / 2)).float_kernel (Sample.blob 4 5 2 1)
        [0, 1, 2, 4, 5, 6, 8, 9, 10])
      ((Sample.depthwise 2 2 (1 / 2)).int8_kernel (Sample.blob 4 5 2 1)
        [0, 1, 2, 4, 5, 6, 8, 9, 10])
      2 2 3 Mat.nil Mat.nil Sample.opt ⟨rfl, rfl⟩).1⟩

/-! ## A constant input through the float depth-wise branch -/

theorem space_ofs_row_snd (d : Int) (n : Nat) (p2 : Int) :
    (space_ofs_row d n p2).2 = p2 + n * d := by
  induction n generalizing p2 with
  | zero => simp [space_ofs_row]
  | succ n ih =>
    simp only [space_ofs_row, ih]
    push_cast
    ring

theorem space_ofs_row_length (d : Int) (n : Nat) (p2 : Int) :
    (space_ofs_row d n p2).1.length = n := by
  induction n generalizing p2 with
  | zero => simp [space_ofs_row]
  | succ n ih => simp [space_ofs_row, ih]

theorem space_ofs_row_get (d : Int) (n : Nat) (p2 : Int) (j : Nat) (hj : j < n) :
    (space_ofs_row d n p2).1[j]? = some (p2 + j * d) := by
  induction n generalizing p2 j with
  | zero => omega
  | succ n ih =>
    cases j with
    | zero => simp [space_ofs_row]
    | succ j =>
      simp only [space_ofs_row, List.getElem?_cons_succ]
      rw [ih (p2 + d) j (by omega)]
      push_cast
      congr 1
      ring

theorem space_ofs_rows_length (kernel_w d gap : Int) (n : Nat) (p2 : Int) :
    (space_ofs_rows kernel_w d gap n p2).length = n * kernel_w.toNat := by
  induction n generalizing p2 with
  | zero => simp [space_ofs_rows]
  | succ n ih =>
    simp only [space_ofs_rows, List.length_append, space_ofs_row_length, ih]
    ring

theorem space_ofs_rows_get (kernel_w d gap : Int) (n : Nat) (p2 : Int) (k : Nat)
    (hk : k < n * kernel_w.toNat) :
    (space_ofs_rows kernel_w d gap n p2)[k]? =
      some (p2 + (k / kernel_w.toNat : Nat) * (kernel_w.toNat * d + gap) +
        (k % kernel_w.toNat : Nat) * d) := by
  induction n generalizing p2 k with
  | zero => omega
  | succ n ih =>
    have hm : 0 < kernel_w.toNat := by
      rcases Nat.eq_zero_or_pos kernel_w.toNat with h | h
      · rw [h] at hk; omega
      · exact h
    simp only [space_ofs_rows]
    by_cases hlt : k < kernel_w.toNat
    · rw [List.getElem?_append_left (by rw [space_ofs_row_length]; exact hlt),
        space_ofs_row_get d _ p2 k hlt, Nat.div_eq_of_lt hlt, Nat.mod_eq_of_lt hlt]
      simp
    · have hge : kernel_w.toNat ≤ k := not_lt.mp hlt
      rw [List.getElem?_append_right (by rw [space_ofs_row_length]; exact hge),
        space_ofs_row_length, space_ofs_row_snd]
      have hk1 : k - kernel_w.toNat < n * kernel_w.toNat := by
        have : (n + 1) * kernel_w.toNat = n * kernel_w.toNat + kernel_w.toNat := by ring
        omega
      rw [ih _ _ hk1]
      have hdiv : k / kernel_w.toNat = (k - kernel_w.toNat) / kernel_w.toNat + 1 := by
        have := Nat.sub_add_cancel hge
        conv_lhs => rw [← this]
        exact Nat.add_div_right _ hm
      have hmod : k % kernel_w.toNat = (k - kernel_w.toNat) % kernel_w.toNat := by
        have := Nat.sub_add_cancel hge
        conv_lhs => rw [← this]
        exact Nat.add_mod_right _ _
      rw [hdiv, hmod]
      push_cast
      congr 1
      ring

/-- Entry `k` of the table of offsets, for a kernel of non-negative size. -/
theorem space_ofs_get (self : ConvolutionDepthWise) (w : Int) (hkw : 0 ≤ self.kernel_w)
    (hkh : 0 ≤ self.kernel_h) :
    ∃ ofs, self.space_ofs w = some ofs ∧
      ∀ k : Nat, k < self.kernel_h.toNat * self.kernel_w.toNat →
        ofs[k]? = some ((k / self.kernel_w.toNat : Nat) * (w * self.dilation_h) +
          (k % self.kernel_w.toNat : Nat) * self.dilation_w) := by
  have hmaxk : ¬ self.kernel_w * self.kernel_h < 0 := not_lt.mpr (mul_nonneg hkw hkh)
  refine ⟨_, by simp only [space_ofs, hmaxk, if_false]; rfl, fun k hk => ?_⟩
  rw [List.getElem?_append_left (by rw [space_ofs_rows_length]; exact hk),
    space_ofs_rows_get _ _ _ _ _ _ hk]
  congr 1
  have : (self.kernel_w.toNat : Int) = self.kernel_w := Int.toNat_of_nonneg hkw
  rw [this]
  ring

theorem plane_const {α : Type} (outw outh : Int) (pixel : Nat → Nat → Option α) (v : α)
    (h : ∀ i j, i < outh.toNat → j < outw.toNat → pixel i j = some v) :
    plane outw outh pixel = some (List.replicate (outh.toNat * outw.toNat) v) := by
  unfold plane
  rw [collect_const _ (List.replicate outw.toNat v) _
    (fun i hi => collect_const _ v _ (fun j hj => h i j hi hj))]
  simp [flatten_replicate_replicate]

theorem kernel_extent_pos {d k : Int} (hd : 0 < d) (hk : 0 < k) : 1 ≤ kernel_extent d k := by
  unfold kernel_extent
  have : 0 ≤ d * (k - 1) := mul_nonneg (le_of_lt hd) (by omega)
  omega

/-- Every tap of every output position lies inside the bordered input. -/
theorem tap_in_bounds (w h sw sh dw dh kw kh : Int) (i j ki kj : Nat)
    (hsw : 0 < sw) (hsh : 0 < sh) (hdw : 0 < dw) (hdh : 0 < dh)
    (hw : kernel_extent dw kw ≤ w) (hh : kernel_extent dh kh ≤ h)
    (hi : (i : Int) < (h - kernel_extent dh kh).tdiv sh + 1)
    (hj : (j : Int) < (w - kernel_extent dw kw).tdiv sw + 1)
    (hki : (ki : Int) < kh) (hkj : (kj : Int) < kw) :
    0 ≤ w * (i * sh) + j * sw + (ki * (w * dh) + kj * dw) ∧
      w * (i * sh) + j * sw + (ki * (w * dh) + kj * dw) < w * h := by
  have hkw : 0 < kw := by omega
  have hkh : 0 < kh := by omega
  have hw1 : 1 ≤ w := le_trans (kernel_extent_pos hdw hkw) hw
  rw [Int.tdiv_eq_ediv (by omega) (le_of_lt hsh)] at hi
  rw [Int.tdiv_eq_ediv (by omega) (le_of_lt hsw)] at hj
  have hqh : (h - kernel_extent dh kh) / sh * sh ≤ h - kernel_extent dh kh :=
    Int.ediv_mul_le _ (ne_of_gt hsh)
  have hqw : (w - kernel_extent dw kw) / sw * sw ≤ w - kernel_extent dw kw :=
    Int.ediv_mul_le _ (ne_of_gt hsw)
  have hi1 : (i : Int) * sh ≤ (h - kernel_extent dh kh) / sh * sh :=
    mul_le_mul_of_nonneg_right (by omega) (le_of_lt hsh)
  have hj1 : (j : Int) * sw ≤ (w - kernel_extent dw kw) / sw * sw :=
    mul_le_mul_of_nonneg_right (by omega) (le_of_lt hsw)
  have hki1 : (ki : Int) * dh ≤ (kh - 1) * dh :=
    mul_le_mul_of_nonneg_right (by omega) (le_of_lt hdh)
  have hkj1 : (kj : Int) * dw ≤ (kw - 1) * dw :=
    mul_le_mul_of_nonneg_right (by omega) (le_of_lt hdw)
  have hrow : (i : Int) * sh + ki * dh ≤ h - 1 := by
    have : kernel_extent dh kh = (kh - 1) * dh + 1 := by unfold kernel_extent; ring
    omega
  have hcol : (j : Int) * sw + kj * dw ≤ w - 1 := by
    have : kernel_extent dw kw = (kw - 1) * dw + 1 := by unfold kernel_extent; ring
    omega
  have hrow0 : 0 ≤ (i : Int) * sh + ki * dh :=
    add_nonneg (mul_nonneg (by omega) (le_of_lt hsh)) (mul_nonneg (by omega) (le_of_lt hdh))
  have hcol0 : 0 ≤ (j : Int) * sw + kj * dw :=
    add_nonneg (mul_nonneg (by omega) (le_of_lt hsw)) (mul_nonneg (by omega) (le_of_lt hdw))
  have hidx : w * (i * sh) + j * sw + (ki * (w * dh) + kj * dw) =
      w * (i * sh + ki * dh) + (j * sw + kj * dw) := by ring
  have hmul : w * ((i : Int) * sh + ki * dh) ≤ w * (h - 1) :=
    mul_le_mul_of_nonneg_left hrow (by omega)
  have hmul0 : 0 ≤ w * ((i : Int) * sh + ki * dh) := mul_nonneg (by omega) hrow0
  rw [hidx]
  constructor
  · omega
  · have : w * (h - 1) = w * h - w := by ring
    omega

/-- One output pixel of the depth-wise kernel when every tap reads the input value `c` and
the weight `k`: the start value plus `maxk` times `c * k`. -/
theorem depthwise_pixel_const (K : Kernel ℚ) (hfma : K.fma = fma_float) (g i j : Nat)
    (c k sum : ℚ)
    (hofs : ∀ t : Nat, t < K.maxk.toNat → ∃ o, K.ofs[t]? = some o ∧
      K.input g (K.w * (i * K.stride_h) + j * K.stride_w + o) = some c)
    (hwt : ∀ t : Nat, t < K.maxk.toNat → K.weight (K.maxk * g + t) = some k) :
    depthwise_pixel K g i j sum = some (sum + K.maxk.toNat * (c * k)) := by
  unfold depthwise_pixel taps
  apply accumulate_add_const
  intro t ht s
  obtain ⟨o, ho, hin⟩ := hofs t ht
  simp [at?_natCast, ho, hin, hwt t ht, hfma, fma_float]

/-- C5: a float depth-wise convolution (`channels == group == num_output`, at least one
group) with no padding and no activation, kernel, dilation and stride at least 1, on an input
at least as large as the dilated kernel whose every cell is `c`, with every weight `k` and
every bias `b`, an allocator that grants the output and an output blob that is not a
three-dimensional tensor without storage: `forward` returns `0` and the output has width
`(w - kernel_extent_w) / stride_w + 1`, height `(h - kernel_extent_h) / stride_h + 1`,
`num_output` channels and every element `kernel_w * kernel_h * c * k + b`, in exact
arithmetic. -/
theorem forward_constant_input (self : ConvolutionDepthWise) (env : Env)
    (bottom_blob top_blob : Mat) (opt : Opt) (c k b : ℚ)
    (hdepth : bottom_blob.c = self.group ∧ self.group = self.num_output)
    (hgroup : 0 < self.group)
    (hfloat : self.use_int8_inference = false)
    (hpad : self.pad_left = 0 ∧ self.pad_right = 0 ∧ self.pad_top = 0 ∧ self.pad_bottom = 0)
    (hact : self.activation_type = 0)
    (hkw : 0 < self.kernel_w) (hkh : 0 < self.kernel_h)
    (hdw : 0 < self.dilation_w) (hdh : 0 < self.dilation_h)
    (hsw : 0 < self.stride_w) (hsh : 0 < self.stride_h)
    (hw : kernel_extent self.dilation_w self.kernel_w ≤ bottom_blob.w)
    (hh : kernel_extent self.dilation_h self.kernel_h ≤ bottom_blob.h)
    (hin : ∀ q i : Int, 0 ≤ q → q < bottom_blob.c → 0 ≤ i → i < bottom_blob.w * bottom_blob.h →
      bottom_blob.read_float q i = some c)
    (hweight : ∀ i : Int, 0 ≤ i → i < self.kernel_w * self.kernel_h * self.group →
      self.weight_data.float_at i = some k)
    (hbt : self.bias_term ≠ 0)
    (hbias : ∀ g : Int, 0 ≤ g → g < self.group → self.bias_data.float_at g = some b)
    (hgrant : env.granted AllocSite.top_blob = true)
    (htop : top_blob.dims = 3 → top_blob.data ≠ Buf.null) :
    ∃ top, self.forward env bottom_blob top_blob opt = some (0, top) ∧
      top.w = (bottom_blob.w - kernel_extent self.dilation_w self.kernel_w).tdiv self.stride_w
        + 1 ∧
      top.h = (bottom_blob.h - kernel_extent self.dilation_h self.kernel_h).tdiv self.stride_h
        + 1 ∧
      top.c = self.num_output ∧
      top.data = Buf.floats (List.replicate self.num_output.toNat
        (List.replicate (top.h.toNat * top.w.toNat)
          (self.kernel_w * self.kernel_h * c * k + b))) := by
  obtain ⟨hc, hn⟩ := hdepth
  obtain ⟨hpl, hpr, hpt, hpb⟩ := hpad
  have hg0 : self.group ≠ 0 := ne_of_gt hgroup
  have hkew := kernel_extent_pos hdw hkw
  have hkeh := kernel_extent_pos hdh hkh
  -- the output extents
  have houtw : 0 < (bottom_blob.w - kernel_extent self.dilation_w self.kernel_w).tdiv
      self.stride_w + 1 := by
    have := Int.tdiv_nonneg (sub_nonneg.mpr hw) (le_of_lt hsw)
    omega
  have houth : 0 < (bottom_blob.h - kernel_extent self.dilation_h self.kernel_h).tdiv
      self.stride_h + 1 := by
    have := Int.tdiv_nonneg (sub_nonneg.mpr hh) (le_of_lt hsh)
    omega
  -- the group check passes
  have hm1 : bottom_blob.c.tmod self.group = 0 := by rw [hc]; exact Int.tmod_self
  have hm2 : self.num_output.tmod self.group = 0 := by rw [← hn]; exact Int.tmod_self
  -- no border is made
  have hborder : self.border env bottom_blob bottom_blob.w bottom_blob.h opt =
      some bottom_blob := by
    simp [border, hpl, hpr, hpt, hpb]
  -- the input is not empty
  have hwh : 0 < bottom_blob.w * bottom_blob.h := mul_pos (by omega) (by omega)
  have hne : bottom_blob.empty = false := by
    have h00 := hin 0 0 (le_refl 0) (by omega) (le_refl 0) hwh
    have hd : bottom_blob.data ≠ Buf.null := by
      intro h
      simp [Mat.read_float, h] at h00
    have ht : bottom_blob.total ≠ 0 := by
      unfold Mat.total
      exact ne_of_gt (mul_pos hwh (by omega))
    simp [Mat.empty, hd, ht]
  -- the table of offsets
  obtain ⟨ofs, hofs, hofsget⟩ := self.space_ofs_get bottom_blob.w (le_of_lt hkw) (le_of_lt hkh)
  -- the output blob is created
  have hcreate := Mat.create_not_empty top_blob _ _ self.num_output bottom_blob.elemsize
    opt.blob_allocator (mul_pos (mul_pos houtw houth) (by omega)) htop
  -- every plane
  have hmaxk : (self.kernel_w * self.kernel_h).toNat = self.kernel_h.toNat * self.kernel_w.toNat := by
    obtain ⟨a, ha⟩ := Int.eq_ofNat_of_zero_le (le_of_lt hkw)
    obtain ⟨b, hb⟩ := Int.eq_ofNat_of_zero_le (le_of_lt hkh)
    rw [ha, hb]
    norm_cast
    simp [Nat.mul_comm]
  have hplanes : self.float_depthwise env (self.float_kernel bottom_blob ofs)
      ((bottom_blob.w - kernel_extent self.dilation_w self.kernel_w).tdiv self.stride_w + 1)
      ((bottom_blob.h - kernel_extent self.dilation_h self.kernel_h).tdiv self.stride_h + 1) =
      some (List.replicate self.group.toNat (List.replicate
        (((bottom_blob.h - kernel_extent self.dilation_h self.kernel_h).tdiv self.stride_h
            + 1).toNat *
          ((bottom_blob.w - kernel_extent self.dilation_w self.kernel_w).tdiv self.stride_w
            + 1).toNat)
        (self.kernel_w * self.kernel_h * c * k + b))) := by
    unfold float_depthwise
    apply collect_const
    intro g hg
    have hgI : (g : Int) < self.group := by omega
    apply plane_const
    intro i j hi hj
    have hb : self.bias_at g = some b := by
      simp [bias_at, hbt, hbias g (by omega) hgI]
    rw [hb, Option.some_bind]
    rw [depthwise_pixel_const (self.float_kernel bottom_blob ofs) rfl g i j c k b]
    · simp only [Option.some_bind, activation, hact]
      norm_num
      simp only [float_kernel]
      have : (((self.kernel_w * self.kernel_h).toNat : ℕ) : ℚ) =
          (self.kernel_w : ℚ) * self.kernel_h := by
        have h0 : 0 ≤ self.kernel_w * self.kernel_h := mul_nonneg (le_of_lt hkw) (le_of_lt hkh)
        have h1 : (((self.kernel_w * self.kernel_h).toNat : ℕ) : Int) =
            self.kernel_w * self.kernel_h := Int.toNat_of_nonneg h0
        exact_mod_cast h1
      rw [this]
      ring
    · intro t ht
      simp only [float_kernel] at ht ⊢
      rw [hmaxk] at ht
      have hkwn : 0 < self.kernel_w.toNat := by omega
      refine ⟨_, hofsget t ht, ?_⟩
      have hki : ((t / self.kernel_w.toNat : Nat) : Int) < self.kernel_h := by
        have : t / self.kernel_w.toNat < self.kernel_h.toNat :=
          (Nat.div_lt_iff_lt_mul hkwn).mpr ht
        omega
      have hkj : ((t % self.kernel_w.toNat : Nat) : Int) < self.kernel_w := by
        have : t % self.kernel_w.toNat < self.kernel_w.toNat := Nat.mod_lt _ hkwn
        omega
      have hb := tap_in_bounds bottom_blob.w bottom_blob.h self.stride_w self.stride_h
        self.dilation_w self.dilation_h self.kernel_w self.kernel_h i j
        (t / self.kernel_w.toNat) (t % self.kernel_w.toNat) hsw hsh hdw hdh hw hh
        (by omega) (by omega) hki hkj
      exact hin g _ (by omega) (by omega) hb.1 hb.2
    · intro t ht
      simp only [float_kernel] at ht ⊢
      apply hweight
      · have : 0 ≤ self.kernel_w * self.kernel_h * g :=
          mul_nonneg (mul_nonneg (le_of_lt hkw) (le_of_lt hkh)) (by omega)
        omega
      · have h0 : 0 ≤ self.kernel_w * self.kernel_h := mul_nonneg (le_of_lt hkw) (le_of_lt hkh)
        have h1 : (t : Int) < self.kernel_w * self.kernel_h := by omega
        have h2 : self.kernel_w * self.kernel_h * (g + 1) ≤
            self.kernel_w * self.kernel_h * self.group :=
          mul_le_mul_of_nonneg_left (by omega) h0
        have h3 : self.kernel_w * self.kernel_h * (g + 1) =
            self.kernel_w * self.kernel_h * g + self.kernel_w * self.kernel_h := by ring
        omega
  have hfw : self.forward env bottom_blob top_blob opt = some (0,
      { top_blob.create
          ((bottom_blob.w - kernel_extent self.dilation_w self.kernel_w).tdiv self.stride_w + 1)
          ((bottom_blob.h - kernel_extent self.dilation_h self.kernel_h).tdiv self.stride_h + 1)
          self.num_output bottom_blob.elemsize opt.blob_allocator true with
        data := Buf.floats (List.replicate self.group.toNat (List.replicate
          (((bottom_blob.h - kernel_extent self.dilation_h self.kernel_h).tdiv self.stride_h
              + 1).toNat *
            ((bottom_blob.w - kernel_extent self.dilation_w self.kernel_w).tdiv self.stride_w
              + 1).toNat)
          (self.kernel_w * self.kernel_h * c * k + b))) }) := by
    unfold forward
    simp only [c_mod_of_pos hgroup, hm1, hm2, Option.some_bind, ne_eq, not_true_eq_false, if_false]
    unfold forward_checked
    simp only [hfloat, Bool.false_eq_true, false_and, if_false, hborder, Option.some_bind]
    unfold forward_bordered
    simp only [hne, Bool.false_eq_true, if_false, c_div_of_pos hsw,
      c_div_of_pos hsh, Option.some_bind, hofs, hfloat]
    unfold forward_float
    simp only [hgrant, hcreate, Bool.false_eq_true, if_false, hc, hn, and_self, if_true,
      hplanes, Option.map_some']
  refine ⟨_, hfw, ?_, ?_, ?_, ?_⟩
  · exact Mat.create_w _ _ _ _ _ _ _
  · exact Mat.create_h _ _ _ _ _ _ _
  · exact Mat.create_c _ _ _ _ _ _ _
  · simp only [Mat.create_w, Mat.create_h, hn]

/-- Instance of `forward_constant_input`, the scenario of the spec: 3x3 kernel, stride 1, a
7x7x512 input filled with `0.01`, weights `2` and bias `1/2`; the output is 5x5x512 with every
element `9 * 0.01 * 2 + 1/2`. -/
theorem forward_constant_input_witness :
    ((Sample.blob 7 7 512 (1 / 100)).c = (Sample.depthwise 512 2 (1 / 2)).group ∧
      (Sample.depthwise 512 2 (1 / 2)).group = (Sample.depthwise 512 2 (1 / 2)).num_output) ∧
    0 < (Sample.depthwise 512 2 (1 / 2)).group ∧
    (Sample.depthwise 512 2 (1 / 2)).use_int8_inference = false ∧
    (Sample.depthwise 512 2 (1 / 2)).activation_type = 0 ∧
    kernel_extent (Sample.depthwise 512 2 (1 / 2)).dilation_w
      (Sample.depthwise 512 2 (1 / 2)).kernel_w ≤ (Sample.blob 7 7 512 (1 / 100)).w ∧
    kernel_extent (Sample.depthwise 512 2 (1 / 2)).dilation_h
      (Sample.depthwise 512 2 (1 / 2)).kernel_h ≤ (Sample.blob 7 7 512 (1 / 100)).h ∧
    ∃ top, (Sample.depthwise 512 2 (1 / 2)).forward Sample.env (Sample.blob 7 7 512 (1 / 100))
        Mat.nil Sample.opt = some (0, top) ∧
      top.w = 5 ∧ top.h = 5 ∧ top.c = 512 ∧
      top.data = Buf.floats (List.replicate 512 (List.replicate 25 (9 * (1 / 100) * 2 + 1 / 2))) := by
  have hw : kernel_extent (Sample.depthwise 512 2 (1 / 2)).dilation_w
      (Sample.depthwise 512 2 (1 / 2)).kernel_w ≤ (Sample.blob 7 7 512 (1 / 100)).w := by decide
  have hh : kernel_extent (Sample.depthwise 512 2 (1 / 2)).dilation_h
      (Sample.depthwise 512 2 (1 / 2)).kernel_h ≤ (Sample.blob 7 7 512 (1 / 100)).h := by decide
  obtain ⟨top, hf, htw, hth, htc, htd⟩ :=
    forward_constant_input (Sample.depthwise 512 2 (1 / 2)) Sample.env
      (Sample.blob 7 7 512 (1 / 100)) Mat.nil Sample.opt (1 / 100) 2 (1 / 2)
      ⟨rfl, rfl⟩ (by decide) rfl ⟨rfl, rfl, rfl, rfl⟩ rfl (by decide) (by decide) (by decide)
      (by decide) (by decide) (by decide) hw hh
      (fun q i hq0 hq hi0 hi => blob_read 7 7 512 (1 / 100) q i hq0 hq hi0 hi)
      (fun i hi0 hi => vec_replicate_at (9 * 512) 2 i hi0 (by
        have : (Sample.depthwise 512 2 (1 / 2)).kernel_w *
          (Sample.depthwise 512 2 (1 / 2)).kernel_h *
          (Sample.depthwise 512 2 (1 / 2)).group = ((9 * 512 : Nat) : Int) := by decide
        omega))
      (by decide)
      (fun g hg0 hg => vec_replicate_at 512 (1 / 2) g hg0 hg)
      rfl (by decide)
  have htw5 : top.w = 5 := by rw [htw]; decide
  have hth5 : top.h = 5 := by rw [hth]; decide
  refine ⟨⟨rfl, rfl⟩, by decide, rfl, rfl, hw, hh, top, hf, htw5, hth5, htc, ?_⟩
  rw [htd, htw5, hth5]
  have h1 : (Sample.depthwise 512 2 (1 / 2)).num_output.toNat = 512 := by decide
  have h2 : (5 : Int).toNat * (5 : Int).toNat = 25 := by decide
  rw [h1, h2]
  have h3 : ((Sample.depthwise 512 2 (1 / 2)).kernel_w : ℚ) *
      ((Sample.depthwise 512 2 (1 / 2)).kernel_h : ℚ) * (1 / 100) * 2 + 1 / 2 =
      9 * (1 / 100) * 2 + 1 / 2 := by
    simp only [Sample.depthwise]
    norm_num
  rw [h3]

end ConvolutionDepthWise

/-! ## Loading the model -/

theorem ModelBin.load_reads (mb : ModelBin) (w t : Int) :
    (mb.load w t).2.reads = mb.reads ++ [(w, t)] := rfl

namespace Mat

theorem filled_isSome (n : Int) (v : ℚ) (granted : Bool)
    (h : n ≤ 0 ∨ granted = true) :
    Mat.filled n v granted =
      some { dims := 1, w := n, h := 1, c := 1, elemsize := 4, allocator := none
             data := if 0 < n then Buf.floats [List.replicate n.toNat v] else Buf.null } := by
  unfold filled
  rcases h with h | h
  · simp [not_lt.mpr h]
  · simp [h]

theorem filled_eq_some (n : Int) (v : ℚ) (granted : Bool) (m : Mat)
    (h : Mat.filled n v granted = some m) :
    m = { dims := 1, w := n, h := 1, c := 1, elemsize := 4, allocator := none
          data := if 0 < n then Buf.floats [List.replicate n.toNat v] else Buf.null } ∧
      (n ≤ 0 ∨ granted = true) := by
  unfold filled at h
  split at h
  · exact absurd h (by simp)
  · rename_i hc
    simp only [Option.some.injEq] at h
    refine ⟨h.symm, ?_⟩
    by_cases hn : 0 < n
    · right
      cases granted
      · exact absurd ⟨hn, rfl⟩ hc
      · rfl
    · left; omega

/-- The cells of a filled vector: `n` cells, all `v`. -/
theorem filled_float_at (n : Int) (v : ℚ) (g : Int) :
    ({ dims := 1, w := n, h := 1, c := 1, elemsize := 4, allocator := none
       data := if 0 < n then Buf.floats [List.replicate n.toNat v] else Buf.null } : Mat).float_at g
      = if 0 ≤ g ∧ g < n then some v else none := by
  by_cases hn : 0 < n
  · have h0 : at? [List.replicate n.toNat v] 0 = some (List.replicate n.toNat v) := by
      simp [at?]
    simp only [float_at, read_float, hn, if_true, h0, Option.some_bind]
    by_cases hg : 0 ≤ g ∧ g < n
    · rw [if_pos hg, at?_replicate _ _ g hg.1 (by omega)]
    · rw [if_neg hg]
      unfold at?
      split
      · rfl
      · rename_i h1
        rw [List.getElem?_eq_none]
        simp only [List.length_replicate]
        omega
  · have : ¬ (0 ≤ g ∧ g < n) := by omega
    simp [float_at, read_float, hn, this]

end Mat

namespace ConvolutionDepthWise

/-- A vector that `Mat.filled n v` yields has width `n` and exactly the cells `0, ..., n-1`,
all `v`. -/
theorem filled_cells (n : Int) (v : ℚ) (granted : Bool) (m : Mat)
    (h : Mat.filled n v granted = some m) :
    m.w = n ∧ ∀ g : Int, m.float_at g = if 0 ≤ g ∧ g < n then some v else none := by
  obtain ⟨hm, -⟩ := Mat.filled_eq_some n v granted m h
  subst hm
  exact ⟨rfl, Mat.filled_float_at n v⟩

/-- What the scale reads of lines 74-96 leave behind when they do not fault. -/
theorem load_scales_spec (self : ConvolutionDepthWise) (env : Env) (mb : ModelBin)
    (r : ConvolutionDepthWise × ModelBin) (h : self.load_scales env mb = some r) :
    r.2.reads = mb.reads ++ self.scale_reads ∧
    (self.int8_scale_term = 1 →
      r.1.weight_data_int8_scales = (mb.load self.group 1).1 ∧
      ∃ bs, ((mb.load self.group 1).2.load 1 1).1.float_at 0 = some bs ∧
        r.1.bottom_blob_int8_scales.w = self.group ∧
        ∀ g : Int, r.1.bottom_blob_int8_scales.float_at g =
          if 0 ≤ g ∧ g < self.group then some bs else none) ∧
    (self.int8_scale_term = 2 →
      ∃ ws bs, (mb.load 1 1).1.float_at 0 = some ws ∧
        ((mb.load 1 1).2.load 1 1).1.float_at 0 = some bs ∧
        r.1.weight_data_int8_scales.w = self.group ∧
        (∀ g : Int, r.1.weight_data_int8_scales.float_at g =
          if 0 ≤ g ∧ g < self.group then some ws else none) ∧
        r.1.bottom_blob_int8_scales.w = self.group ∧
        ∀ g : Int, r.1.bottom_blob_int8_scales.float_at g =
          if 0 ≤ g ∧ g < self.group then some bs else none) := by
  unfold load_scales at h
  by_cases h1 : self.int8_scale_term = 1
  · have h2 : self.int8_scale_term ≠ 2 := by omega
    rw [if_pos h1] at h
    rw [Option.bind_eq_some] at h
    obtain ⟨bs, hbs, h⟩ := h
    rw [Option.map_eq_some'] at h
    obtain ⟨m, hm, rfl⟩ := h
    refine ⟨by simp [scale_reads, h1, ModelBin.load_reads], fun _ => ⟨rfl, bs, hbs, ?_⟩,
      fun h => absurd h h2⟩
    exact filled_cells _ _ _ m hm
  · by_cases h2 : self.int8_scale_term = 2
    · rw [if_neg h1, if_pos h2] at h
      rw [Option.bind_eq_some] at h
      obtain ⟨ws, hws, h⟩ := h
      rw [Option.bind_eq_some] at h
      obtain ⟨mw, hmw, h⟩ := h
      rw [Option.bind_eq_some] at h
      obtain ⟨bs, hbs, h⟩ := h
      rw [Option.map_eq_some'] at h
      obtain ⟨mbot, hmb, rfl⟩ := h
      refine ⟨by simp [scale_reads, h2, ModelBin.load_reads], fun h => absurd h h1,
        fun _ => ⟨ws, bs, hws, hbs, ?_⟩⟩
      obtain ⟨hw1, hw2⟩ := filled_cells _ _ _ mw hmw
      obtain ⟨hb1, hb2⟩ := filled_cells _ _ _ mbot hmb
      exact ⟨hw1, hw2, hb1, hb2⟩
    · rw [if_neg h1, if_neg h2] at h
      simp only [Option.some.injEq] at h
      subst h
      exact ⟨by simp [scale_reads, h1, h2], fun h => absurd h h1, fun h => absurd h h2⟩

/-- The scale reads do not fault exactly when they can be carried out. -/
theorem load_scales_isSome (self : ConvolutionDepthWise) (env : Env) (mb : ModelBin) :
    (self.load_scales env mb).isSome = self.scales_loadable env mb := by
  have hfill : ∀ (v : ℚ) (granted : Bool),
      (Mat.filled self.group v granted).isSome = (decide (self.group ≤ 0) || granted) := by
    intro v granted
    unfold Mat.filled
    by_cases hg : 0 < self.group
    · cases granted <;> simp [hg, not_le.mpr hg]
    · simp [hg, not_lt.mp hg]
  unfold load_scales scales_loadable
  by_cases h1 : self.int8_scale_term = 1
  · rw [if_pos h1, if_pos h1]
    simp only []
    cases ((mb.load self.group 1).2.load 1 1).1.float_at 0 with
    | none => rfl
    | some bs =>
      simp only [Option.some_bind, Option.isSome_map', Option.isSome_some, Bool.true_and, hfill]
  · by_cases h2 : self.int8_scale_term = 2
    · rw [if_neg h1, if_pos h2, if_neg h1, if_pos h2]
      simp only []
      cases (mb.load 1 1).1.float_at 0 with
      | none => rfl
      | some ws =>
        have hw := hfill ws (env.granted AllocSite.weight_data_int8_scales)
        cases hfw : Mat.filled self.group ws (env.granted AllocSite.weight_data_int8_scales) with
        | none =>
          rw [hfw] at hw
          have hw1 : (decide (self.group ≤ 0) ||
              env.granted AllocSite.weight_data_int8_scales) = false := hw.symm
          simp only [Bool.or_eq_false_iff] at hw1
          simp only [Option.some_bind, hfw, Option.none_bind, Option.isSome_none]
          simp only [hw1.1, hw1.2, Bool.false_and, Bool.or_false, Bool.and_false]
        | some mw =>
          rw [hfw] at hw
          have hw1 : (decide (self.group ≤ 0) ||
              env.granted AllocSite.weight_data_int8_scales) = true := hw.symm
          cases ((mb.load 1 1).2.load 1 1).1.float_at 0 with
          | none =>
            simp only [Option.some_bind, hfw, Option.none_bind, Option.isSome_none,
              Option.isSome_some, Bool.and_false, Bool.false_and]
          | some bs =>
            simp only [Option.some_bind, hfw, Option.isSome_map', Option.isSome_some,
              Bool.true_and, hfill]
            by_cases hg : self.group ≤ 0
            · simp [hg]
            · have : env.granted AllocSite.weight_data_int8_scales = true := by
                simpa [hg] using hw1
              simp [hg, this]
    · rw [if_neg h1, if_neg h2, if_neg h1, if_neg h2]
      rfl

theorem with_weights_term (self : ConvolutionDepthWise) (mb : ModelBin) :
    (self.with_weights mb).int8_scale_term = self.int8_scale_term ∧
      (self.with_weights mb).group = self.group := by
  unfold with_weights
  split <;> exact ⟨rfl, rfl⟩

theorem with_weights_scale_reads (self : ConvolutionDepthWise) (mb : ModelBin) :
    (self.with_weights mb).scale_reads = self.scale_reads := by
  unfold scale_reads
  rw [(self.with_weights_term mb).1, (self.with_weights_term mb).2]

theorem with_weights_loadable (self : ConvolutionDepthWise) (env : Env) (mb mb1 : ModelBin) :
    (self.with_weights mb).scales_loadable env mb1 = self.scales_loadable env mb1 := by
  unfold scales_loadable
  rw [(self.with_weights_term mb).1, (self.with_weights_term mb).2]

/-- The two ways `load_model` ends: with `-100` right after the read that failed, or with the
scale reads of lines 74-96. -/
theorem load_model_cases (self : ConvolutionDepthWise) (env : Env) (mb : ModelBin) :
    (self.load_failed mb = true →
      ∃ layer1 mb1, self.load_model env mb = some (-100, layer1, mb1) ∧
        mb1.reads = mb.reads ++ self.expected_reads mb) ∧
    (self.load_failed mb = false →
      self.load_model env mb =
        ((self.with_weights mb).load_scales env (self.scale_source mb)).map
          fun r => (0, r.1, r.2)) := by
  unfold load_failed load_model expected_reads with_weights scale_source bias_read weight_read
  by_cases hw : (mb.load self.weight_data_size 0).1.empty = true
  · refine ⟨fun _ => ⟨{ self with weight_data := (mb.load self.weight_data_size 0).1 },
      (mb.load self.weight_data_size 0).2, ?_, ?_⟩, fun h => ?_⟩
    · simp [hw]
    · simp [hw, ModelBin.load_reads]
    · simp [hw] at h
  · by_cases hb : self.bias_term ≠ 0
    · by_cases hbe : ((mb.load self.weight_data_size 0).2.load self.num_output 1).1.empty = true
      · refine ⟨fun _ => ⟨{ self with
            weight_data := (mb.load self.weight_data_size 0).1
            bias_data := ((mb.load self.weight_data_size 0).2.load self.num_output 1).1 },
          ((mb.load self.weight_data_size 0).2.load self.num_output 1).2, ?_, ?_⟩, fun h => ?_⟩
        · simp [hw, hb, hbe]
        · simp [hw, hb, hbe, ModelBin.load_reads]
        · simp [hw, hb, hbe] at h
      · simp [hw, hb, hbe]
    · simp [hw, hb]

/-- The reads behind a result of `load_model`. -/
theorem load_model_reads_of_eq (self : ConvolutionDepthWise) (env : Env) (mb : ModelBin)
    (status : Int) (layer1 : ConvolutionDepthWise) (mb1 : ModelBin)
    (h : self.load_model env mb = some (status, layer1, mb1)) :
    mb1.reads = mb.reads ++ self.expected_reads mb ∧
      (status = -100 ↔ self.load_failed mb = true) ∧ (self.load_failed mb = false → status = 0) := by
  cases hf : self.load_failed mb with
  | true =>
    obtain ⟨l, m, hl, hr⟩ := (self.load_model_cases env mb).1 hf
    rw [hl] at h
    simp only [Option.some.injEq, Prod.mk.injEq] at h
    obtain ⟨hs, -, hm⟩ := h
    subst hm
    exact ⟨hr, by simp [← hs], by simp⟩
  | false =>
    rw [(self.load_model_cases env mb).2 hf, Option.map_eq_some'] at h
    obtain ⟨r, hr, hrr⟩ := h
    simp only [Prod.mk.injEq] at hrr
    obtain ⟨hs, -, hm⟩ := hrr
    subst hm
    have h1 := (load_scales_spec _ env _ r hr).1
    rw [with_weights_scale_reads] at h1
    refine ⟨?_, by simp [← hs], fun _ => hs.symm⟩
    rw [h1]
    unfold load_failed at hf
    simp only [Bool.or_eq_false_iff, Bool.and_eq_false_imp, decide_eq_true_eq] at hf
    unfold expected_reads scale_source
    have hw := hf.1
    by_cases hb : self.bias_term ≠ 0
    · have hbe := hf.2 hb
      unfold bias_read weight_read at hbe
      unfold weight_read at hw
      simp [hw, hb, hbe, bias_read, weight_read, ModelBin.load_reads]
    · unfold weight_read at hw
      simp [hw, hb, weight_read, ModelBin.load_reads]

/-- When `load_model` returns: a read has failed, or the scale reads can be carried out. -/
theorem load_model_returns (self : ConvolutionDepthWise) (env : Env) (mb : ModelBin)
    (h : self.load_failed mb = true ∨ self.scales_loadable env (self.scale_source mb) = true) :
    ∃ status layer1 mb1, self.load_model env mb = some (status, layer1, mb1) := by
  cases hf : self.load_failed mb with
  | true =>
    obtain ⟨l, m, hl, -⟩ := (self.load_model_cases env mb).1 hf
    exact ⟨_, _, _, hl⟩
  | false =>
    rw [hf] at h
    have hl : self.scales_loadable env (self.scale_source mb) = true := by
      rcases h with h | h
      · exact absurd h (by simp)
      · exact h
    have hs := load_scales_isSome (self.with_weights mb) env (self.scale_source mb)
    rw [with_weights_loadable, hl, Option.isSome_iff_exists] at hs
    obtain ⟨r, hr⟩ := hs
    exact ⟨0, r.1, r.2, by rw [(self.load_model_cases env mb).2 hf, hr]; rfl⟩

/-- C13, the code at the failing input: with `int8_scale_term` 1, no bias and a weight source
whose weight read succeeds and whose scale reads yield the empty tensor, neither read named
by the claim has failed, and `load_model` does not return `0`: it reads element 0 of the
empty scale tensor (line 79), a read through a null pointer, and returns no status at all.
The weight read and the bias read of the same function are tested with `empty()` (lines 64
and 70); the scale reads are not. -/
theorem load_model_empty_scale_read :
    Sample.scaled_layer.load_failed Sample.model_bin_weights_only = false ∧
      (Sample.scaled_layer.load_model Sample.env Sample.model_bin_weights_only).map Prod.fst
        = none ∧
      (Sample.scaled_layer.load_model Sample.env Sample.model_bin_weights_only).map Prod.fst
        ≠ some 0 := by
  decide

/-- When the weight read or the bias read has failed, or the scale reads can be carried out,
`load_model` returns; its status is `-100` if and only if the weight read yields an empty
tensor, or `bias_term` is not zero and the bias read yields an empty tensor, and it is `0`
otherwise. -/
theorem load_model_status (self : ConvolutionDepthWise) (env : Env) (mb : ModelBin)
    (h : self.load_failed mb = true ∨ self.scales_loadable env (self.scale_source mb) = true) :
    ∃ status layer1 mb1, self.load_model env mb = some (status, layer1, mb1) ∧
      (status = -100 ↔
        ((self.weight_read mb).1.empty = true ∨
          (self.bias_term ≠ 0 ∧ (self.bias_read mb).1.empty = true))) ∧
      (status ≠ -100 → status = 0) := by
  obtain ⟨status, layer1, mb1, hl⟩ := self.load_model_returns env mb h
  obtain ⟨-, hiff, hzero⟩ := self.load_model_reads_of_eq env mb status layer1 mb1 hl
  refine ⟨status, layer1, mb1, hl, ?_, ?_⟩
  · rw [hiff]
    simp [load_failed]
  · intro hne
    apply hzero
    cases hf : self.load_failed mb with
    | true => exact absurd (hiff.mpr hf) hne
    | false => rfl

/-- Instance of `load_model_status`: `Sample.scaled_layer` on a weight source that answers
every read. -/
theorem load_model_status_witness :
    (Sample.scaled_layer.load_failed Sample.model_bin = true ∨
      Sample.scaled_layer.scales_loadable Sample.env
        (Sample.scaled_layer.scale_source Sample.model_bin) = true) ∧
    ∃ status layer1 mb1,
      Sample.scaled_layer.load_model Sample.env Sample.model_bin = some (status, layer1, mb1) ∧
      (status = -100 ↔
        ((Sample.scaled_layer.weight_read Sample.model_bin).1.empty = true ∨
          (Sample.scaled_layer.bias_term ≠ 0 ∧
            (Sample.scaled_layer.bias_read Sample.model_bin).1.empty = true))) ∧
      (status ≠ -100 → status = 0) :=
  ⟨Or.inr (by decide),
    load_model_status Sample.scaled_layer Sample.env Sample.model_bin (Or.inr (by decide))⟩

/-- C17: when `load_model` returns (a read has failed, or the scale reads can be carried
out), the reads it has issued are, in this order: `(weight_data_size, tag 0)`; then
`(num_output, tag 1)` if and only if `bias_term` is not zero; then `(group, tag 1)` and
`(1, tag 1)` for `int8_scale_term` 1, or `(1, tag 1)` twice for `int8_scale_term` 2; no
other read, and none after a read whose failure makes `load_model` return `-100`. -/
theorem load_model_reads (self : ConvolutionDepthWise) (env : Env) (mb : ModelBin)
    (h : self.load_failed mb = true ∨ self.scales_loadable env (self.scale_source mb) = true) :
    ∃ status layer1 mb1, self.load_model env mb = some (status, layer1, mb1) ∧
      mb1.reads = mb.reads ++ self.expected_reads mb := by
  obtain ⟨status, layer1, mb1, hl⟩ := self.load_model_returns env mb h
  exact ⟨status, layer1, mb1, hl, (self.load_model_reads_of_eq env mb status layer1 mb1 hl).1⟩

/-- Instance of `load_model_reads`: `Sample.scaled_layer` (no bias, `int8_scale_term` 1, two
groups, two weights) reads `(2, 0)`, `(2, 1)`, `(1, 1)`. -/
theorem load_model_reads_witness :
    (Sample.scaled_layer.load_failed Sample.model_bin = true ∨
      Sample.scaled_layer.scales_loadable Sample.env
        (Sample.scaled_layer.scale_source Sample.model_bin) = true) ∧
    Sample.scaled_layer.expected_reads Sample.model_bin = [(2, 0), (2, 1), (1, 1)] ∧
    ∃ status layer1 mb1,
      Sample.scaled_layer.load_model Sample.env Sample.model_bin = some (status, layer1, mb1) ∧
      mb1.reads = Sample.model_bin.reads ++ Sample.scaled_layer.expected_reads Sample.model_bin :=
  ⟨Or.inr (by decide), by decide,
    load_model_reads Sample.scaled_layer Sample.env Sample.model_bin (Or.inr (by decide))⟩

/-- C20: after `load_model` has returned `0`, with `int8_scale_term` 1 the weight scales are
the tensor read with `(group, tag 1)` and the input scales have width `group` and exactly the
cells `0, ..., group-1`, all equal to element 0 of the tensor read next; with
`int8_scale_term` 2 the weight scales and the input scales both have width `group` and exactly
`group` cells, all equal to element 0 of the first and of the second scale tensor read. -/
theorem load_model_scales (self : ConvolutionDepthWise) (env : Env) (mb : ModelBin)
    (layer1 : ConvolutionDepthWise) (mb1 : ModelBin)
    (h : self.load_model env mb = some (0, layer1, mb1)) :
    (self.int8_scale_term = 1 →
      layer1.weight_data_int8_scales = ((self.scale_source mb).load self.group 1).1 ∧
      ∃ bs, (((self.scale_source mb).load self.group 1).2.load 1 1).1.float_at 0 = some bs ∧
        layer1.bottom_blob_int8_scales.w = self.group ∧
        ∀ g : Int, layer1.bottom_blob_int8_scales.float_at g =
          if 0 ≤ g ∧ g < self.group then some bs else none) ∧
    (self.int8_scale_term = 2 →
      ∃ ws bs, ((self.scale_source mb).load 1 1).1.float_at 0 = some ws ∧
        (((self.scale_source mb).load 1 1).2.load 1 1).1.float_at 0 = some bs ∧
        layer1.weight_data_int8_scales.w = self.group ∧
        (∀ g : Int, layer1.weight_data_int8_scales.float_at g =
          if 0 ≤ g ∧ g < self.group then some ws else none) ∧
        layer1.bottom_blob_int8_scales.w = self.group ∧
        ∀ g : Int, layer1.bottom_blob_int8_scales.float_at g =
          if 0 ≤ g ∧ g < self.group then some bs else none) := by
  have hf : self.load_failed mb = false := by
    cases hf : self.load_failed mb with
    | true =>
      have := ((self.load_model_reads_of_eq env mb 0 layer1 mb1 h).2.1).mpr hf
      exact absurd this (by decide)
    | false => rfl
  rw [(self.load_model_cases env mb).2 hf, Option.map_eq_some'] at h
  obtain ⟨r, hr, hrr⟩ := h
  simp only [Prod.mk.injEq, true_and] at hrr
  obtain ⟨hl, -⟩ := hrr
  subst hl
  have hspec := load_scales_spec _ env _ r hr
  rw [(self.with_weights_term mb).1, (self.with_weights_term mb).2] at hspec
  exact hspec.2

/-- Instance of `load_model_scales`: `Sample.scaled_layer` on a weight source that answers
every read. -/
theorem load_model_scales_witness :
    ∃ layer1 mb1,
      Sample.scaled_layer.load_model Sample.env Sample.model_bin = some (0, layer1, mb1) ∧
      layer1.weight_data_int8_scales =
        ((Sample.scaled_layer.scale_source Sample.model_bin).load Sample.scaled_layer.group 1).1 ∧
      layer1.bottom_blob_int8_scales.w = 2 ∧
      layer1.bottom_blob_int8_scales.float_at 1 = some 3 := by
  obtain ⟨status, layer1, mb1, hl⟩ :=
    load_model_returns Sample.scaled_layer Sample.env Sample.model_bin (Or.inr (by decide))
  have hs : status = 0 :=
    (load_model_reads_of_eq Sample.scaled_layer Sample.env Sample.model_bin status layer1 mb1
      hl).2.2 (by decide)
  subst hs
  obtain ⟨hw, bs, hbs, hbw, hcells⟩ :=
    (load_model_scales Sample.scaled_layer Sample.env Sample.model_bin layer1 mb1 hl).1 rfl
  refine ⟨layer1, mb1, hl, hw, hbw, ?_⟩
  have hbs3 : bs = 3 := by
    have h3 : (((Sample.scaled_layer.scale_source Sample.model_bin).load
        Sample.scaled_layer.group 1).2.load 1 1).1.float_at 0 = some 3 := by
      simp [Sample.scaled_layer, Sample.int8_layer, Sample.layer, ConvolutionDepthWise.new,
        scale_source, weight_read, bias_read, ModelBin.load, Sample.model_bin, Sample.vec,
        Mat.float_at, Mat.read_float, at?]
    rw [h3] at hbs
    exact (Option.some.inj hbs).symm
  rw [hcells 1, hbs3]
  have : (0 : Int) ≤ 1 ∧ (1 : Int) < Sample.scaled_layer.group := by decide
  rw [if_pos this]

end ConvolutionDepthWise

/-! ## Failure of `forward` and the output blob -/

namespace ConvolutionDepthWise

theorem map_status_zero {α : Type} (x : Option α) (f : α → Mat) (r : Int × Mat)
    (h : x.map (fun a => ((0 : Int), f a)) = some r) : r.1 = 0 := by
  rw [Option.map_eq_some'] at h
  obtain ⟨a, -, rfl⟩ := h
  rfl

theorem forward_float_failure (self : ConvolutionDepthWise) (env : Env) (K : Kernel ℚ)
    (channels outw outh : Int) (elemsize : Nat) (top_blob : Mat) (opt : Opt) (r : Int × Mat)
    (h : self.forward_float env K channels outw outh elemsize top_blob opt = some r)
    (hs : r.1 ≠ 0) : r.2 = top_blob ∨ r.2.empty = true := by
  unfold forward_float at h
  simp only at h
  split at h
  · rename_i he
    simp only [Option.some.injEq] at h
    subst h
    exact Or.inr he
  · split at h
    · exact absurd (map_status_zero _ _ r h) hs
    · exact absurd (map_status_zero _ _ r h) hs

theorem forward_dequantize_failure (self : ConvolutionDepthWise) (env : Env) (K : Kernel Int)
    (channels outw outh : Int) (top_blob : Mat) (opt : Opt) (r : Int × Mat)
    (h : self.forward_dequantize env K channels outw outh top_blob opt = some r)
    (hs : r.1 ≠ 0) : r.2 = top_blob ∨ r.2.empty = true := by
  unfold forward_dequantize at h
  simp only at h
  split at h
  · rename_i he
    simp only [Option.some.injEq] at h
    subst h
    exact Or.inr he
  · split at h
    · exact absurd (map_status_zero _ _ r h) hs
    · exact absurd (map_status_zero _ _ r h) hs

theorem forward_requantize_failure (self : ConvolutionDepthWise) (env : Env) (K : Kernel Int)
    (channels outw outh : Int) (top_blob : Mat) (opt : Opt) (r : Int × Mat)
    (h : self.forward_requantize env K channels outw outh top_blob opt = some r)
    (hs : r.1 ≠ 0) : r.2 = top_blob ∨ r.2.empty = true := by
  unfold forward_requantize at h
  simp only at h
  split at h
  · simp only [Option.some.injEq] at h
    subst h
    exact Or.inl rfl
  · split at h
    · rename_i he
      simp only [Option.some.injEq] at h
      subst h
      exact Or.inr he
    · split at h
      · exact absurd (map_status_zero _ _ r h) hs
      · exact absurd (map_status_zero _ _ r h) hs

theorem forward_bordered_failure (self : ConvolutionDepthWise) (env : Env) (bordered : Mat)
    (channels : Int) (elemsize : Nat) (top_blob : Mat) (opt : Opt) (r : Int × Mat)
    (h : self.forward_bordered env bordered channels elemsize top_blob opt = some r)
    (hs : r.1 ≠ 0) : r.2 = top_blob ∨ r.2.empty = true := by
  unfold forward_bordered at h
  simp only at h
  split at h
  · simp only [Option.some.injEq] at h
    subst h
    exact Or.inl rfl
  · rw [Option.bind_eq_some] at h
    obtain ⟨qw, -, h⟩ := h
    rw [Option.bind_eq_some] at h
    obtain ⟨qh, -, h⟩ := h
    rw [Option.bind_eq_some] at h
    obtain ⟨ofs, -, h⟩ := h
    split at h
    · split at h
      · exact forward_requantize_failure _ _ _ _ _ _ _ _ r h hs
      · exact forward_dequantize_failure _ _ _ _ _ _ _ _ r h hs
    · exact forward_float_failure _ _ _ _ _ _ _ _ _ r h hs

theorem forward_checked_failure (self : ConvolutionDepthWise) (env : Env)
    (bottom_blob top_blob : Mat) (opt : Opt) (r : Int × Mat)
    (h : self.forward_checked env bottom_blob top_blob opt = some r)
    (hs : r.1 ≠ 0) : r.2 = top_blob ∨ r.2.empty = true := by
  unfold forward_checked at h
  simp only at h
  split at h
  · split at h
    · simp only [Option.some.injEq] at h
      subst h
      exact Or.inl rfl
    · rw [Option.bind_eq_some] at h
      obtain ⟨unbordered, -, h⟩ := h
      rw [Option.bind_eq_some] at h
      obtain ⟨bordered, -, h⟩ := h
      exact forward_bordered_failure _ _ _ _ _ _ _ r h hs
  · rw [Option.bind_eq_some] at h
    obtain ⟨bordered, -, h⟩ := h
    exact forward_bordered_failure _ _ _ _ _ _ _ r h hs

/-- C11: for every input, layer, environment (allocator behaviour included) and option, when
`forward` returns a non-zero status the output blob is exactly what it was before the call or
is empty: no failure return comes after an output element has been written. -/
theorem forward_failure_leaves_output (self : ConvolutionDepthWise) (env : Env)
    (bottom_blob top_blob : Mat) (opt : Opt) (status : Int) (top : Mat)
    (h : self.forward env bottom_blob top_blob opt = some (status, top))
    (hs : status ≠ 0) : top = top_blob ∨ top.empty = true := by
  unfold forward at h
  rw [Option.bind_eq_some] at h
  obtain ⟨r1, -, h⟩ := h
  split at h
  · simp only [Option.some.injEq, Prod.mk.injEq] at h
    exact Or.inl h.2.symm
  · rw [Option.bind_eq_some] at h
    obtain ⟨r2, -, h⟩ := h
    split at h
    · simp only [Option.some.injEq, Prod.mk.injEq] at h
      exact Or.inl h.2.symm
    · exact forward_checked_failure self env bottom_blob top_blob opt (status, top) h hs

/-- Instance of `forward_failure_leaves_output`: the allocator grants nothing, `forward`
returns `-100` and the output blob, a 1x1x1 tensor before the call, is empty afterwards. -/
theorem forward_failure_leaves_output_witness :
    (Sample.depthwise 2 2 (1 / 2)).forward Sample.env_denied (Sample.blob 4 5 2 1)
        (Sample.blob 1 1 1 0) Sample.opt =
      some (-100, { dims := 3, w := 2, h := 3, c := 2, elemsize := 4, allocator := none
                    data := Buf.null }) ∧
    (-100 : Int) ≠ 0 ∧
    (({ dims := 3, w := 2, h := 3, c := 2, elemsize := 4, allocator := none
        data := Buf.null } : Mat) = Sample.blob 1 1 1 0 ∨
      ({ dims := 3, w := 2, h := 3, c := 2, elemsize := 4, allocator := none
         data := Buf.null } : Mat).empty = true) :=
  ⟨rfl, by decide,
    forward_failure_leaves_output (Sample.depthwise 2 2 (1 / 2)) Sample.env_denied
      (Sample.blob 4 5 2 1) (Sample.blob 1 1 1 0) Sample.opt (-100) _ rfl (by decide)⟩

/-! ## Sub-layer calls: status and options -/

/-- C12, as stated, fails: in an environment whose dequantize sub-layer returns the status
`-7` at every call, `forward` on the int8 path goes on, writes the output and returns `0`. -/
theorem forward_goes_on_after_sub_layer_failure :
    (∀ op m o, ((Sample.env_status (-7)).dequantize_forward_inplace op m o).1 = -7) ∧
    Sample.int8_dequant.forward (Sample.env_status (-7)) (Sample.int8_blob 1 1 2 5) Mat.nil
        Sample.opt =
      some (0, { dims := 3, w := 1, h := 1, c := 2, elemsize := 4, allocator := none
                 data := Buf.floats [[5], [10]] }) ∧
    (Sample.int8_dequant.forward (Sample.env_status (-7)) (Sample.int8_blob 1 1 2 5) Mat.nil
        Sample.opt).map Prod.fst ≠ some (-7) :=
  ⟨fun _ _ _ => rfl, rfl, by decide⟩

/-- C12, amended: `forward` does not look at the status of the quantize, dequantize and
requantize calls it makes: whatever statuses they return, its own status and output are those
it has when they return what `env` returns. -/
theorem forward_ignores_sub_layer_status (self : ConvolutionDepthWise) (env : Env)
    (q : QuantizeOp → Mat → Mat → Opt → Int) (d : DequantizeOp → Mat → Opt → Int)
    (r : RequantizeOp → Mat → Mat → Opt → Int) (bottom_blob top_blob : Mat) (opt : Opt) :
    self.forward (env.with_status q d r) bottom_blob top_blob opt =
      self.forward env bottom_blob top_blob opt := rfl

theorem opt_g_sub_layer_option (opt : Opt) (a : Allocator) :
    sub_layer_option opt (opt_g opt a) = true := by
  simp [sub_layer_option, opt_g]

theorem dequantize_group_on_options (self : ConvolutionDepthWise) (env other : Env)
    (top_blob : Mat) (opt : Opt) (n : Int) (g : Nat) (sums : List (List Int)) :
    self.dequantize_group (env.on_options other (sub_layer_option opt)) top_blob opt n g sums =
      self.dequantize_group env top_blob opt n g sums := by
  unfold dequantize_group
  simp only [Env.on_options, opt_g_sub_layer_option, if_true]

theorem requantize_group_on_options (self : ConvolutionDepthWise) (env other : Env)
    (top_blob_tm top_blob : Mat) (opt : Opt) (n : Int) (g : Nat) (sums : List (List Int)) :
    self.requantize_group (env.on_options other (sub_layer_option opt)) top_blob_tm top_blob opt
        n g sums =
      self.requantize_group env top_blob_tm top_blob opt n g sums := by
  unfold requantize_group
  simp only [Env.on_options, opt_g_sub_layer_option, if_true]

theorem dequantize_group_on_options_fun (self : ConvolutionDepthWise) (env other : Env)
    (top_blob : Mat) (opt : Opt) (n : Int) :
    self.dequantize_group (env.on_options other (sub_layer_option opt)) top_blob opt n =
      self.dequantize_group env top_blob opt n := by
  funext g sums
  exact dequantize_group_on_options self env other top_blob opt n g sums

theorem requantize_group_on_options_fun (self : ConvolutionDepthWise) (env other : Env)
    (top_blob_tm top_blob : Mat) (opt : Opt) (n : Int) :
    self.requantize_group (env.on_options other (sub_layer_option opt)) top_blob_tm top_blob opt
        n =
      self.requantize_group env top_blob_tm top_blob opt n := by
  funext g sums
  exact requantize_group_on_options self env other top_blob_tm top_blob opt n g sums

theorem quantize_input_on_options (self : ConvolutionDepthWise) (env other : Env)
    (bottom_blob bottom_blob_int8 : Mat) (opt : Opt) :
    self.quantize_input (env.on_options other (sub_layer_option opt)) bottom_blob
        bottom_blob_int8 opt =
      self.quantize_input env bottom_blob bottom_blob_int8 opt := by
  unfold quantize_input
  simp only [Env.on_options, opt_g_sub_layer_option, if_true]

theorem on_options_exp (env other : Env) (ok : Opt → Bool) :
    (env.on_options other ok).exp = env.exp := rfl

theorem on_options_granted (env other : Env) (ok : Opt → Bool) :
    (env.on_options other ok).granted = env.granted := rfl

theorem on_options_copy_make_border (env other : Env) (ok : Opt → Bool) :
    (env.on_options other ok).copy_make_border = env.copy_make_border := rfl

theorem forward_float_on_options (self : ConvolutionDepthWise) (env other : Env)
    (K : Kernel ℚ) (channels outw outh : Int) (elemsize : Nat) (top_blob : Mat) (opt : Opt) :
    self.forward_float (env.on_options other (sub_layer_option opt)) K channels outw outh
        elemsize top_blob opt =
      self.forward_float env K channels outw outh elemsize top_blob opt := by
  unfold forward_float float_depthwise float_grouped activation
  simp only [on_options_exp, on_options_granted]

theorem forward_dequantize_on_options (self : ConvolutionDepthWise) (env other : Env)
    (K : Kernel Int) (channels outw outh : Int) (top_blob : Mat) (opt : Opt) :
    self.forward_dequantize (env.on_options other (sub_layer_option opt)) K channels outw outh
        top_blob opt =
      self.forward_dequantize env K channels outw outh top_blob opt := by
  unfold forward_dequantize dequantize_depthwise dequantize_grouped
  simp only [on_options_granted, dequantize_group_on_options,
    dequantize_group_on_options_fun]

theorem forward_requantize_on_options (self : ConvolutionDepthWise) (env other : Env)
    (K : Kernel Int) (channels outw outh : Int) (top_blob : Mat) (opt : Opt) :
    self.forward_requantize (env.on_options other (sub_layer_option opt)) K channels outw outh
        top_blob opt =
      self.forward_requantize env K channels outw outh top_blob opt := by
  unfold forward_requantize requantize_depthwise requantize_grouped
  simp only [on_options_granted, requantize_group_on_options,
    requantize_group_on_options_fun]

theorem border_on_options (self : ConvolutionDepthWise) (env other : Env)
    (m : Mat) (w h : Int) (opt : Opt) :
    self.border (env.on_options other (sub_layer_option opt)) m w h opt =
      self.border env m w h opt := by
  unfold border border_auto
  simp only [on_options_copy_make_border]

theorem forward_bordered_on_options (self : ConvolutionDepthWise) (env other : Env)
    (bordered : Mat) (channels : Int) (elemsize : Nat) (top_blob : Mat) (opt : Opt) :
    self.forward_bordered (env.on_options other (sub_layer_option opt)) bordered channels
        elemsize top_blob opt =
      self.forward_bordered env bordered channels elemsize top_blob opt := by
  unfold forward_bordered
  simp only [forward_float_on_options, forward_dequantize_on_options,
    forward_requantize_on_options]

/-- C16: the option `forward` builds for a sub-layer call has `num_threads` 1 and differs from
the caller's option in no field other than `num_threads` and `blob_allocator`, and every
quantize, dequantize and requantize call of `forward` is made with such an option: `forward`
is the same in every environment whose sub-layers agree with those of `env` on these
options, whatever they do on the others. -/
theorem sub_layer_options (self : ConvolutionDepthWise) (env other : Env)
    (bottom_blob top_blob : Mat) (opt : Opt) :
    (∀ a, (opt_g opt a).num_threads = 1 ∧ sub_layer_option opt (opt_g opt a) = true) ∧
    self.forward (env.on_options other (sub_layer_option opt)) bottom_blob top_blob opt =
      self.forward env bottom_blob top_blob opt := by
  refine ⟨fun a => ⟨rfl, opt_g_sub_layer_option opt a⟩, ?_⟩
  unfold forward forward_checked
  simp only [quantize_input_on_options, forward_bordered_on_options, border_on_options,
    on_options_granted]

/-! ## The table of kernel-tap offsets -/

theorem space_ofs_length (self : ConvolutionDepthWise) (w : Int) (ofs : List Int)
    (h : self.space_ofs w = some ofs) :
    (ofs.length : Int) = self.kernel_w * self.kernel_h := by
  unfold space_ofs at h
  simp only at h
  split at h
  · exact absurd h (by simp)
  · rename_i hneg
    simp only [Option.some.injEq] at h
    subst h
    have h0 : 0 ≤ self.kernel_w * self.kernel_h := not_lt.mp hneg
    have hle : self.kernel_h.toNat * self.kernel_w.toNat ≤ (self.kernel_w * self.kernel_h).toNat := by
      by_cases hw : 0 ≤ self.kernel_w
      · by_cases hh : 0 ≤ self.kernel_h
        · obtain ⟨a, ha⟩ := Int.eq_ofNat_of_zero_le hw
          obtain ⟨b, hb⟩ := Int.eq_ofNat_of_zero_le hh
          rw [ha, hb]
          have : ((a : Int) * (b : Int)).toNat = a * b := by
            rw [← Nat.cast_mul]; exact Int.toNat_natCast _
          simp only [Int.toNat_natCast, this]
          exact le_of_eq (Nat.mul_comm b a)
        · rw [Int.toNat_of_nonpos (by omega)]; simp
      · rw [Int.toNat_of_nonpos (le_of_lt (not_le.mp hw))]; simp
    simp only [List.length_append, space_ofs_rows_length, List.length_replicate]
    rw [Nat.add_sub_cancel' hle]
    exact Int.toNat_of_nonneg h0

/-- C18: for a kernel whose size `kernel_w * kernel_h` is not negative, the table of offsets
built by `forward` has `kernel_w * kernel_h` entries and, for every `0 <= i < kernel_h` and
`0 <= j < kernel_w`, its entry `i * kernel_w + j` is `i * w * dilation_h + j * dilation_w`,
`w` being the width of the bordered input. -/
theorem space_ofs_table (self : ConvolutionDepthWise) (w : Int)
    (hmaxk : 0 ≤ self.kernel_w * self.kernel_h) :
    ∃ ofs, self.space_ofs w = some ofs ∧
      (ofs.length : Int) = self.kernel_w * self.kernel_h ∧
      ∀ i j : Int, 0 ≤ i → i < self.kernel_h → 0 ≤ j → j < self.kernel_w →
        at? ofs (i * self.kernel_w + j) = some (i * w * self.dilation_h + j * self.dilation_w) := by
  have hsome : ∃ ofs, self.space_ofs w = some ofs := by
    unfold space_ofs
    simp only [not_lt.mpr hmaxk, if_false]
    exact ⟨_, rfl⟩
  obtain ⟨ofs, hofs⟩ := hsome
  refine ⟨ofs, hofs, self.space_ofs_length w ofs hofs, ?_⟩
  intro i j hi0 hi hj0 hj
  obtain ⟨ofs1, hofs1, hget⟩ := self.space_ofs_get w (by omega) (by omega)
  rw [hofs] at hofs1
  simp only [Option.some.injEq] at hofs1
  subst hofs1
  obtain ⟨a, rfl⟩ := Int.eq_ofNat_of_zero_le hi0
  obtain ⟨b, rfl⟩ := Int.eq_ofNat_of_zero_le hj0
  obtain ⟨kw, hkw⟩ := Int.eq_ofNat_of_zero_le (show 0 ≤ self.kernel_w by omega)
  have hkwn : self.kernel_w.toNat = kw := by rw [hkw]; exact Int.toNat_natCast _
  have hbk : b < kw := by omega
  have hidx : ((a : Int) * self.kernel_w + (b : Int)) = ((a * kw + b : Nat) : Int) := by
    rw [hkw]; push_cast; ring
  have hlt : a * kw + b < self.kernel_h.toNat * self.kernel_w.toNat := by
    rw [hkwn]
    have ha : a < self.kernel_h.toNat := by omega
    calc a * kw + b < a * kw + kw := by omega
      _ = (a + 1) * kw := by ring
      _ ≤ self.kernel_h.toNat * kw := Nat.mul_le_mul_right kw ha
  rw [hidx, at?_natCast, hget _ hlt, hkwn]
  have hdiv : (a * kw + b) / kw = a := by
    rw [Nat.add_comm, Nat.add_mul_div_right _ _ (by omega), Nat.div_eq_of_lt hbk]; simp
  have hmod : (a * kw + b) % kw = b := by
    rw [Nat.add_comm, Nat.add_mul_mod_self_right, Nat.mod_eq_of_lt hbk]
  rw [hdiv, hmod]
  congr 1
  ring

/-- Instance of `space_ofs_table`: the 3x3 kernel of dilation 1 on a bordered input of
width 7. -/
theorem space_ofs_table_witness :
    0 ≤ (Sample.depthwise 2 2 (1 / 2)).kernel_w * (Sample.depthwise 2 2 (1 / 2)).kernel_h ∧
    (Sample.depthwise 2 2 (1 / 2)).space_ofs 7 = some [0, 1, 2, 7, 8, 9, 14, 15, 16] ∧
    ∃ ofs, (Sample.depthwise 2 2 (1 / 2)).space_ofs 7 = some ofs ∧
      (ofs.length : Int) =
        (Sample.depthwise 2 2 (1 / 2)).kernel_w * (Sample.depthwise 2 2 (1 / 2)).kernel_h ∧
      ∀ i j : Int, 0 ≤ i → i < (Sample.depthwise 2 2 (1 / 2)).kernel_h → 0 ≤ j →
        j < (Sample.depthwise 2 2 (1 / 2)).kernel_w →
        at? ofs (i * (Sample.depthwise 2 2 (1 / 2)).kernel_w + j) =
          some (i * 7 * (Sample.depthwise 2 2 (1 / 2)).dilation_h +
            j * (Sample.depthwise 2 2 (1 / 2)).dilation_w) :=
  ⟨by decide, by decide, space_ofs_table (Sample.depthwise 2 2 (1 / 2)) 7 (by decide)⟩

/-! ## Choice of the numeric path -/

theorem quantize_weight_flag (self : ConvolutionDepthWise) (env : Env)
    (layer1 : ConvolutionDepthWise) (h : self.quantize_weight env = some (Sum.inr layer1)) :
    layer1.use_int8_inference = self.use_int8_inference := by
  unfold quantize_weight at h
  split at h
  · simp only at h
    split at h
    · simp at h
    · rw [Option.bind_eq_some] at h
      obtain ⟨q, -, h⟩ := h
      rw [Option.map_eq_some'] at h
      obtain ⟨parts, -, h⟩ := h
      simp only [Sum.inr.injEq] at h
      rw [← h]
  · simp only [Option.some.injEq, Sum.inr.injEq] at h
    rw [← h]

theorem quantize_weight_status (self : ConvolutionDepthWise) (env : Env) (status : Int)
    (h : self.quantize_weight env = some (Sum.inl status)) : status = -100 := by
  unfold quantize_weight at h
  split at h
  · simp only at h
    split at h
    · simp only [Option.some.injEq, Sum.inl.injEq] at h
      exact h.symm
    · rw [Option.bind_eq_some] at h
      obtain ⟨q, -, h⟩ := h
      rw [Option.map_eq_some'] at h
      obtain ⟨parts, -, h⟩ := h
      exact absurd h (by simp)
  · exact absurd h (by simp)

theorem make_ops_flag (self layer1 : ConvolutionDepthWise) (h : self.make_ops = some layer1) :
    layer1.use_int8_inference = self.use_int8_inference := by
  unfold make_ops at h
  split at h
  · split at h
    · exact absurd h (by simp)
    · rw [Option.bind_eq_some] at h
      obtain ⟨q, -, h⟩ := h
      rw [Option.map_eq_some'] at h
      obtain ⟨built, -, h⟩ := h
      rw [← h]
  · simp only [Option.some.injEq] at h
    rw [← h]

/-- The flag `use_int8_inference` after a `create_pipeline` that returned `0`. -/
theorem create_pipeline_flag (self : ConvolutionDepthWise) (env : Env) (opt : Opt)
    (layer1 : ConvolutionDepthWise) (h : self.create_pipeline env opt = some (0, layer1)) :
    layer1.use_int8_inference = (opt.use_int8_inference &&
      (decide (self.weight_data.elemsize = 1) ||
        (decide (self.weight_data.elemsize = 4) && decide (self.int8_scale_term ≠ 0)))) := by
  unfold create_pipeline at h
  simp only at h
  split at h
  · simp at h
  · rw [Option.bind_eq_some] at h
    obtain ⟨r, hr, h⟩ := h
    cases r with
    | inl status =>
      simp only [Option.some.injEq, Prod.mk.injEq] at h
      have := quantize_weight_status _ env status hr
      omega
    | inr layer2 =>
      simp only at h
      rw [Option.map_eq_some'] at h
      obtain ⟨layer3, h3, h⟩ := h
      simp only [Prod.mk.injEq, true_and] at h
      subst h
      rw [make_ops_flag _ _ h3, quantize_weight_flag _ env _ hr]

/-- C19: after a `create_pipeline` that returned `0`, `use_int8_inference` is true if and only
if `opt.use_int8_inference` is set and the weights as loaded are int8 (element size 1) or
float32 (element size 4) with a non-zero `int8_scale_term`; and from the bordered input on,
`forward` runs the int8 path (32-bit sums, then requantization or dequantization) when the
flag is true and the float path when it is false. -/
theorem int8_path_selection (self : ConvolutionDepthWise) (env : Env) (opt : Opt)
    (layer1 : ConvolutionDepthWise) (h : self.create_pipeline env opt = some (0, layer1)) :
    (layer1.use_int8_inference = true ↔
      (opt.use_int8_inference = true ∧
        (self.weight_data.elemsize = 1 ∨
          (self.weight_data.elemsize = 4 ∧ self.int8_scale_term ≠ 0)))) ∧
    ∀ (bordered : Mat) (channels : Int) (elemsize : Nat) (top_blob : Mat) (opt1 : Opt)
      (qw qh : Int) (ofs : List Int),
      bordered.empty = false →
      c_div (bordered.w - kernel_extent layer1.dilation_w layer1.kernel_w) layer1.stride_w
        = some qw →
      c_div (bordered.h - kernel_extent layer1.dilation_h layer1.kernel_h) layer1.stride_h
        = some qh →
      layer1.space_ofs bordered.w = some ofs →
      (layer1.use_int8_inference = true →
        layer1.forward_bordered env bordered channels elemsize top_blob opt1 =
          if layer1.use_int8_requantize = true then
            layer1.forward_requantize env (layer1.int8_kernel bordered ofs) channels
              (qw + 1) (qh + 1) top_blob opt1
          else
            layer1.forward_dequantize env (layer1.int8_kernel bordered ofs) channels
              (qw + 1) (qh + 1) top_blob opt1) ∧
      (layer1.use_int8_inference = false →
        layer1.forward_bordered env bordered channels elemsize top_blob opt1 =
          layer1.forward_float env (layer1.float_kernel bordered ofs) channels
            (qw + 1) (qh + 1) elemsize top_blob opt1) := by
  refine ⟨?_, ?_⟩
  · rw [self.create_pipeline_flag env opt layer1 h]
    simp
  · intro bordered channels elemsize top_blob opt1 qw qh ofs hne hqw hqh hofs
    constructor
    · intro hflag
      unfold forward_bordered
      simp only [hne, Bool.false_eq_true, if_false, hqw, hqh, hofs, Option.some_bind, hflag,
        if_true]
    · intro hflag
      unfold forward_bordered
      simp only [hne, Bool.false_eq_true, if_false, hqw, hqh, hofs, Option.some_bind, hflag]

/-- Instance of `int8_path_selection`: `create_pipeline` on `Sample.int8_layer` with int8
inference enabled. -/
theorem int8_path_selection_witness :
    ∃ layer1, Sample.int8_layer.create_pipeline Sample.env Sample.opt_int8 = some (0, layer1) ∧
      (layer1.use_int8_inference = true ↔
        (Sample.opt_int8.use_int8_inference = true ∧
          (Sample.int8_layer.weight_data.elemsize = 1 ∨
            (Sample.int8_layer.weight_data.elemsize = 4 ∧
              Sample.int8_layer.int8_scale_term ≠ 0)))) := by
  obtain ⟨layer1, h1, -, -⟩ := create_pipeline_int8 Sample.int8_layer Sample.env
    Sample.opt_int8 rfl (Or.inl rfl) (by decide) int8_layer_read
  exact ⟨layer1, h1,
    (int8_path_selection Sample.int8_layer Sample.env Sample.opt_int8 layer1 h1).1⟩

end ConvolutionDepthWise

/-! ## Elements of the float path and activation -/

theorem accumulate_eq_collect (step : Nat → ℚ → Option ℚ) (f : Nat → Option ℚ)
    (h : ∀ k s, step k s = (f k).map fun p => s + p) (n : Nat) (s : ℚ) :
    accumulate step n s = (collect f n).map fun ps => s + ps.sum := by
  induction n with
  | zero => simp [accumulate, collect]
  | succ n ih =>
    rw [accumulate_succ, collect_succ, ih]
    cases collect f n with
    | none => rfl
    | some xs =>
      simp only [Option.map_some', Option.some_bind, h]
      cases f n with
      | none => rfl
      | some p => simp [add_assoc]

theorem accumulate_eq_collect_lists (step : Nat → ℚ → Option ℚ) (F : Nat → Option (List ℚ))
    (h : ∀ q s, step q s = (F q).map fun ps => s + ps.sum) (n : Nat) (s : ℚ) :
    accumulate step n s = ((collect F n).map List.flatten).map fun ps => s + ps.sum := by
  induction n with
  | zero => simp [accumulate, collect]
  | succ n ih =>
    rw [accumulate_succ, collect_succ, ih]
    cases collect F n with
    | none => rfl
    | some xs =>
      simp only [Option.map_some', Option.some_bind, h]
      cases F n with
      | none => rfl
      | some ps => simp [add_assoc]

namespace ConvolutionDepthWise

theorem taps_eq_products (ofs : List Int) (sptr kptr : Int → Option ℚ) (maxk : Int) (s : ℚ) :
    taps fma_float ofs sptr kptr maxk s =
      (tap_products ofs sptr kptr maxk).map fun ps => s + ps.sum := by
  unfold taps tap_products
  apply accumulate_eq_collect
  intro k s
  cases at? ofs k with
  | none => rfl
  | some o =>
    simp only [Option.some_bind]
    cases sptr o with
    | none => rfl
    | some v =>
      simp only [Option.some_bind]
      cases kptr k with
      | none => rfl
      | some w => simp [fma_float]

theorem depthwise_pixel_eq (K : Kernel ℚ) (hK : K.fma = fma_float) (g i j : Nat) (s : ℚ) :
    depthwise_pixel K g i j s = (depthwise_products K g i j).map fun ps => s + ps.sum := by
  unfold depthwise_pixel depthwise_products
  rw [hK, taps_eq_products]

theorem grouped_pixel_eq (K : Kernel ℚ) (hK : K.fma = fma_float) (channels_g num_output_g : Int)
    (g p i j : Nat) (s : ℚ) :
    grouped_pixel K channels_g num_output_g g p i j s =
      (grouped_products K channels_g num_output_g g p i j).map fun ps => s + ps.sum := by
  unfold grouped_pixel grouped_products
  apply accumulate_eq_collect_lists
  intro q s
  rw [hK, taps_eq_products]

theorem float_element_depthwise (self : ConvolutionDepthWise) (env : Env) (K : Kernel ℚ)
    (hK : K.fma = fma_float) (g i j : Nat) (n : Int) :
    ((self.bias_at n).bind fun sum => (depthwise_pixel K g i j sum).bind (self.activation env)) =
      self.float_element env n (depthwise_products K g i j) := by
  unfold float_element
  cases self.bias_at n with
  | none => rfl
  | some b =>
    simp only [Option.some_bind, depthwise_pixel_eq K hK]
    cases depthwise_products K g i j <;> rfl

theorem float_element_grouped (self : ConvolutionDepthWise) (env : Env) (K : Kernel ℚ)
    (hK : K.fma = fma_float) (channels_g num_output_g : Int) (g p i j : Nat) (n : Int) :
    ((self.bias_at n).bind fun sum =>
        (grouped_pixel K channels_g num_output_g g p i j sum).bind (self.activation env)) =
      self.float_element env n (grouped_products K channels_g num_output_g g p i j) := by
  unfold float_element
  cases self.bias_at n with
  | none => rfl
  | some b =>
    simp only [Option.some_bind, grouped_pixel_eq K hK]
    cases grouped_products K channels_g num_output_g g p i j <;> rfl

/-- In exact arithmetic the loops of the float path compute, for every output element, the
activation of `s`, where `s` is the bias of the output channel (or `0` when `bias_term` is
`0`) plus the sum of `input * weight` over all taps (of all input channels of the group), in
the depth-wise branch and in the grouped branch; the activation is the identity for
`activation_type` 0, `max(s, 0)` for 1, `s` if `s > 0` else `s * slope` for 2 and the clamp
`min(max(s, lo), hi)` for 3, which for `lo <= hi` lies in `[lo, hi]` and is `s` whenever `s`
is in `[lo, hi]`. -/
theorem float_path_elements (self : ConvolutionDepthWise) (env : Env) (bordered : Mat)
    (ofs : List Int) (channels outw outh : Int) (s : ℚ) :
    self.float_depthwise env (self.float_kernel bordered ofs) outw outh =
      collect (fun g => plane outw outh fun i j =>
        self.float_element env g (depthwise_products (self.float_kernel bordered ofs) g i j))
        self.group.toNat ∧
    self.float_grouped env (self.float_kernel bordered ofs) channels outw outh =
      (collect (fun g => collect (fun p => plane outw outh fun i j =>
        self.float_element env (self.num_output.tdiv self.group * g + p)
          (grouped_products (self.float_kernel bordered ofs) (channels.tdiv self.group)
            (self.num_output.tdiv self.group) g p i j))
        (self.num_output.tdiv self.group).toNat) self.group.toNat).map List.flatten ∧
    (self.activation_type = 0 → self.activation env s = some s) ∧
    (self.activation_type = 1 → self.activation env s = some (max s 0)) ∧
    (self.activation_type = 2 → ∀ slope, self.activation_params.float_at 0 = some slope →
      self.activation env s = some (if s > 0 then s else s * slope)) ∧
    (self.activation_type = 3 → ∀ lo hi, self.activation_params.float_at 0 = some lo →
      self.activation_params.float_at 1 = some hi →
      self.activation env s = some (min (max s lo) hi) ∧
      (lo ≤ hi → lo ≤ min (max s lo) hi ∧ min (max s lo) hi ≤ hi ∧
        (lo ≤ s → s ≤ hi → min (max s lo) hi = s))) := by
  refine ⟨?_, ?_, ?_, ?_, ?_, ?_⟩
  · unfold float_depthwise
    simp only [float_element_depthwise self env (self.float_kernel bordered ofs) rfl]
  · unfold float_grouped
    simp only [float_element_grouped self env (self.float_kernel bordered ofs) rfl]
  · intro h
    simp [activation, h]
  · intro h
    simp [activation, h]
  · intro h slope hs
    simp [activation, h, hs]
  · intro h lo hi hlo hhi
    refine ⟨?_, fun hle => ⟨?_, ?_, fun h1 h2 => ?_⟩⟩
    · simp only [activation, h, hlo, hhi]
      norm_num
      by_cases h1 : s < lo
      · rw [if_pos h1, max_eq_right (le_of_lt h1)]
        by_cases h2 : hi < lo
        · rw [if_pos h2, min_eq_right (le_of_lt h2)]
        · rw [if_neg h2, min_eq_left (not_lt.mp h2)]
      · rw [if_neg h1, max_eq_left (not_lt.mp h1)]
        by_cases h2 : hi < s
        · rw [if_pos h2, min_eq_right (le_of_lt h2)]
        · rw [if_neg h2, min_eq_left (not_lt.mp h2)]
    · exact le_min (le_max_right s lo) hle
    · exact min_le_right _ _
    · rw [max_eq_left h1, min_eq_left h2]

/-- Instance of `float_path_elements`: clamp of `5` to `[0, 1]` on `Sample.clamped`. -/
theorem float_path_elements_witness :
    Sample.clamped.activation_type = 3 ∧
    Sample.clamped.activation_params.float_at 0 = some 0 ∧
    Sample.clamped.activation_params.float_at 1 = some 1 ∧
    Sample.clamped.activation Sample.env 5 = some (min (max 5 0) 1) ∧
    ((0 : ℚ) ≤ 1 → (0 : ℚ) ≤ min (max 5 0) 1 ∧ min (max (5 : ℚ) 0) 1 ≤ 1 ∧
      ((0 : ℚ) ≤ 5 → (5 : ℚ) ≤ 1 → min (max (5 : ℚ) 0) 1 = 5)) :=
  have h0 : Sample.clamped.activation_params.float_at 0 = some 0 := by
    simp [Sample.clamped, Sample.vec, Mat.float_at, Mat.read_float, at?]
  have h1 : Sample.clamped.activation_params.float_at 1 = some 1 := by
    simp [Sample.clamped, Sample.vec, Mat.float_at, Mat.read_float, at?]
  ⟨rfl, h0, h1,
    (float_path_elements Sample.clamped Sample.env (Sample.blob 4 5 2 1)
      [0, 1, 2, 4, 5, 6, 8, 9, 10] 2 2 3 5).2.2.2.2.2 rfl 0 1 h0 h1⟩

/-- C14, the code at the failing input: on the int8 path with dequantization and a fused clamp
to `[0, 1]` (`activation_type` 3), `forward` returns `0` and leaves the dequantized sums `5`
and `10` in the output: the clamp is not applied. -/
theorem int8_path_skips_clamp :
    Sample.int8_clamped.activation_type = 3 ∧
    Sample.int8_clamped.activation_params.float_at 0 = some 0 ∧
    Sample.int8_clamped.activation_params.float_at 1 = some 1 ∧
    Sample.int8_clamped.forward (Sample.env_status 0) (Sample.int8_blob 1 1 2 5) Mat.nil
        Sample.opt =
      some (0, { dims := 3, w := 1, h := 1, c := 2, elemsize := 4, allocator := none
                 data := Buf.floats [[5], [10]] }) ∧
    ¬ ((5 : ℚ) ≤ 1) := by
  refine ⟨rfl, ?_, ?_, rfl, by norm_num⟩
  · simp [Sample.int8_clamped, Sample.vec, Mat.float_at, Mat.read_float, at?]
  · simp [Sample.int8_clamped, Sample.vec, Mat.float_at, Mat.read_float, at?]

end ConvolutionDepthWise

theorem map_leading_length {α : Type} (f : α → α) (k : Nat) (l : List α) :
    (map_leading f k l).length = l.length := by
  simp [map_leading]
  omega

theorem map_leading_getElem? {α : Type} (f : α → α) (k : Nat) (l : List α) (i : Nat) :
    (map_leading f k l)[i]? = if i < k then (l[i]?).map f else l[i]? := by
  unfold map_leading
  rw [List.getElem?_append]
  simp only [List.length_map, List.length_take, List.getElem?_map, List.getElem?_take,
    List.getElem?_drop]
  by_cases h1 : i < k
  · by_cases h2 : i < l.length
    · simp [h1, h2]
    · have : l[i]? = none := List.getElem?_eq_none (by omega)
      simp [h1, h2, this]
      omega
  · simp only [h1, if_false]
    have h3 : ¬ i < min k l.length := by omega
    simp only [h3, if_false]
    by_cases h2 : k ≤ l.length
    · congr 1; omega
    · rw [List.getElem?_eq_none (by omega), List.getElem?_eq_none (by omega)]

theorem map_leading_zero {α : Type} (f : α → α) (l : List α) : map_leading f 0 l = l := by
  simp [map_leading]

theorem relu_leading_length (k : Nat) (mem : List Int) :
    (relu_leading k mem).length = mem.length :=
  map_leading_length _ k mem

theorem relu_leading_getElem? (k : Nat) (mem : List Int) (i : Nat) :
    (relu_leading k mem)[i]? = if i < k then (mem[i]?).map (fun x => max x 0) else mem[i]? :=
  map_leading_getElem? _ k mem i

theorem relu_leading_zero (mem : List Int) : relu_leading 0 mem = mem :=
  map_leading_zero _ mem

theorem scalar_step_leading (k : Nat) (mem : List Int) (hk : k < mem.length) :
    ReLU_arm.scalar_step (relu_leading k mem, k) = some (relu_leading (k + 1) mem, k + 1) := by
  unfold ReLU_arm.scalar_step
  have hget : (relu_leading k mem)[k]? = some mem[k] := by
    rw [relu_leading_getElem?]; simp [hk]
  simp only [hget, Option.map_some', Option.some.injEq, Prod.mk.injEq, and_true]
  apply List.ext_getElem?
  intro i
  rw [relu_leading_getElem?]
  split_ifs with h1 h2 h2
  · rw [List.getElem?_set, relu_leading_getElem?]
    by_cases h3 : k = i
    · subst h3
      simp [relu_leading_length, hk]
      omega
    · have : i < k := by omega
      simp [h3, this]
  · rw [List.getElem?_set, relu_leading_getElem?]
    by_cases h3 : k = i
    · omega
    · have : ¬ i < k := by omega
      simp [h3, this]
  · rw [relu_leading_getElem?]
    by_cases h3 : k = i
    · subst h3
      simp [hk]
      omega
    · have : i < k := by omega
      simp [this]
  · rw [relu_leading_getElem?]
    have : ¬ i < k := by omega
    simp [this]

theorem vld1q_s8_leading (k : Nat) (mem : List Int) (hk : k + 16 ≤ mem.length) :
    vld1q_s8 (relu_leading k mem) k = some ((mem.drop k).take 16) := by
  unfold vld1q_s8
  rw [collect_eq_some_iff]
  refine ⟨by simp; omega, fun i hi => ?_⟩
  rw [relu_leading_getElem?, List.getElem?_take, List.getElem?_drop]
  simp [hi]

theorem vmaxq_s8_zero (v : List Int) (hv : v.length = 16) :
    vmaxq_s8 v (vdupq_n_s8 0) = v.map (fun x => max x 0) := by
  unfold vmaxq_s8 vdupq_n_s8
  apply List.ext_getElem?
  intro i
  rw [List.getElem?_zipWith, List.getElem?_map, List.getElem?_replicate]
  by_cases hi : i < 16
  · have : i < v.length := by omega
    simp [hi, List.getElem?_eq_getElem this]
  · rw [List.getElem?_eq_none (by omega)]
    simp

theorem vector_block_leading (k : Nat) (mem : List Int) (hk : k + 16 ≤ mem.length) :
    ReLU_arm.vector_block (relu_leading k mem, k) = some (relu_leading (k + 16) mem, k + 16) := by
  unfold ReLU_arm.vector_block
  simp only [vld1q_s8_leading k mem hk, Option.some_bind]
  rw [vmaxq_s8_zero _ (by simp; omega)]
  unfold vst1q_s8
  rw [if_pos (by rw [relu_leading_length]; exact hk)]
  simp only [Option.map_some', Option.some.injEq, Prod.mk.injEq, and_true]
  apply List.ext_getElem?
  intro i
  rw [relu_leading_getElem?, List.getElem?_append, List.getElem?_append]
  simp only [List.length_append, List.length_take, List.length_map, List.length_drop,
    relu_leading_length, List.getElem?_take, List.getElem?_map, List.getElem?_drop,
    relu_leading_getElem?]
  by_cases h1 : i < k
  · have h2 : i < min k mem.length + min 16 (mem.length - k) := by omega
    have h3 : i < min k mem.length := by omega
    have h4 : i < k + 16 := by omega
    simp [h1, h2, h3, h4]
  · by_cases h4 : i < k + 16
    · have h2 : i < min k mem.length + min 16 (mem.length - k) := by omega
      have h3 : ¬ i < min k mem.length := by omega
      have h5 : i - min k mem.length < 16 := by omega
      have h6 : k + (i - min k mem.length) = i := by omega
      simp [h1, h2, h3, h4, h5, h6]
    · have h2 : ¬ i < min k mem.length + min 16 (mem.length - k) := by omega
      have h6 : k + 16 + (i - (min k mem.length + min 16 (mem.length - k))) = i := by omega
      have h7 : ¬ k + 16 + (i - (min k mem.length + min 16 (mem.length - k))) < k := by omega
      simp [h1, h2, h4, h6]

theorem scalar_tail_leading (r k : Nat) (mem : List Int) (hk : k + r ≤ mem.length) :
    accumulate (fun _ => ReLU_arm.scalar_step) r (relu_leading k mem, k) =
      some (relu_leading (k + r) mem, k + r) := by
  induction r with
  | zero => rfl
  | succ r ih =>
    rw [accumulate_succ, ih (by omega)]
    exact scalar_step_leading (k + r) mem (by omega)

theorem vector_loop_leading (n k : Nat) (mem : List Int) (hk : k + 16 * n ≤ mem.length) :
    accumulate (fun _ => ReLU_arm.vector_block) n (relu_leading k mem, k) =
      some (relu_leading (k + 16 * n) mem, k + 16 * n) := by
  induction n with
  | zero => rfl
  | succ n ih =>
    rw [accumulate_succ, ih (by omega)]
    have := vector_block_leading (k + 16 * n) mem (by omega)
    simpa [Nat.mul_succ, Nat.add_assoc] using this

theorem accumulate_const_shift {σ : Type} (body : σ → Option σ) (n : Nat) (s : σ) :
    (body s).bind (accumulate (fun _ => body) n) = accumulate (fun _ => body) (n + 1) s := by
  induction n with
  | zero => simp [accumulate]
  | succ n ih =>
    rw [accumulate_succ (fun _ => body) (n + 1), ← ih]
    cases body s with
    | none => rfl
    | some t => simp [accumulate_succ]

theorem asm_loop_eq (body : List Int × Nat → Option (List Int × Nat)) (n : Nat)
    (s : List Int × Nat) :
    ReLU_arm.asm_loop body n s = accumulate (fun _ => body) (n + 1) s := by
  induction n generalizing s with
  | zero => simp [ReLU_arm.asm_loop, accumulate]
  | succ n ih =>
    rw [← accumulate_const_shift]
    unfold ReLU_arm.asm_loop
    cases body s with
    | none => rfl
    | some t => simp [ih]

theorem c_shr_four (size : Int) : c_shr size 4 = size / 16 := by
  unfold c_shr
  rw [Int.shiftRight_eq_div_pow]
  norm_num

theorem block_split (size : Int) (hsize : 0 ≤ size) :
    16 * c_shr size 4 + (size - c_shl (c_shr size 4) 4) = size ∧
      0 ≤ size - c_shl (c_shr size 4) 4 ∧ size - c_shl (c_shr size 4) 4 < 16 ∧
      0 ≤ c_shr size 4 := by
  rw [c_shr_four]
  unfold c_shl
  norm_num
  omega

theorem channel_int8_eq (build : Build) (size : Int) (hsize : 0 ≤ size) (mem : List Int)
    (hmem : size.toNat ≤ mem.length) :
    ReLU_arm.channel_int8 build size mem = some (relu_leading size.toNat mem) := by
  obtain ⟨h1, h2, h3, h4⟩ := block_split size hsize
  have hn : 16 * (c_shr size 4).toNat + (size - c_shl (c_shr size 4) 4).toNat = size.toNat := by
    omega
  have hv : accumulate (fun _ => ReLU_arm.vector_block) (c_shr size 4).toNat (mem, 0) =
      some (relu_leading (16 * (c_shr size 4).toNat) mem, 16 * (c_shr size 4).toNat) := by
    have := vector_loop_leading (c_shr size 4).toNat 0 mem (by omega)
    simpa [relu_leading_zero] using this
  have ht : ReLU_arm.scalar_tail (size - c_shl (c_shr size 4) 4)
      (relu_leading (16 * (c_shr size 4).toNat) mem, 16 * (c_shr size 4).toNat) =
      some (relu_leading size.toNat mem, size.toNat) := by
    unfold ReLU_arm.scalar_tail
    rw [scalar_tail_leading _ _ _ (by omega), hn]
  cases build with
  | portable =>
    unfold ReLU_arm.channel_int8 ReLU_arm.scalar_tail
    have := scalar_tail_leading size.toNat 0 mem (by omega)
    simp only [relu_leading_zero, Nat.zero_add] at this
    simp [this]
  | aarch64 =>
    unfold ReLU_arm.channel_int8 ReLU_arm.vector_loop
    simp only [hv, Option.some_bind, ht, Option.map_some']
  | armv7 =>
    unfold ReLU_arm.channel_int8
    by_cases hnn : c_shr size 4 > 0
    · have hs : (c_shr size 4).toNat - 1 + 1 = (c_shr size 4).toNat := by omega
      simp only [hnn, if_true, asm_loop_eq, hs, hv, Option.some_bind, ht, Option.map_some']
    · have h0 : (c_shr size 4).toNat = 0 := by omega
      rw [h0] at ht
      simp only [Nat.mul_zero, relu_leading_zero] at ht
      simp only [hnn, if_false, Option.some_bind, ht, Option.map_some']

theorem relu_channels_step (build : Build) (size : Int) (hsize : 0 ≤ size)
    (planes : List (List Int)) (c : Nat)
    (hplanes : ∀ q : Nat, q < c → ∃ mem, planes[q]? = some mem ∧ size.toNat ≤ mem.length) :
    accumulate (fun q pl =>
        (ReLU_arm.channel_int8 build size (pl[q]?.getD [])).map fun mem => pl.set q mem)
      c planes = some (relu_channels c size.toNat planes) := by
  induction c with
  | zero => simp [accumulate, relu_channels, map_leading_zero]
  | succ c ih =>
    rw [accumulate_succ, ih (fun q hq => hplanes q (by omega))]
    obtain ⟨mem, hmem, hlen⟩ := hplanes c (by omega)
    have hget : (relu_channels c size.toNat planes)[c]? = some mem := by
      unfold relu_channels
      rw [map_leading_getElem?]
      simp [hmem]
    simp only [Option.some_bind, hget, Option.getD_some, channel_int8_eq build size hsize mem hlen,
      Option.map_some', Option.some.injEq]
    have hc : c < planes.length := by
      by_contra h
      rw [List.getElem?_eq_none (by omega)] at hmem
      exact absurd hmem (by simp)
    apply List.ext_getElem?
    intro i
    unfold relu_channels
    rw [List.getElem?_set, map_leading_getElem?, map_leading_getElem?, map_leading_length]
    by_cases h3 : c = i
    · subst h3
      simp [hc, hmem]
    · by_cases h4 : i < c
      · have : i < c + 1 := by omega
        simp [h3, h4, this]
      · have : ¬ i < c + 1 := by omega
        simp [h3, h4, this]

theorem relu_channels_read (c n : Nat) (planes : List (List Int)) (q i : Int) :
    ((at? (relu_channels c n planes) q).bind fun p => at? p i) =
      ((at? planes q).bind fun p => at? p i).map fun x =>
        if 0 ≤ q ∧ q < c ∧ 0 ≤ i ∧ i < n then max x 0 else x := by
  unfold at?
  by_cases hq : q < 0
  · simp [hq]
  · simp only [hq, if_false]
    have hq0 : 0 ≤ q := by omega
    unfold relu_channels
    rw [map_leading_getElem?]
    cases hp : planes[q.toNat]? with
    | none => simp
    | some p =>
      by_cases hi : i < 0
      · simp [hi]
      · have hi0 : 0 ≤ i := by omega
        by_cases hqc : q.toNat < c
        · have hqc1 : q < c := by omega
          simp only [hqc, if_true, Option.map_some', Option.some_bind, hi, if_false,
            relu_leading_getElem?]
          by_cases hin : i.toNat < n
          · have hin1 : i < n := by omega
            simp [hin, hq0, hqc1, hi0, hin1]
          · have hin1 : ¬ i < n := by omega
            simp [hin, hin1]
        · have hqc1 : ¬ q < c := by omega
          simp [hqc, hqc1, hi]

namespace ReLU_arm

/-- C21: for slope 0 and a channel size `size = w * h >= 0`, the block count
`nn = size >> 4` and the tail length `remain = size - (nn << 4)` satisfy
`16 * nn + remain = size` and `0 <= remain < 16`; on an int8 blob whose channels hold at
least `size` cells, `forward_inplace_int8` of the NEON builds (the 16-lane blocks, by
intrinsics or by the assembly loop, followed by the scalar tail) returns what the all-scalar
loop of the portable build returns: status `0` and the blob in which every element `x` of the
`size` cells of every channel has become `max(x, 0)`, in place and in order, every other cell
being as before. -/
theorem forward_inplace_int8_blocks (self : ReLU_arm) (build : Build) (bottom_top_blob : Mat)
    (opt : Opt) (planes : List (List Int))
    (hslope : self.slope = 0)
    (hsize : 0 ≤ bottom_top_blob.w * bottom_top_blob.h)
    (hdata : bottom_top_blob.data = Buf.ints planes)
    (hplanes : ∀ q : Nat, q < bottom_top_blob.c.toNat →
      ∃ mem, planes[q]? = some mem ∧
        (bottom_top_blob.w * bottom_top_blob.h).toNat ≤ mem.length) :
    (16 * c_shr (bottom_top_blob.w * bottom_top_blob.h) 4 +
        (bottom_top_blob.w * bottom_top_blob.h -
          c_shl (c_shr (bottom_top_blob.w * bottom_top_blob.h) 4) 4) =
        bottom_top_blob.w * bottom_top_blob.h ∧
      0 ≤ bottom_top_blob.w * bottom_top_blob.h -
        c_shl (c_shr (bottom_top_blob.w * bottom_top_blob.h) 4) 4 ∧
      bottom_top_blob.w * bottom_top_blob.h -
        c_shl (c_shr (bottom_top_blob.w * bottom_top_blob.h) 4) 4 < 16) ∧
    self.forward_inplace_int8 build bottom_top_blob opt =
      self.forward_inplace_int8 Build.portable bottom_top_blob opt ∧
    ∃ top, self.forward_inplace_int8 build bottom_top_blob opt = some (0, top) ∧
      top = { bottom_top_blob with
        data := Buf.ints (relu_channels bottom_top_blob.c.toNat
          (bottom_top_blob.w * bottom_top_blob.h).toNat planes) } ∧
      ∀ q i : Int, top.read_int q i = (bottom_top_blob.read_int q i).map fun x =>
        if 0 ≤ q ∧ q < bottom_top_blob.c ∧ 0 ≤ i ∧ i < bottom_top_blob.w * bottom_top_blob.h
        then max x 0 else x := by
  have hall : ∀ b : Build, self.forward_inplace_int8 b bottom_top_blob opt =
      some (0, { bottom_top_blob with
        data := Buf.ints (relu_channels bottom_top_blob.c.toNat
          (bottom_top_blob.w * bottom_top_blob.h).toNat planes) }) := by
    intro b
    unfold forward_inplace_int8
    simp only [hslope, if_true, Mat.int_planes, hdata,
      relu_channels_step b _ hsize planes _ hplanes, Option.map_some']
  obtain ⟨h1, h2, h3, _⟩ := block_split _ hsize
  refine ⟨⟨h1, h2, h3⟩, by rw [hall, hall], _, hall build, rfl, fun q i => ?_⟩
  unfold Mat.read_int
  simp only [hdata]
  rw [relu_channels_read]
  congr 1
  funext x
  by_cases hq : 0 ≤ q
  · by_cases hi : 0 ≤ i
    · have e1 : (q < (bottom_top_blob.c.toNat : Int)) ↔ q < bottom_top_blob.c := by omega
      have e2 : (i < ((bottom_top_blob.w * bottom_top_blob.h).toNat : Int)) ↔
          i < bottom_top_blob.w * bottom_top_blob.h := by omega
      simp only [e1, e2]
    · simp [hi]
  · simp [hq]

/-- C29: `forward_inplace` on a blob of element size 1 with a slope other than zero returns
`0` and hands the blob back as it was, whatever its elements (negative ones included),
in every build and whatever the float paths do. -/
theorem forward_inplace_int8_leaky (self : ReLU_arm) (build : Build)
    (float_paths : Mat → Opt → Option (Int × Mat)) (bottom_top_blob : Mat) (opt : Opt)
    (hslope : self.slope ≠ 0) (helem : bottom_top_blob.elemsize = 1) :
    self.forward_inplace build float_paths bottom_top_blob opt = some (0, bottom_top_blob) := by
  unfold forward_inplace forward_inplace_int8
  simp [hslope, helem]

end ReLU_arm

theorem set_loop_leading {α : Type} (b : α) (k : Nat) (l : List α) (hk : k ≤ l.length) :
    accumulate (fun i tops => some (tops.set i b)) k l = some (map_leading (fun _ => b) k l) := by
  induction k with
  | zero => simp [accumulate, map_leading_zero]
  | succ k ih =>
    rw [accumulate_succ, ih (by omega)]
    simp only [Option.some_bind, Option.some.injEq]
    apply List.ext_getElem?
    intro i
    rw [List.getElem?_set, map_leading_getElem?, map_leading_getElem?, map_leading_length]
    by_cases h3 : k = i
    · subst h3
      have : k < l.length := by omega
      simp [this, List.getElem?_eq_getElem this]
    · by_cases h4 : i < k
      · have : i < k + 1 := by omega
        simp [h3, h4, this]
      · have : ¬ i < k + 1 := by omega
        simp [h3, h4, this]

theorem map_leading_const_all {α : Type} (b : α) (l : List α) :
    map_leading (fun _ => b) l.length l = List.replicate l.length b := by
  apply List.ext_getElem?
  intro i
  rw [map_leading_getElem?, List.getElem?_replicate]
  by_cases h : i < l.length
  · simp [h, List.getElem?_eq_getElem h]
  · rw [List.getElem?_eq_none (by omega)]
    simp [h]

namespace ReLU_arm

/-- Instance of `forward_inplace_int8_blocks`: 18 cells holding -9, ..., 8 (one block and a
tail of two); the intrinsics build and the portable build agree, cell 0 (-9) becomes 0, cell
16 (7, in the tail) stays 7. -/
theorem forward_inplace_int8_blocks_witness :
    Sample.relu.slope = 0 ∧ c_shr 18 4 = 1 ∧ 18 - c_shl (c_shr 18 4) 4 = 2 ∧
    Sample.relu.forward_inplace_int8 Build.aarch64 Sample.int8_cells Sample.opt =
      Sample.relu.forward_inplace_int8 Build.portable Sample.int8_cells Sample.opt ∧
    ∃ top, Sample.relu.forward_inplace_int8 Build.aarch64 Sample.int8_cells Sample.opt =
        some (0, top) ∧
      Sample.int8_cells.read_int 0 0 = some (-9) ∧ top.read_int 0 0 = some 0 ∧
      top.read_int 0 16 = some 7 := by
  obtain ⟨_, h2, top, h3, _, h5⟩ :=
    forward_inplace_int8_blocks Sample.relu Build.aarch64 Sample.int8_cells Sample.opt
      [(List.range 18).map fun n => (n : Int) - 9] rfl (by decide) rfl
      (fun q hq => by
        have hq0 : q = 0 := by
          have : q < 1 := hq
          omega
        subst hq0
        exact ⟨_, rfl, by decide⟩)
  refine ⟨rfl, by decide, by decide, h2, top, h3, by decide, ?_, ?_⟩
  · rw [h5]; decide
  · rw [h5]; decide

/-- Instance of `forward_inplace_int8_leaky`: slope 1/10 on the cells -9, ..., 8; the blob
comes back as it was and cell 0 still holds -9. -/
theorem forward_inplace_int8_leaky_witness :
    Sample.leaky_relu.slope ≠ 0 ∧ Sample.int8_cells.elemsize = 1 ∧
    Sample.int8_cells.read_int 0 0 = some (-9) ∧
    Sample.leaky_relu.forward_inplace Build.aarch64 (fun _ _ => none) Sample.int8_cells
      Sample.opt = some (0, Sample.int8_cells) :=
  ⟨by norm_num [Sample.leaky_relu], rfl, by decide,
    forward_inplace_int8_leaky Sample.leaky_relu Build.aarch64 (fun _ _ => none)
      Sample.int8_cells Sample.opt (by norm_num [Sample.leaky_relu]) rfl⟩

end ReLU_arm

namespace Split

/-- C30: for every non-empty list of input blobs and every list of `n` output slots,
`Split::forward` returns `0` and the output slots afterwards are `n` in number and each
equal to the first input blob (the inputs are passed by reference to `const`: they are not
written). -/
theorem forward_copies_first (bottom_blobs top_blobs : List Mat) (opt : Opt)
    (h : bottom_blobs ≠ []) :
    ∃ first tops, bottom_blobs[0]? = some first ∧
      forward bottom_blobs top_blobs opt = some (0, tops) ∧
      tops.length = top_blobs.length ∧ (∀ i : Nat, i < top_blobs.length → tops[i]? = some first) ∧
      tops = List.replicate top_blobs.length first := by
  cases bottom_blobs with
  | nil => exact absurd rfl h
  | cons first rest =>
    refine ⟨first, List.replicate top_blobs.length first, List.getElem?_cons_zero, ?_, by simp,
      fun i hi => by simp [List.getElem?_replicate, hi], rfl⟩
    unfold forward
    simp only [List.getElem?_cons_zero, Option.some_bind, set_loop_leading first _ _ (le_refl _),
      Option.map_some', map_leading_const_all]

/-- Instance of `forward_copies_first`: two inputs and three output slots. -/
theorem forward_copies_first_witness :
    [Sample.int8_cells, Mat.nil] ≠ [] ∧
    forward [Sample.int8_cells, Mat.nil] [Mat.nil, Mat.nil, Sample.int8_cells] Sample.opt =
      some (0, [Sample.int8_cells, Sample.int8_cells, Sample.int8_cells]) := by
  obtain ⟨first, tops, h1, h2, _, _, h5⟩ :=
    forward_copies_first [Sample.int8_cells, Mat.nil] [Mat.nil, Mat.nil, Sample.int8_cells]
      Sample.opt (by simp)
  simp only [List.getElem?_cons_zero, Option.some.injEq] at h1
  subst h1
  subst h5
  exact ⟨by simp, h2⟩

end Split

namespace ConvolutionDepthWise

/-! ## Kernel taps and the bounds of the bordered input -/

/-- Entry `ki * kernel_w + kj` of the table of offsets, for integer tap coordinates. -/
theorem space_ofs_at (self : ConvolutionDepthWise) (w : Int) (ofs : List Int)
    (hofs : self.space_ofs w = some ofs) (ki kj : Int)
    (hki0 : 0 ≤ ki) (hki : ki < self.kernel_h) (hkj0 : 0 ≤ kj) (hkj : kj < self.kernel_w) :
    at? ofs (ki * self.kernel_w + kj) =
      some (ki * w * self.dilation_h + kj * self.dilation_w) := by
  obtain ⟨ofs1, hofs1, hget⟩ := self.space_ofs_get w (by omega) (by omega)
  rw [hofs] at hofs1
  simp only [Option.some.injEq] at hofs1
  subst hofs1
  obtain ⟨a, rfl⟩ := Int.eq_ofNat_of_zero_le hki0
  obtain ⟨b, rfl⟩ := Int.eq_ofNat_of_zero_le hkj0
  obtain ⟨kw, hkw⟩ := Int.eq_ofNat_of_zero_le (show 0 ≤ self.kernel_w by omega)
  have hkwn : self.kernel_w.toNat = kw := by rw [hkw]; exact Int.toNat_natCast _
  have hbk : b < kw := by omega
  have hidx : ((a : Int) * self.kernel_w + (b : Int)) = ((a * kw + b : Nat) : Int) := by
    rw [hkw]; push_cast; ring
  have hlt : a * kw + b < self.kernel_h.toNat * self.kernel_w.toNat := by
    rw [hkwn]
    have ha : a < self.kernel_h.toNat := by omega
    calc a * kw + b < a * kw + kw := by omega
      _ = (a + 1) * kw := by ring
      _ ≤ self.kernel_h.toNat * kw := Nat.mul_le_mul_right kw ha
  rw [hidx, at?_natCast, hget _ hlt, hkwn]
  have hdiv : (a * kw + b) / kw = a := by
    rw [Nat.add_comm, Nat.add_mul_div_right _ _ (by omega), Nat.div_eq_of_lt hbk]; simp
  have hmod : (a * kw + b) % kw = b := by
    rw [Nat.add_comm, Nat.add_mul_mod_self_right, Nat.mod_eq_of_lt hbk]
  rw [hdiv, hmod]
  congr 1
  ring

/-- On one axis of extent `n`: output position `i` and tap `ki` of a kernel that fits give a
coordinate inside the axis. -/
theorem tap_coordinate (n s d k i ki : Int) (hs : 1 ≤ s) (hd : 1 ≤ d)
    (hn : kernel_extent d k ≤ n) (hi0 : 0 ≤ i) (hi : i < (n - kernel_extent d k).tdiv s + 1)
    (hki0 : 0 ≤ ki) (hki : ki < k) :
    0 ≤ i * s + ki * d ∧ i * s + ki * d < n := by
  rw [Int.tdiv_eq_ediv (by omega) (by omega)] at hi
  have hq : (n - kernel_extent d k) / s * s ≤ n - kernel_extent d k :=
    Int.ediv_mul_le _ (by omega)
  have hi1 : i * s ≤ (n - kernel_extent d k) / s * s :=
    mul_le_mul_of_nonneg_right (by omega) (by omega)
  have hki1 : ki * d ≤ (k - 1) * d := mul_le_mul_of_nonneg_right (by omega) (by omega)
  have hke : kernel_extent d k = (k - 1) * d + 1 := by unfold kernel_extent; ring
  have h0 : 0 ≤ i * s := mul_nonneg hi0 (by omega)
  have h1 : 0 ≤ ki * d := mul_nonneg hki0 (by omega)
  constructor <;> omega

/-- A row and a column inside a `w` by `h` plane give a flat index inside the plane. -/
theorem flat_index_bound (w h row col : Int) (hrow0 : 0 ≤ row) (hrow : row < h)
    (hcol0 : 0 ≤ col) (hcol : col < w) : 0 ≤ row * w + col ∧ row * w + col < w * h := by
  have hw : 0 ≤ w := by omega
  have h1 : row * w ≤ (h - 1) * w := mul_le_mul_of_nonneg_right (by omega) hw
  have h0 : 0 ≤ row * w := mul_nonneg hrow0 hw
  have h2 : (h - 1) * w = w * h - w := by ring
  constructor <;> omega

theorem at?_isSome {α : Type} (l : List α) (i : Int) (h0 : 0 ≤ i) (h1 : i < l.length) :
    (at? l i).isSome = true := by
  unfold at?
  rw [if_neg (by omega)]
  have : i.toNat < l.length := by omega
  simp [List.getElem?_eq_getElem this]

/-- C22: with kernel sizes, strides and dilations at least 1 and a bordered input of width
`w >= kernel_extent_w` and height `h >= kernel_extent_h`, `forward` computes the output
extents and the table of offsets, and for every output position `i < outh`, `j < outw` and
every tap `(ki, kj)` the row `i*stride_h + ki*dilation_h` is inside `[0, h)`, the column
`j*stride_w + kj*dilation_w` is inside `[0, w)`, and the flat index
`i*stride_h*w + j*stride_w + space_ofs[ki*kernel_w + kj]`, which is the index the kernels
read at, is inside `[0, w*h)`: the read of a channel of `w*h` cells at it is not a fault. -/
theorem taps_inside_input (self : ConvolutionDepthWise) (w h : Int)
    (hkw : 1 ≤ self.kernel_w) (hkh : 1 ≤ self.kernel_h)
    (hsw : 1 ≤ self.stride_w) (hsh : 1 ≤ self.stride_h)
    (hdw : 1 ≤ self.dilation_w) (hdh : 1 ≤ self.dilation_h)
    (hw : kernel_extent self.dilation_w self.kernel_w ≤ w)
    (hh : kernel_extent self.dilation_h self.kernel_h ≤ h) :
    ∃ qw qh ofs,
      c_div (w - kernel_extent self.dilation_w self.kernel_w) self.stride_w = some qw ∧
      c_div (h - kernel_extent self.dilation_h self.kernel_h) self.stride_h = some qh ∧
      self.space_ofs w = some ofs ∧
      ∀ i j ki kj : Int, 0 ≤ i → i < qh + 1 → 0 ≤ j → j < qw + 1 →
        0 ≤ ki → ki < self.kernel_h → 0 ≤ kj → kj < self.kernel_w →
        (0 ≤ i * self.stride_h + ki * self.dilation_h ∧
          i * self.stride_h + ki * self.dilation_h < h) ∧
        (0 ≤ j * self.stride_w + kj * self.dilation_w ∧
          j * self.stride_w + kj * self.dilation_w < w) ∧
        ∃ o, at? ofs (ki * self.kernel_w + kj) = some o ∧
          0 ≤ i * self.stride_h * w + j * self.stride_w + o ∧
          i * self.stride_h * w + j * self.stride_w + o < w * h ∧
          ∀ (bordered : Mat) (g : Nat), bordered.w = w →
            (self.float_kernel bordered ofs).w * (i * (self.float_kernel bordered ofs).stride_h) +
                j * (self.float_kernel bordered ofs).stride_w + o =
              i * self.stride_h * w + j * self.stride_w + o ∧
            (self.int8_kernel bordered ofs).w * (i * (self.int8_kernel bordered ofs).stride_h) +
                j * (self.int8_kernel bordered ofs).stride_w + o =
              i * self.stride_h * w + j * self.stride_w + o ∧
            (∀ cells, bordered.float_planes[g]? = some cells → (cells.length : Int) = w * h →
              ((self.float_kernel bordered ofs).input g
                (i * self.stride_h * w + j * self.stride_w + o)).isSome = true) ∧
            (∀ cells, bordered.int_planes[g]? = some cells → (cells.length : Int) = w * h →
              ((self.int8_kernel bordered ofs).input g
                (i * self.stride_h * w + j * self.stride_w + o)).isSome = true) := by
  have hmaxk : ¬ self.kernel_w * self.kernel_h < 0 :=
    not_lt.mpr (mul_nonneg (by omega) (by omega))
  have hsome : ∃ ofs, self.space_ofs w = some ofs := by
    unfold space_ofs
    simp only [hmaxk, if_false]
    exact ⟨_, rfl⟩
  obtain ⟨ofs, hofs⟩ := hsome
  refine ⟨_, _, ofs, c_div_of_pos (by omega), c_div_of_pos (by omega), hofs, ?_⟩
  intro i j ki kj hi0 hi hj0 hj hki0 hki hkj0 hkj
  have hrow := tap_coordinate h self.stride_h self.dilation_h self.kernel_h i ki hsh hdh hh
    hi0 hi hki0 hki
  have hcol := tap_coordinate w self.stride_w self.dilation_w self.kernel_w j kj hsw hdw hw
    hj0 hj hkj0 hkj
  have hflat := flat_index_bound w h _ _ hrow.1 hrow.2 hcol.1 hcol.2
  have hidx : i * self.stride_h * w + j * self.stride_w +
      (ki * w * self.dilation_h + kj * self.dilation_w) =
      (i * self.stride_h + ki * self.dilation_h) * w +
        (j * self.stride_w + kj * self.dilation_w) := by ring
  refine ⟨hrow, hcol, ki * w * self.dilation_h + kj * self.dilation_w,
    self.space_ofs_at w ofs hofs ki kj hki0 hki hkj0 hkj,
    by rw [hidx]; exact hflat.1, by rw [hidx]; exact hflat.2, ?_⟩
  intro bordered g hbw
  rw [hidx]
  refine ⟨by simp only [float_kernel, hbw]; ring, by simp only [int8_kernel, hbw]; ring,
    fun cells hc hlen => ?_, fun cells hc hlen => ?_⟩
  · simp only [float_kernel, Mat.read_float]
    unfold Mat.float_planes at hc
    cases hd : bordered.data with
    | floats planes =>
      rw [hd] at hc
      simp only at hc
      simp only [at?_natCast, hc, Option.some_bind]
      exact at?_isSome _ _ hflat.1 (by rw [hlen]; exact hflat.2)
    | null => rw [hd] at hc; simp at hc
    | raw => rw [hd] at hc; simp at hc
    | ints planes => rw [hd] at hc; simp at hc
  · simp only [int8_kernel, Mat.read_int]
    unfold Mat.int_planes at hc
    cases hd : bordered.data with
    | ints planes =>
      rw [hd] at hc
      simp only at hc
      simp only [at?_natCast, hc, Option.some_bind]
      exact at?_isSome _ _ hflat.1 (by rw [hlen]; exact hflat.2)
    | null => rw [hd] at hc; simp at hc
    | raw => rw [hd] at hc; simp at hc
    | floats planes => rw [hd] at hc; simp at hc

/-- Instance of `taps_inside_input`: the 3x3 depth-wise layer on a bordered input of width
5 and height 4; the last output position `(1, 2)` and the last tap `(2, 2)` give an index
inside `[0, 20)`. -/
theorem taps_inside_input_witness :
    (1 : Int) ≤ (Sample.depthwise 2 2 1).kernel_w ∧
    kernel_extent (Sample.depthwise 2 2 1).dilation_w (Sample.depthwise 2 2 1).kernel_w ≤ 5 ∧
    kernel_extent (Sample.depthwise 2 2 1).dilation_h (Sample.depthwise 2 2 1).kernel_h ≤ 4 ∧
    ∃ ofs o, (Sample.depthwise 2 2 1).space_ofs 5 = some ofs ∧
      at? ofs (2 * (Sample.depthwise 2 2 1).kernel_w + 2) = some o ∧
      0 ≤ 1 * (Sample.depthwise 2 2 1).stride_h * 5 + 2 * (Sample.depthwise 2 2 1).stride_w + o ∧
      1 * (Sample.depthwise 2 2 1).stride_h * 5 + 2 * (Sample.depthwise 2 2 1).stride_w + o <
        5 * 4 := by
  obtain ⟨qw, qh, ofs, hqw, hqh, hofs, hall⟩ :=
    taps_inside_input (Sample.depthwise 2 2 1) 5 4 (by decide) (by decide) (by decide)
      (by decide) (by decide) (by decide) (by decide) (by decide)
  have hqw2 : qw = 2 := by
    have h2 : c_div (5 - kernel_extent (Sample.depthwise 2 2 1).dilation_w
        (Sample.depthwise 2 2 1).kernel_w) (Sample.depthwise 2 2 1).stride_w = some 2 := by
      decide
    rw [h2] at hqw
    exact (Option.some.inj hqw).symm
  have hqh1 : qh = 1 := by
    have h1 : c_div (4 - kernel_extent (Sample.depthwise 2 2 1).dilation_h
        (Sample.depthwise 2 2 1).kernel_h) (Sample.depthwise 2 2 1).stride_h = some 1 := by
      decide
    rw [h1] at hqh
    exact (Option.some.inj hqh).symm
  subst hqw2
  subst hqh1
  obtain ⟨_, _, o, ho, h0, h1, _⟩ := hall 1 2 2 2 (by decide) (by decide) (by decide)
    (by decide) (by decide) (by decide) (by decide) (by decide)
  exact ⟨by decide, by decide, by decide, ofs, o, hofs, ho, h0, h1⟩

end ConvolutionDepthWise

namespace ConvolutionDepthWise

/-! ## The automatic padding modes and the size of the output -/

/-- The total automatic pad of an axis, with the floor quotient. -/
theorem auto_pad_some (ke n s : Int) (hn : 1 ≤ n) (hs : 1 ≤ s) :
    auto_pad ke n s = some (ke + (n - 1) / s * s - n) := by
  unfold auto_pad
  rw [c_div_of_pos (by omega)]
  simp only [Option.map_some', Option.some.injEq]
  rw [Int.tdiv_eq_ediv (by omega) (by omega)]

/-- The two pads of an axis sum to the total pad, in both modes and for every total. -/
theorem split_sum (p : Int) :
    (split_upper p).1 + (split_upper p).2 = p ∧ (split_lower p).1 + (split_lower p).2 = p := by
  unfold split_upper split_lower
  constructor <;> simp

/-- The quotient computed for the output extent of an axis of `n` cells in an automatic
mode, `m` being the extent after the border step: `n` plus the total pad when a border is
added, `n` itself when the total pad is not positive and no border is added. -/
theorem auto_extent (ke n s m : Int) (hke : 1 ≤ ke) (hn : 1 ≤ n) (hs : 1 ≤ s)
    (hm : m = n + (ke + (n - 1) / s * s - n) ∨ (m = n ∧ ke + (n - 1) / s * s - n ≤ 0)) :
    c_div (m - ke) s = some ((n - 1) / s) := by
  rw [c_div_of_pos (by omega)]
  have hq0 : 0 ≤ (n - 1) / s := Int.ediv_nonneg (by omega) (by omega)
  have hqs : 0 ≤ (n - 1) / s * s := mul_nonneg hq0 (by omega)
  have hmod := Int.emod_add_ediv (n - 1) s
  have hcomm : s * ((n - 1) / s) = (n - 1) / s * s := by ring
  have hr0 := Int.emod_nonneg (n - 1) (show s ≠ 0 by omega)
  have hr1 := Int.emod_lt_of_pos (n - 1) (show 0 < s by omega)
  congr 1
  rcases hm with hm | ⟨hm, hle⟩
  · have : m - ke = (n - 1) / s * s := by omega
    rw [this, Int.tdiv_eq_ediv hqs (by omega)]
    exact Int.mul_ediv_cancel _ (by omega)
  · rw [Int.tdiv_eq_ediv (by omega) (by omega)]
    apply le_antisymm
    · have : (m - ke) / s < (n - 1) / s + 1 := by
        rw [Int.ediv_lt_iff_lt_mul (by omega)]
        have : ((n - 1) / s + 1) * s = (n - 1) / s * s + s := by ring
        omega
      omega
    · rw [Int.le_ediv_iff_mul_le (by omega)]
      omega

/-- The ceiling of `n / s` for a stride `s >= 1`. -/
theorem ceil_div_eq (n s : Int) (hs : 1 ≤ s) :
    ⌈(n : ℚ) / s⌉ = (n - 1) / s + 1 := by
  have hmod := Int.emod_add_ediv (n - 1) s
  have hr0 := Int.emod_nonneg (n - 1) (show s ≠ 0 by omega)
  have hr1 := Int.emod_lt_of_pos (n - 1) (show 0 < s by omega)
  have hsq : (0 : ℚ) < s := by exact_mod_cast (show (0 : Int) < s by omega)
  rw [Int.ceil_eq_iff]
  constructor
  · rw [lt_div_iff₀ hsq]
    have h1 : ((n - 1) / s + 1 - 1) * s < n := by
      have : ((n - 1) / s + 1 - 1) * s = s * ((n - 1) / s) := by ring
      omega
    exact_mod_cast h1
  · rw [div_le_iff₀ hsq]
    have h1 : n ≤ ((n - 1) / s + 1) * s := by
      have : ((n - 1) / s + 1) * s = s * ((n - 1) / s) + s := by ring
      omega
    exact_mod_cast h1


/-- A result of status `0` built from the created output blob has its shape. -/
theorem status_zero_shape {α : Type} (x : Option α) (m : Mat) (f : α → Buf) (top : Mat)
    (h : x.map (fun a => ((0 : Int), { m with data := f a })) = some (0, top)) :
    top.w = m.w ∧ top.h = m.h := by
  rw [Option.map_eq_some'] at h
  obtain ⟨a, -, h⟩ := h
  simp only [Prod.mk.injEq, true_and] at h
  subst h
  exact ⟨rfl, rfl⟩

theorem forward_float_shape (self : ConvolutionDepthWise) (env : Env) (K : Kernel ℚ)
    (channels outw outh : Int) (elemsize : Nat) (top_blob : Mat) (opt : Opt) (top : Mat)
    (h : self.forward_float env K channels outw outh elemsize top_blob opt = some (0, top)) :
    top.w = outw ∧ top.h = outh := by
  unfold forward_float at h
  simp only at h
  split at h
  · simp at h
  · split at h
    · have := status_zero_shape _ _ _ top h
      rwa [Mat.create_w, Mat.create_h] at this
    · have := status_zero_shape _ _ _ top h
      rwa [Mat.create_w, Mat.create_h] at this

theorem forward_dequantize_shape (self : ConvolutionDepthWise) (env : Env) (K : Kernel Int)
    (channels outw outh : Int) (top_blob : Mat) (opt : Opt) (top : Mat)
    (h : self.forward_dequantize env K channels outw outh top_blob opt = some (0, top)) :
    top.w = outw ∧ top.h = outh := by
  unfold forward_dequantize at h
  simp only at h
  split at h
  · simp at h
  · split at h
    · have := status_zero_shape _ _ _ top h
      rwa [Mat.create_w, Mat.create_h] at this
    · have := status_zero_shape _ _ _ top h
      rwa [Mat.create_w, Mat.create_h] at this

theorem forward_requantize_shape (self : ConvolutionDepthWise) (env : Env) (K : Kernel Int)
    (channels outw outh : Int) (top_blob : Mat) (opt : Opt) (top : Mat)
    (h : self.forward_requantize env K channels outw outh top_blob opt = some (0, top)) :
    top.w = outw ∧ top.h = outh := by
  unfold forward_requantize at h
  simp only at h
  split at h
  · simp at h
  · split at h
    · simp at h
    · split at h
      · have := status_zero_shape _ _ _ top h
        rwa [Mat.create_w, Mat.create_h] at this
      · have := status_zero_shape _ _ _ top h
        rwa [Mat.create_w, Mat.create_h] at this

/-- When `forward_bordered` returns `0`, the output has the extents computed at lines
355-356 from the bordered input. -/
theorem forward_bordered_shape (self : ConvolutionDepthWise) (env : Env) (bordered : Mat)
    (channels : Int) (elemsize : Nat) (top_blob : Mat) (opt : Opt) (top : Mat)
    (h : self.forward_bordered env bordered channels elemsize top_blob opt = some (0, top)) :
    ∃ qw qh,
      c_div (bordered.w - kernel_extent self.dilation_w self.kernel_w) self.stride_w = some qw ∧
      c_div (bordered.h - kernel_extent self.dilation_h self.kernel_h) self.stride_h = some qh ∧
      top.w = qw + 1 ∧ top.h = qh + 1 := by
  unfold forward_bordered at h
  simp only at h
  split at h
  · simp at h
  · rw [Option.bind_eq_some] at h
    obtain ⟨qw, hqw, h⟩ := h
    rw [Option.bind_eq_some] at h
    obtain ⟨qh, hqh, h⟩ := h
    rw [Option.bind_eq_some] at h
    obtain ⟨ofs, -, h⟩ := h
    refine ⟨qw, qh, hqw, hqh, ?_⟩
    split at h
    · split at h
      · exact forward_requantize_shape _ _ _ _ _ _ _ _ top h
      · exact forward_dequantize_shape _ _ _ _ _ _ _ _ top h
    · exact forward_float_shape _ _ _ _ _ _ _ _ _ top h

/-- The input handed to the border step by `forward` has the width and the height of the
input blob, quantized or not; the claim about the output of `forward` follows from one about
every such bordered input. -/
theorem forward_through_border (self : ConvolutionDepthWise) (env : Env)
    (bottom_blob top_blob : Mat) (opt : Opt) (top : Mat)
    (h : self.forward env bottom_blob top_blob opt = some (0, top)) :
    ∃ unbordered bordered, unbordered.w = bottom_blob.w ∧ unbordered.h = bottom_blob.h ∧
      self.border env unbordered bottom_blob.w bottom_blob.h opt = some bordered ∧
      self.forward_bordered env bordered bottom_blob.c bottom_blob.elemsize top_blob opt =
        some (0, top) := by
  unfold forward at h
  rw [Option.bind_eq_some] at h
  obtain ⟨r1, -, h⟩ := h
  split at h
  · simp at h
  · rw [Option.bind_eq_some] at h
    obtain ⟨r2, -, h⟩ := h
    split at h
    · simp at h
    · unfold forward_checked at h
      simp only at h
      split at h
      · split at h
        · simp at h
        · rw [Option.bind_eq_some] at h
          obtain ⟨unbordered, hu, h⟩ := h
          rw [Option.bind_eq_some] at h
          obtain ⟨bordered, hb, h⟩ := h
          refine ⟨unbordered, bordered, ?_, ?_, hb, h⟩
          · unfold quantize_input at hu
            simp only [Option.map_eq_some'] at hu
            obtain ⟨parts, -, rfl⟩ := hu
            exact Mat.create_w _ _ _ _ _ _ _
          · unfold quantize_input at hu
            simp only [Option.map_eq_some'] at hu
            obtain ⟨parts, -, rfl⟩ := hu
            exact Mat.create_h _ _ _ _ _ _ _
      · rw [Option.bind_eq_some] at h
        obtain ⟨bordered, hb, h⟩ := h
        exact ⟨bottom_blob, bordered, rfl, rfl, hb, h⟩

/-- The border step of an automatic mode, for any of the two ways to split the total pad:
the bordered input and the quotients computed from it for the output extents. -/
theorem border_auto_extents (self : ConvolutionDepthWise) (env : Env) (unbordered : Mat)
    (w h : Int) (opt : Opt) (pads : Int → Int → Int × Int × Int × Int)
    (hpads : ∀ hpad wpad, (pads hpad wpad).1 + (pads hpad wpad).2.1 = hpad ∧
      (pads hpad wpad).2.2.1 + (pads hpad wpad).2.2.2 = wpad)
    (huw : unbordered.w = w) (huh : unbordered.h = h)
    (hw : 1 ≤ w) (hh : 1 ≤ h)
    (hkw : 1 ≤ self.kernel_w) (hkh : 1 ≤ self.kernel_h)
    (hsw : 1 ≤ self.stride_w) (hsh : 1 ≤ self.stride_h)
    (hdw : 1 ≤ self.dilation_w) (hdh : 1 ≤ self.dilation_h)
    (hborder : ∀ m t b l r v o, (env.copy_make_border m t b l r v o).w = m.w + l + r ∧
      (env.copy_make_border m t b l r v o).h = m.h + t + b) :
    ∃ bordered, self.border_auto env unbordered w h opt pads = some bordered ∧
      c_div (bordered.w - kernel_extent self.dilation_w self.kernel_w) self.stride_w =
        some ((w - 1) / self.stride_w) ∧
      c_div (bordered.h - kernel_extent self.dilation_h self.kernel_h) self.stride_h =
        some ((h - 1) / self.stride_h) := by
  have hkew := kernel_extent_pos (show 0 < self.dilation_w by omega) (show 0 < self.kernel_w by omega)
  have hkeh := kernel_extent_pos (show 0 < self.dilation_h by omega) (show 0 < self.kernel_h by omega)
  unfold border_auto
  rw [auto_pad_some _ w _ hw hsw, auto_pad_some _ h _ hh hsh]
  simp only [Option.some_bind, Option.map_some']
  refine ⟨_, rfl, ?_, ?_⟩
  · apply auto_extent _ w _ _ hkew hw hsw
    split
    · left
      rw [(hborder _ _ _ _ _ _ _).1, huw, add_assoc, (hpads _ _).2]
    · rename_i hno
      right
      exact ⟨huw, by omega⟩
  · apply auto_extent _ h _ _ hkeh hh hsh
    split
    · left
      rw [(hborder _ _ _ _ _ _ _).2, huh, add_assoc, (hpads _ _).1]
    · rename_i hno
      right
      exact ⟨huh, by omega⟩

/-- C23: in either automatic padding mode (pad code -233 or -234), for an input of width
`w >= 1` and height `h >= 1`, strides, kernel sizes and dilations at least 1, and a border
step that yields width `w + left + right` and height `h + top + bottom`: the border step of
`forward` returns a bordered input from which the output width is computed as
`(w - 1) / stride_w + 1`, which is `ceil(w / stride_w)`, and the output height as
`(h - 1) / stride_h + 1`, which is `ceil(h / stride_h)`, whether or not a border is added;
and whenever `forward` returns `0` its output has this width and this height. -/
theorem auto_pad_output_size (self : ConvolutionDepthWise) (env : Env)
    (bottom_blob top_blob : Mat) (opt : Opt)
    (hmode : (self.pad_left = -233 ∧ self.pad_right = -233 ∧ self.pad_top = -233 ∧
        self.pad_bottom = -233) ∨
      (self.pad_left = -234 ∧ self.pad_right = -234 ∧ self.pad_top = -234 ∧
        self.pad_bottom = -234))
    (hw : 1 ≤ bottom_blob.w) (hh : 1 ≤ bottom_blob.h)
    (hkw : 1 ≤ self.kernel_w) (hkh : 1 ≤ self.kernel_h)
    (hsw : 1 ≤ self.stride_w) (hsh : 1 ≤ self.stride_h)
    (hdw : 1 ≤ self.dilation_w) (hdh : 1 ≤ self.dilation_h)
    (hborder : ∀ m t b l r v o, (env.copy_make_border m t b l r v o).w = m.w + l + r ∧
      (env.copy_make_border m t b l r v o).h = m.h + t + b) :
    (∀ unbordered : Mat, unbordered.w = bottom_blob.w → unbordered.h = bottom_blob.h →
      ∃ bordered, self.border env unbordered bottom_blob.w bottom_blob.h opt = some bordered ∧
        (c_div (bordered.w - kernel_extent self.dilation_w self.kernel_w) self.stride_w).map
            (fun q => q + 1) = some ((bottom_blob.w - 1) / self.stride_w + 1) ∧
        (c_div (bordered.h - kernel_extent self.dilation_h self.kernel_h) self.stride_h).map
            (fun q => q + 1) = some ((bottom_blob.h - 1) / self.stride_h + 1)) ∧
    (bottom_blob.w - 1) / self.stride_w + 1 = ⌈(bottom_blob.w : ℚ) / self.stride_w⌉ ∧
    (bottom_blob.h - 1) / self.stride_h + 1 = ⌈(bottom_blob.h : ℚ) / self.stride_h⌉ ∧
    ∀ top, self.forward env bottom_blob top_blob opt = some (0, top) →
      top.w = (bottom_blob.w - 1) / self.stride_w + 1 ∧
      top.h = (bottom_blob.h - 1) / self.stride_h + 1 := by
  have hb : ∀ unbordered : Mat, unbordered.w = bottom_blob.w → unbordered.h = bottom_blob.h →
      ∃ bordered, self.border env unbordered bottom_blob.w bottom_blob.h opt = some bordered ∧
        c_div (bordered.w - kernel_extent self.dilation_w self.kernel_w) self.stride_w =
          some ((bottom_blob.w - 1) / self.stride_w) ∧
        c_div (bordered.h - kernel_extent self.dilation_h self.kernel_h) self.stride_h =
          some ((bottom_blob.h - 1) / self.stride_h) := by
    intro unbordered huw huh
    have hnot : ¬ (self.pad_left > 0 ∨ self.pad_right > 0 ∨ self.pad_top > 0 ∨
        self.pad_bottom > 0) := by
      rcases hmode with hm | hm <;> omega
    unfold border
    rw [if_neg hnot]
    rcases hmode with hm | hm
    · rw [if_pos hm]
      exact self.border_auto_extents env unbordered _ _ opt pads_upper
        (fun hpad wpad => ⟨(split_sum hpad).1, (split_sum wpad).1⟩)
        huw huh hw hh hkw hkh hsw hsh hdw hdh hborder
    · have hne : ¬ (self.pad_left = -233 ∧ self.pad_right = -233 ∧ self.pad_top = -233 ∧
          self.pad_bottom = -233) := by omega
      rw [if_neg hne, if_pos hm]
      exact self.border_auto_extents env unbordered _ _ opt pads_lower
        (fun hpad wpad => ⟨(split_sum hpad).2, (split_sum wpad).2⟩)
        huw huh hw hh hkw hkh hsw hsh hdw hdh hborder
  refine ⟨fun unbordered huw huh => ?_, (ceil_div_eq _ _ hsw).symm, (ceil_div_eq _ _ hsh).symm,
    fun top htop => ?_⟩
  · obtain ⟨bordered, h1, h2, h3⟩ := hb unbordered huw huh
    exact ⟨bordered, h1, by rw [h2]; rfl, by rw [h3]; rfl⟩
  · obtain ⟨unbordered, bordered, huw, huh, hbo, hfb⟩ :=
      self.forward_through_border env bottom_blob top_blob opt top htop
    obtain ⟨bordered1, h1, h2, h3⟩ := hb unbordered huw huh
    rw [hbo] at h1
    simp only [Option.some.injEq] at h1
    subst h1
    obtain ⟨qw, qh, hqw, hqh, htw, hth⟩ :=
      self.forward_bordered_shape env bordered _ _ top_blob opt top hfb
    rw [h2] at hqw
    rw [h3] at hqh
    simp only [Option.some.injEq] at hqw hqh
    rw [htw, hth, ← hqw, ← hqh]
    exact ⟨rfl, rfl⟩

end ConvolutionDepthWise

namespace ConvolutionDepthWise

/-- Instance of `auto_pad_output_size`: the 3x3 kernel of stride 2 in the mode -233 on an
int8 input of width 5 and height 4; the border step widens the input to 7 by 5, `forward`
returns `0` and its output is 3 = ceil(5/2) wide and 2 = ceil(4/2) high. -/
theorem auto_pad_output_size_witness :
    (Sample.int8_same (-233)).pad_left = -233 ∧
    (∀ m t b l r v o, (Sample.env_border.copy_make_border m t b l r v o).w = m.w + l + r ∧
      (Sample.env_border.copy_make_border m t b l r v o).h = m.h + t + b) ∧
    ((Sample.int8_same (-233)).border Sample.env_border (Sample.int8_blob 5 4 2 1) 5 4
      Sample.opt).map (fun m => (m.w, m.h)) = some (7, 5) ∧
    ((5 : Int) - 1) / 2 + 1 = 3 ∧ ((4 : Int) - 1) / 2 + 1 = 2 ∧
    ∃ top, (Sample.int8_same (-233)).forward Sample.env_border (Sample.int8_blob 5 4 2 1)
        Mat.nil Sample.opt = some (0, top) ∧ top.w = 3 ∧ top.h = 2 := by
  have hb : ∀ m t b l r v o,
      (Sample.env_border.copy_make_border m t b l r v o).w = m.w + l + r ∧
      (Sample.env_border.copy_make_border m t b l r v o).h = m.h + t + b :=
    fun _ _ _ _ _ _ _ => ⟨rfl, rfl⟩
  have h := auto_pad_output_size (Sample.int8_same (-233)) Sample.env_border
    (Sample.int8_blob 5 4 2 1) Mat.nil Sample.opt (Or.inl ⟨rfl, rfl, rfl, rfl⟩)
    (by decide) (by decide) (by decide) (by decide) (by decide) (by decide) (by decide)
    (by decide) hb
  have hrun : ∃ top, (Sample.int8_same (-233)).forward Sample.env_border
      (Sample.int8_blob 5 4 2 1) Mat.nil Sample.opt = some (0, top) := ⟨_, rfl⟩
  obtain ⟨top, htop⟩ := hrun
  exact ⟨rfl, hb, by decide, by decide, by decide, top, htop, h.2.2.2 top htop⟩

end ConvolutionDepthWise

namespace ConvolutionDepthWise

/-! ## The sign of the automatic pads -/

/-- The two pads of an axis are both non-negative exactly when the total pad is, whichever
way the total is split. -/
theorem split_nonneg_iff (p : Int) :
    ((0 ≤ (split_upper p).1 ∧ 0 ≤ (split_upper p).2) ↔ 0 ≤ p) ∧
    ((0 ≤ (split_lower p).1 ∧ 0 ≤ (split_lower p).2) ↔ 0 ≤ p) := by
  unfold split_upper split_lower
  simp only
  by_cases hp : 0 ≤ p
  · rw [tdiv_two_of_nonneg hp]
    constructor <;> constructor <;> intro _ <;> omega
  · have hneg : 0 ≤ -p := by omega
    have h1 : p.tdiv 2 = -((-p).tdiv 2) := by
      rw [Int.neg_tdiv, neg_neg]
    rw [h1, tdiv_two_of_nonneg hneg]
    constructor <;> constructor <;> intro _ <;> omega

/-- C24, as stated, fails: in the mode -233, for a kernel 3 wide and 1 high with strides 1
and 2 on an input of width 3 and height 2, the total pads are 2 (width) and -1 (height); the
border step is invoked, since the width needs a border, and is handed the pads
`(top, bottom, left, right) = (0, -1, 1, 1)`: the bottom pad is negative (the bordered
input is 1 high, less than the input). -/
theorem border_step_gets_negative_pad :
    auto_pad (kernel_extent (Sample.int8_wide 1 (-233)).dilation_w
      (Sample.int8_wide 1 (-233)).kernel_w) 3 (Sample.int8_wide 1 (-233)).stride_w = some 2 ∧
    auto_pad (kernel_extent (Sample.int8_wide 1 (-233)).dilation_h
      (Sample.int8_wide 1 (-233)).kernel_h) 2 (Sample.int8_wide 1 (-233)).stride_h =
      some (-1) ∧
    pads_upper (-1) 2 = (0, -1, 1, 1) ∧
    (∀ env : Env, (Sample.int8_wide 1 (-233)).border env (Sample.int8_blob 3 2 2 5) 3 2
        Sample.opt =
      some (env.copy_make_border (Sample.int8_blob 3 2 2 5) 0 (-1) 1 1
        (Sample.int8_wide 1 (-233)).pad_value (opt_b Sample.opt))) ∧
    ((Sample.int8_wide 1 (-233)).border Sample.env_border (Sample.int8_blob 3 2 2 5) 3 2
      Sample.opt).map (fun m => (m.w, m.h)) = some (5, 1) :=
  ⟨by decide, by decide, by decide, fun _ => rfl, by decide⟩

/-- C24, amended: in an automatic padding mode, for an input of width and height at least 1
and strides, kernel sizes and dilations at least 1, the total pads `wpad` and `hpad` are
computed, they are `kernel_extent - 1 - (n - 1) mod stride` on their axis, the border step is
invoked exactly when one of them is positive, with the pads of `pads_upper hpad wpad` (pad
code -233) or `pads_lower hpad wpad` (pad code -234), and in both modes the four pads are
all non-negative if and only if neither total pad is negative. -/
theorem auto_pads_sign (self : ConvolutionDepthWise) (env : Env) (unbordered : Mat)
    (w h : Int) (opt : Opt)
    (hw : 1 ≤ w) (hh : 1 ≤ h) (hsw : 1 ≤ self.stride_w) (hsh : 1 ≤ self.stride_h) :
    ∃ wpad hpad,
      auto_pad (kernel_extent self.dilation_w self.kernel_w) w self.stride_w = some wpad ∧
      auto_pad (kernel_extent self.dilation_h self.kernel_h) h self.stride_h = some hpad ∧
      wpad = kernel_extent self.dilation_w self.kernel_w - 1 - (w - 1) % self.stride_w ∧
      hpad = kernel_extent self.dilation_h self.kernel_h - 1 - (h - 1) % self.stride_h ∧
      ((self.pad_left = -233 ∧ self.pad_right = -233 ∧ self.pad_top = -233 ∧
          self.pad_bottom = -233) →
        self.border env unbordered w h opt =
          some (if wpad > 0 ∨ hpad > 0 then
            env.copy_make_border unbordered (pads_upper hpad wpad).1 (pads_upper hpad wpad).2.1
              (pads_upper hpad wpad).2.2.1 (pads_upper hpad wpad).2.2.2 self.pad_value
              (opt_b opt)
          else unbordered)) ∧
      ((self.pad_left = -234 ∧ self.pad_right = -234 ∧ self.pad_top = -234 ∧
          self.pad_bottom = -234) →
        self.border env unbordered w h opt =
          some (if wpad > 0 ∨ hpad > 0 then
            env.copy_make_border unbordered (pads_lower hpad wpad).1 (pads_lower hpad wpad).2.1
              (pads_lower hpad wpad).2.2.1 (pads_lower hpad wpad).2.2.2 self.pad_value
              (opt_b opt)
          else unbordered)) ∧
      ((0 ≤ (pads_upper hpad wpad).1 ∧ 0 ≤ (pads_upper hpad wpad).2.1 ∧
          0 ≤ (pads_upper hpad wpad).2.2.1 ∧ 0 ≤ (pads_upper hpad wpad).2.2.2) ↔
        (0 ≤ hpad ∧ 0 ≤ wpad)) ∧
      ((0 ≤ (pads_lower hpad wpad).1 ∧ 0 ≤ (pads_lower hpad wpad).2.1 ∧
          0 ≤ (pads_lower hpad wpad).2.2.1 ∧ 0 ≤ (pads_lower hpad wpad).2.2.2) ↔
        (0 ≤ hpad ∧ 0 ≤ wpad)) := by
  have hmw := Int.emod_add_ediv (w - 1) self.stride_w
  have hmh := Int.emod_add_ediv (h - 1) self.stride_h
  have hcw : (w - 1) / self.stride_w * self.stride_w =
      self.stride_w * ((w - 1) / self.stride_w) := by ring
  have hch : (h - 1) / self.stride_h * self.stride_h =
      self.stride_h * ((h - 1) / self.stride_h) := by ring
  refine ⟨_, _, auto_pad_some _ w _ hw hsw, auto_pad_some _ h _ hh hsh, by omega, by omega,
    ?_, ?_, ?_, ?_⟩
  · intro hm
    have hnot : ¬ (self.pad_left > 0 ∨ self.pad_right > 0 ∨ self.pad_top > 0 ∨
        self.pad_bottom > 0) := by omega
    unfold border
    rw [if_neg hnot, if_pos hm]
    unfold border_auto
    rw [auto_pad_some _ w _ hw hsw, auto_pad_some _ h _ hh hsh]
    rfl
  · intro hm
    have hnot : ¬ (self.pad_left > 0 ∨ self.pad_right > 0 ∨ self.pad_top > 0 ∨
        self.pad_bottom > 0) := by omega
    have hne : ¬ (self.pad_left = -233 ∧ self.pad_right = -233 ∧ self.pad_top = -233 ∧
        self.pad_bottom = -233) := by omega
    unfold border
    rw [if_neg hnot, if_neg hne, if_pos hm]
    unfold border_auto
    rw [auto_pad_some _ w _ hw hsw, auto_pad_some _ h _ hh hsh]
    rfl
  · unfold pads_upper
    simp only
    constructor
    · rintro ⟨a, b, c, d⟩
      exact ⟨(split_nonneg_iff _).1.mp ⟨a, b⟩, (split_nonneg_iff _).1.mp ⟨c, d⟩⟩
    · rintro ⟨a, b⟩
      exact ⟨((split_nonneg_iff _).1.mpr a).1, ((split_nonneg_iff _).1.mpr a).2,
        ((split_nonneg_iff _).1.mpr b).1, ((split_nonneg_iff _).1.mpr b).2⟩
  · unfold pads_lower
    simp only
    constructor
    · rintro ⟨a, b, c, d⟩
      exact ⟨(split_nonneg_iff _).2.mp ⟨a, b⟩, (split_nonneg_iff _).2.mp ⟨c, d⟩⟩
    · rintro ⟨a, b⟩
      exact ⟨((split_nonneg_iff _).2.mpr a).1, ((split_nonneg_iff _).2.mpr a).2,
        ((split_nonneg_iff _).2.mpr b).1, ((split_nonneg_iff _).2.mpr b).2⟩

/-- Instance of `auto_pads_sign`: the 3x3 kernel of stride 2 in the mode -233 on an input of
width 5 and height 4 has the total pads 2 and 1, split into `(top, bottom, left, right) =
(0, 1, 1, 1)`, none of them negative. -/
theorem auto_pads_sign_witness :
    auto_pad (kernel_extent (Sample.int8_same (-233)).dilation_w
      (Sample.int8_same (-233)).kernel_w) 5 (Sample.int8_same (-233)).stride_w = some 2 ∧
    auto_pad (kernel_extent (Sample.int8_same (-233)).dilation_h
      (Sample.int8_same (-233)).kernel_h) 4 (Sample.int8_same (-233)).stride_h = some 1 ∧
    pads_upper 1 2 = (0, 1, 1, 1) ∧
    (Sample.int8_same (-233)).border Sample.env_border (Sample.int8_blob 5 4 2 1) 5 4
        Sample.opt =
      some (Sample.env_border.copy_make_border (Sample.int8_blob 5 4 2 1) 0 1 1 1
        (Sample.int8_same (-233)).pad_value (opt_b Sample.opt)) := by
  obtain ⟨wpad, hpad, h1, h2, h3, h4, h5, _, _, _⟩ :=
    auto_pads_sign (Sample.int8_same (-233)) Sample.env_border (Sample.int8_blob 5 4 2 1) 5 4
      Sample.opt (by decide) (by decide) (by decide) (by decide)
  have hw2 : wpad = 2 := by rw [h3]; decide
  have hh1 : hpad = 1 := by rw [h4]; decide
  subst hw2
  subst hh1
  exact ⟨h1, h2, by decide, h5 ⟨rfl, rfl, rfl, rfl⟩⟩

/-! ## The split of the automatic pads between the two sides -/

/-- For a positive total pad, the split of pad code -233 is (floor, ceiling) of the half
and the split of pad code -234 is (ceiling, floor). -/
theorem split_floor_ceil (p : Int) (hp : 0 < p) :
    (split_upper p).1 = ⌊(p : ℚ) / 2⌋ ∧ (split_upper p).2 = ⌈(p : ℚ) / 2⌉ ∧
    (split_lower p).1 = ⌈(p : ℚ) / 2⌉ ∧ (split_lower p).2 = ⌊(p : ℚ) / 2⌋ := by
  have ht : p.tdiv 2 = p / 2 := tdiv_two_of_nonneg (le_of_lt hp)
  simp only [split_upper, split_lower, ht, floor_half, ceil_half]
  refine ⟨trivial, by omega, by omega, trivial⟩

/-- C6: in the two automatic padding modes of `forward`, for an input of width and height
at least 1 and strides at least 1, the total pads `wpad` and `hpad` are computed, and when
one of them is positive the border step is called, for the layer with pad code -233
(SAME_UPPER) with `(top, bottom, left, right)` the components of `pads_upper hpad wpad` and
for the same layer with pad code -234 (SAME_LOWER) with those of `pads_lower hpad wpad`. In
both modes top + bottom is `hpad` and left + right is `wpad`; for a total pad `p > 0` of an
axis, pad code -234 gives `ceil(p/2)` to the leading side (top, left) and `floor(p/2)` to
the trailing side (bottom, right), pad code -233 gives `floor(p/2)` to the leading side and
`ceil(p/2)` to the trailing side; for odd `p` the ceiling is one more than the floor, for
even `p` they are equal and the two modes pad the axis identically. -/
theorem auto_pad_sides (self : ConvolutionDepthWise) (w h : Int)
    (hw : 1 ≤ w) (hh : 1 ≤ h) (hsw : 1 ≤ self.stride_w) (hsh : 1 ≤ self.stride_h) :
    ∃ wpad hpad,
      auto_pad (kernel_extent self.dilation_w self.kernel_w) w self.stride_w = some wpad ∧
      auto_pad (kernel_extent self.dilation_h self.kernel_h) h self.stride_h = some hpad ∧
      (∀ (env : Env) (unbordered : Mat) (opt : Opt),
        border { self with pad_left := -233, pad_right := -233, pad_top := -233
                           pad_bottom := -233 } env unbordered w h opt =
          some (if wpad > 0 ∨ hpad > 0 then
            env.copy_make_border unbordered (pads_upper hpad wpad).1 (pads_upper hpad wpad).2.1
              (pads_upper hpad wpad).2.2.1 (pads_upper hpad wpad).2.2.2 self.pad_value
              (opt_b opt)
          else unbordered) ∧
        border { self with pad_left := -234, pad_right := -234, pad_top := -234
                           pad_bottom := -234 } env unbordered w h opt =
          some (if wpad > 0 ∨ hpad > 0 then
            env.copy_make_border unbordered (pads_lower hpad wpad).1 (pads_lower hpad wpad).2.1
              (pads_lower hpad wpad).2.2.1 (pads_lower hpad wpad).2.2.2 self.pad_value
              (opt_b opt)
          else unbordered)) ∧
      ((pads_upper hpad wpad).1 + (pads_upper hpad wpad).2.1 = hpad ∧
        (pads_upper hpad wpad).2.2.1 + (pads_upper hpad wpad).2.2.2 = wpad ∧
        (pads_lower hpad wpad).1 + (pads_lower hpad wpad).2.1 = hpad ∧
        (pads_lower hpad wpad).2.2.1 + (pads_lower hpad wpad).2.2.2 = wpad) ∧
      (0 < hpad →
        (pads_lower hpad wpad).1 = ⌈(hpad : ℚ) / 2⌉ ∧
        (pads_lower hpad wpad).2.1 = ⌊(hpad : ℚ) / 2⌋ ∧
        (pads_upper hpad wpad).1 = ⌊(hpad : ℚ) / 2⌋ ∧
        (pads_upper hpad wpad).2.1 = ⌈(hpad : ℚ) / 2⌉ ∧
        (hpad % 2 = 1 → ⌈(hpad : ℚ) / 2⌉ = ⌊(hpad : ℚ) / 2⌋ + 1) ∧
        (hpad % 2 = 0 → (pads_upper hpad wpad).1 = (pads_lower hpad wpad).1 ∧
          (pads_upper hpad wpad).2.1 = (pads_lower hpad wpad).2.1)) ∧
      (0 < wpad →
        (pads_lower hpad wpad).2.2.1 = ⌈(wpad : ℚ) / 2⌉ ∧
        (pads_lower hpad wpad).2.2.2 = ⌊(wpad : ℚ) / 2⌋ ∧
        (pads_upper hpad wpad).2.2.1 = ⌊(wpad : ℚ) / 2⌋ ∧
        (pads_upper hpad wpad).2.2.2 = ⌈(wpad : ℚ) / 2⌉ ∧
        (wpad % 2 = 1 → ⌈(wpad : ℚ) / 2⌉ = ⌊(wpad : ℚ) / 2⌋ + 1) ∧
        (wpad % 2 = 0 → (pads_upper hpad wpad).2.2.1 = (pads_lower hpad wpad).2.2.1 ∧
          (pads_upper hpad wpad).2.2.2 = (pads_lower hpad wpad).2.2.2)) := by
  have haxis : ∀ p : Int, 0 < p →
      (split_lower p).1 = ⌈(p : ℚ) / 2⌉ ∧ (split_lower p).2 = ⌊(p : ℚ) / 2⌋ ∧
      (split_upper p).1 = ⌊(p : ℚ) / 2⌋ ∧ (split_upper p).2 = ⌈(p : ℚ) / 2⌉ ∧
      (p % 2 = 1 → ⌈(p : ℚ) / 2⌉ = ⌊(p : ℚ) / 2⌋ + 1) ∧
      (p % 2 = 0 → (split_upper p).1 = (split_lower p).1 ∧
        (split_upper p).2 = (split_lower p).2) := by
    intro p hp
    obtain ⟨h1, h2, h3, h4⟩ := split_floor_ceil p hp
    refine ⟨h3, h4, h1, h2, fun hodd => ?_, fun heven => ?_⟩
    · rw [floor_half, ceil_half]; omega
    · rw [h1, h2, h3, h4, floor_half, ceil_half]
      constructor <;> omega
  refine ⟨_, _, auto_pad_some _ w _ hw hsw, auto_pad_some _ h _ hh hsh,
    fun env unbordered opt => ⟨?_, ?_⟩,
    ⟨(split_sum _).1, (split_sum _).1, (split_sum _).2, (split_sum _).2⟩,
    fun hp => haxis _ hp, fun hp => haxis _ hp⟩
  · have hnot : ¬ ((-233 : Int) > 0 ∨ (-233 : Int) > 0 ∨ (-233 : Int) > 0 ∨ (-233 : Int) > 0) := by
      decide
    unfold border
    simp only [if_neg hnot, and_self, if_true]
    unfold border_auto
    simp only [auto_pad_some _ w _ hw hsw, auto_pad_some _ h _ hh hsh, Option.some_bind,
      Option.map_some']
  · have hnot : ¬ ((-234 : Int) > 0 ∨ (-234 : Int) > 0 ∨ (-234 : Int) > 0 ∨ (-234 : Int) > 0) := by
      decide
    have hne : ¬ ((-234 : Int) = -233 ∧ (-234 : Int) = -233 ∧ (-234 : Int) = -233 ∧
        (-234 : Int) = -233) := by decide
    unfold border
    simp only [if_neg hnot, if_neg hne]
    simp only [and_self, if_true]
    unfold border_auto
    simp only [auto_pad_some _ w _ hw hsw, auto_pad_some _ h _ hh hsh, Option.some_bind,
      Option.map_some']

/-- Instance of `auto_pad_sides`: the 3x3 kernel of stride 2 on an input of width 5 and
height 4 has the total pads 2 (width) and 1 (height); pad code -233 passes
`(top, bottom, left, right) = (0, 1, 1, 1)` and pad code -234 passes `(1, 0, 1, 1)`. -/
theorem auto_pad_sides_witness :
    auto_pad (kernel_extent (Sample.int8_same 0).dilation_w (Sample.int8_same 0).kernel_w) 5
      (Sample.int8_same 0).stride_w = some 2 ∧
    auto_pad (kernel_extent (Sample.int8_same 0).dilation_h (Sample.int8_same 0).kernel_h) 4
      (Sample.int8_same 0).stride_h = some 1 ∧
    pads_upper 1 2 = (0, 1, 1, 1) ∧ pads_lower 1 2 = (1, 0, 1, 1) ∧
    (Sample.int8_same (-233)).border Sample.env_border (Sample.int8_blob 5 4 2 1) 5 4
        Sample.opt =
      some (Sample.env_border.copy_make_border (Sample.int8_blob 5 4 2 1) 0 1 1 1
        (Sample.int8_same 0).pad_value (opt_b Sample.opt)) ∧
    (Sample.int8_same (-234)).border Sample.env_border (Sample.int8_blob 5 4 2 1) 5 4
        Sample.opt =
      some (Sample.env_border.copy_make_border (Sample.int8_blob 5 4 2 1) 1 0 1 1
        (Sample.int8_same 0).pad_value (opt_b Sample.opt)) := by
  obtain ⟨wpad, hpad, h1, h2, h3, -, -, -⟩ :=
    auto_pad_sides (Sample.int8_same 0) 5 4 (by decide) (by decide) (by decide) (by decide)
  have hw2 : wpad = 2 := by
    have : auto_pad (kernel_extent (Sample.int8_same 0).dilation_w
        (Sample.int8_same 0).kernel_w) 5 (Sample.int8_same 0).stride_w = some 2 := by decide
    rw [this] at h1
    exact (Option.some.inj h1).symm
  have hh1 : hpad = 1 := by
    have : auto_pad (kernel_extent (Sample.int8_same 0).dilation_h
        (Sample.int8_same 0).kernel_h) 4 (Sample.int8_same 0).stride_h = some 1 := by decide
    rw [this] at h2
    exact (Option.some.inj h2).symm
  subst hw2
  subst hh1
  exact ⟨h1, h2, by decide, by decide,
    (h3 Sample.env_border (Sample.int8_blob 5 4 2 1) Sample.opt).1,
    (h3 Sample.env_border (Sample.int8_blob 5 4 2 1) Sample.opt).2⟩

end ConvolutionDepthWise

namespace ConvolutionDepthWise

/-! ## An input shorter than the dilated kernel -/

/-- The output extent computed for an axis of `n` cells shorter than the kernel extent `ke`:
the truncating division gives an extent `<= 0` exactly when the kernel exceeds the axis by
the stride or more, and the extent 1 when it exceeds it by less. -/
theorem short_axis (n ke s : Int) (hs : 1 ≤ s) (hshort : n < ke) :
    ∃ q, c_div (n - ke) s = some q ∧ (q + 1 ≤ 0 ↔ s ≤ ke - n) ∧ (ke - n < s → q + 1 = 1) := by
  refine ⟨_, c_div_of_pos (by omega), ?_, ?_⟩
  · have h1 : (n - ke).tdiv s = -((ke - n).tdiv s) := by
      rw [← Int.neg_tdiv]; congr 1; ring
    rw [h1, Int.tdiv_eq_ediv (by omega) (by omega)]
    constructor
    · intro h
      by_contra hlt
      have : (ke - n) / s = 0 := Int.ediv_eq_zero_of_lt (by omega) (by omega)
      omega
    · intro h
      have : 1 ≤ (ke - n) / s := by
        rw [Int.le_ediv_iff_mul_le (by omega)]
        omega
      omega
  · intro h
    have h1 : (n - ke).tdiv s = -((ke - n).tdiv s) := by
      rw [← Int.neg_tdiv]; congr 1; ring
    rw [h1, Int.tdiv_eq_ediv (by omega) (by omega),
      Int.ediv_eq_zero_of_lt (by omega) (by omega)]
    rfl

/-- A created blob with no element is empty, whatever the allocator does, when the blob
handed in does not have a negative element count. -/
theorem create_empty_of_no_element (m : Mat) (w h c : Int) (e : Nat) (a : Allocator)
    (g : Bool) (hm : 0 ≤ m.total) (hle : w * h * c ≤ 0) :
    (m.create w h c e a g).empty = true := by
  unfold Mat.create
  split
  · rename_i hc
    have : m.total = 0 := by
      unfold Mat.total at hm ⊢
      rw [hc.2.1, hc.2.2.1, hc.2.2.2.1] at hm ⊢
      omega
    simp [Mat.empty, this]
  · have : ¬ (0 < w * h * c ∧ g = true) := by
      intro hh
      omega
    simp [Mat.empty, this]

/-- C25, as stated, fails: with a kernel 3 wide, dilation 1 and stride 2 on an int8 input 2
wide (the kernel extent 3 exceeds the width 2), `forward` computes the output width
`(2 - 3) / 2 + 1 = 1`, reads the three taps of each channel (the third one in the next row)
and returns `0` with one output element per channel. -/
theorem forward_short_input_goes_on :
    (Sample.int8_blob 2 2 2 5).w <
      kernel_extent (Sample.int8_wide 2 0).dilation_w (Sample.int8_wide 2 0).kernel_w ∧
    c_div ((Sample.int8_blob 2 2 2 5).w -
        kernel_extent (Sample.int8_wide 2 0).dilation_w (Sample.int8_wide 2 0).kernel_w)
      (Sample.int8_wide 2 0).stride_w = some 0 ∧
    (Sample.int8_wide 2 0).forward (Sample.env_status 0) (Sample.int8_blob 2 2 2 5) Mat.nil
        Sample.opt =
      some (0, { dims := 3, w := 1, h := 1, c := 2, elemsize := 4, allocator := none
                 data := Buf.floats [[15], [30]] }) :=
  ⟨by decide, by decide, rfl⟩

/-- C25, amended: for strides at least 1, if the dilated kernel extent exceeds the bordered
input on an axis, the output extent computed for that axis is `<= 0` exactly when the excess
is at least the stride (always so for stride 1) and is 1 when the excess is less than the
stride; and when one computed extent is `<= 0` while the other one and `num_output` are not
negative, `forward` (from the bordered input on, for a kernel size that is not negative and
an output blob whose element count is not negative) returns `-100` with the output blob as
it was or empty: no output element is computed. -/
theorem short_input_extent (self : ConvolutionDepthWise) (env : Env) (bordered : Mat)
    (channels : Int) (elemsize : Nat) (top_blob : Mat) (opt : Opt)
    (hsw : 1 ≤ self.stride_w) (hsh : 1 ≤ self.stride_h)
    (hmaxk : 0 ≤ self.kernel_w * self.kernel_h)
    (htop : 0 ≤ top_blob.total) :
    ∃ qw qh,
      c_div (bordered.w - kernel_extent self.dilation_w self.kernel_w) self.stride_w = some qw ∧
      c_div (bordered.h - kernel_extent self.dilation_h self.kernel_h) self.stride_h = some qh ∧
      (bordered.w < kernel_extent self.dilation_w self.kernel_w →
        (qw + 1 ≤ 0 ↔ self.stride_w ≤ kernel_extent self.dilation_w self.kernel_w - bordered.w) ∧
        (kernel_extent self.dilation_w self.kernel_w - bordered.w < self.stride_w →
          qw + 1 = 1)) ∧
      (bordered.h < kernel_extent self.dilation_h self.kernel_h →
        (qh + 1 ≤ 0 ↔ self.stride_h ≤ kernel_extent self.dilation_h self.kernel_h - bordered.h) ∧
        (kernel_extent self.dilation_h self.kernel_h - bordered.h < self.stride_h →
          qh + 1 = 1)) ∧
      (((qw + 1 ≤ 0 ∧ 0 ≤ qh + 1) ∨ (0 ≤ qw + 1 ∧ qh + 1 ≤ 0)) → 0 ≤ self.num_output →
        ∃ top, self.forward_bordered env bordered channels elemsize top_blob opt =
            some (-100, top) ∧ (top = top_blob ∨ top.empty = true)) := by
  refine ⟨_, _, c_div_of_pos (by omega), c_div_of_pos (by omega), ?_, ?_, ?_⟩
  · intro hshort
    obtain ⟨q, hq, h1, h2⟩ := short_axis bordered.w _ self.stride_w hsw hshort
    rw [c_div_of_pos (by omega)] at hq
    simp only [Option.some.injEq] at hq
    rw [hq]
    exact ⟨h1, h2⟩
  · intro hshort
    obtain ⟨q, hq, h1, h2⟩ := short_axis bordered.h _ self.stride_h hsh hshort
    rw [c_div_of_pos (by omega)] at hq
    simp only [Option.some.injEq] at hq
    rw [hq]
    exact ⟨h1, h2⟩
  · intro hext hnum
    have hprod : ((bordered.w - kernel_extent self.dilation_w self.kernel_w).tdiv self.stride_w
        + 1) * ((bordered.h - kernel_extent self.dilation_h self.kernel_h).tdiv self.stride_h
        + 1) * self.num_output ≤ 0 := by
      apply mul_nonpos_of_nonpos_of_nonneg _ hnum
      rcases hext with ⟨h1, h2⟩ | ⟨h1, h2⟩
      · exact mul_nonpos_of_nonpos_of_nonneg h1 h2
      · exact mul_nonpos_of_nonneg_of_nonpos h1 h2
    have hsome : ∃ ofs, self.space_ofs bordered.w = some ofs := by
      unfold space_ofs
      simp only [not_lt.mpr hmaxk, if_false]
      exact ⟨_, rfl⟩
    obtain ⟨ofs, hofs⟩ := hsome
    unfold forward_bordered
    simp only
    split
    · exact ⟨_, rfl, Or.inl rfl⟩
    · rw [c_div_of_pos (by omega), c_div_of_pos (by omega)]
      simp only [Option.some_bind, hofs]
      split
      · split
        · unfold forward_requantize
          have he := create_empty_of_no_element Mat.nil _ _ _ 4 opt.workspace_allocator
            (env.granted AllocSite.top_blob_tm) (by decide) hprod
          simp only [he, if_true]
          exact ⟨_, rfl, Or.inl rfl⟩
        · unfold forward_dequantize
          have he := create_empty_of_no_element top_blob _ _ _ 4 opt.blob_allocator
            (env.granted AllocSite.top_blob) htop hprod
          simp only [he, if_true]
          exact ⟨_, rfl, Or.inr he⟩
      · unfold forward_float
        have he := create_empty_of_no_element top_blob _ _ _ elemsize opt.blob_allocator
          (env.granted AllocSite.top_blob) htop hprod
        simp only [he, if_true]
        exact ⟨_, rfl, Or.inr he⟩

/-- Instance of `short_input_extent`: the kernel 3 wide with stride 1 on an int8 input 2
wide; the computed output width is `(2 - 3) / 1 + 1 = 0` and `forward_bordered` returns
`-100`. -/
theorem short_input_extent_witness :
    (Sample.int8_blob 2 2 2 5).w <
      kernel_extent (Sample.int8_wide 1 0).dilation_w (Sample.int8_wide 1 0).kernel_w ∧
    c_div ((Sample.int8_blob 2 2 2 5).w -
        kernel_extent (Sample.int8_wide 1 0).dilation_w (Sample.int8_wide 1 0).kernel_w)
      (Sample.int8_wide 1 0).stride_w = some (-1) ∧
    ∃ top, (Sample.int8_wide 1 0).forward_bordered (Sample.env_status 0)
        (Sample.int8_blob 2 2 2 5) 2 1 Mat.nil Sample.opt = some (-100, top) ∧
      (top = Mat.nil ∨ top.empty = true) := by
  obtain ⟨qw, qh, hqw, hqh, _, _, h⟩ :=
    short_input_extent (Sample.int8_wide 1 0) (Sample.env_status 0) (Sample.int8_blob 2 2 2 5)
      2 1 Mat.nil Sample.opt (by decide) (by decide) (by decide) (by decide)
  have hw : qw = -1 := by
    have h2 : c_div ((Sample.int8_blob 2 2 2 5).w -
        kernel_extent (Sample.int8_wide 1 0).dilation_w (Sample.int8_wide 1 0).kernel_w)
        (Sample.int8_wide 1 0).stride_w = some (-1) := by decide
    rw [h2] at hqw
    exact (Option.some.inj hqw).symm
  have hh : qh = 0 := by
    have h2 : c_div ((Sample.int8_blob 2 2 2 5).h -
        kernel_extent (Sample.int8_wide 1 0).dilation_h (Sample.int8_wide 1 0).kernel_h)
        (Sample.int8_wide 1 0).stride_h = some 0 := by decide
    rw [h2] at hqh
    exact (Option.some.inj hqh).symm
  subst hw
  subst hh
  exact ⟨by decide, by decide, h (Or.inl ⟨by decide, by decide⟩) (by decide)⟩

end ConvolutionDepthWise

namespace ConvolutionDepthWise

/-! ## The bias handed to the sub-layers of the int8 path -/

/-- The one-element view `range(g, 1)` of a tensor holds its element `g`. -/
theorem range_float_at (m : Mat) (g : Nat) :
    (m.range g 1).float_at 0 = m.float_at g ∧ (m.range g 1).float_at 1 = none := by
  unfold Mat.float_at Mat.read_float Mat.range
  cases hd : m.data with
  | floats planes =>
    simp only [at?]
    cases planes with
    | nil => simp
    | cons p ps =>
      have hg : ¬ ((g : Int) < 0) := by omega
      simp [List.getElem?_take, List.getElem?_drop, hg]
  | null => simp
  | raw => simp
  | ints planes => simp


/-- C26, what the code does: after a successful `create_pipeline` on the int8 path, the
dequantize sub-layer of every group `g` has been handed the one-element view
`bias_data.range(g, 1)` with `bias_data_size` 1, that is the single bias `bias_data[g]`, for
all the `num_output / group` output channels of the group; the requantize sub-layer built
by `create_requantize_op` for the group is handed the same view; the float path adds
`bias_data[num_output_g * g + p]` to output channel `p` of the group. -/
theorem int8_bias_by_group (self : ConvolutionDepthWise) (env : Env) (opt : Opt)
    (hopt : opt.use_int8_inference = true)
    (hkind : self.weight_data.elemsize = 1 ∨
      (self.weight_data.elemsize = 4 ∧ self.int8_scale_term ≠ 0 ∧ 0 < self.weight_data_size ∧
        env.granted AllocSite.int8_weight_data = true))
    (hgroup : 0 < self.group)
    (hread : ∀ g, g < self.group.toNat →
      ∃ ws bs, self.weight_data_int8_scales.float_at g = some ws ∧
        self.bottom_blob_int8_scales.float_at g = some bs) :
    ∃ layer1, self.create_pipeline env opt = some (0, layer1) ∧
      (∀ g, g < self.group.toNat → ∃ op, layer1.dequantize_ops[g]? = some op ∧
        op.bias_data = self.bias_data.range g 1 ∧ op.bias_data_size = 1 ∧
        op.bias_data.float_at 0 = self.bias_data.float_at g ∧
        op.bias_data.float_at 1 = none) ∧
      (∀ g r, self.make_requantize_op g = some r →
        r.1.bias_data = self.bias_data.range g 1 ∧ r.1.bias_data_size = 1) ∧
      ∀ g p : Nat, self.bias_term ≠ 0 →
        self.bias_at (self.num_output.tdiv self.group * g + p) =
          self.bias_data.float_at (self.num_output.tdiv self.group * g + p) := by
  obtain ⟨layer1, hc, -, hops⟩ := self.create_pipeline_int8 env opt hopt hkind hgroup hread
  refine ⟨layer1, hc, fun g hg => ?_, fun g r hr => ?_, fun g p hb => by simp [bias_at, hb]⟩
  · obtain ⟨ws, bs, hws, hbs⟩ := hread g hg
    have hmk : ∃ s, self.make_dequantize_op g =
        some ({ scale := s, bias_term := self.bias_term, bias_data_size := 1
                bias_data := self.bias_data.range g 1 }, if ws = 0 then [] else [(1, bs * ws)]) := by
      by_cases h0 : ws = 0
      · exact ⟨0, by rw [(self.make_dequantize_op_eq g ws hws).1 h0, if_pos h0]⟩
      · exact ⟨1 / (bs * ws), by
          rw [(self.make_dequantize_op_eq g ws hws).2 h0 bs hbs, if_neg h0]⟩
    obtain ⟨s, hs⟩ := hmk
    refine ⟨_, by rw [hops g hg, hs]; rfl, rfl, rfl, ?_, ?_⟩
    · exact (range_float_at self.bias_data g).1
    · exact (range_float_at self.bias_data g).2
  · unfold make_requantize_op at hr
    rw [Option.bind_eq_some] at hr
    obtain ⟨ws, -, hr⟩ := hr
    split at hr
    · simp only [Option.some.injEq] at hr
      rw [← hr]
      exact ⟨rfl, rfl⟩
    · rw [Option.map_eq_some'] at hr
      obtain ⟨bs, -, hr⟩ := hr
      rw [← hr]
      exact ⟨rfl, rfl⟩

/-- Instance of `int8_bias_by_group`, the failing input: one group with two output
channels and the bias `[10, 20]`; the dequantize sub-layer of the group holds the single
bias `10`, the float path adds `20` to output channel 1. -/
theorem int8_bias_by_group_witness :
    Sample.opt_int8.use_int8_inference = true ∧ 0 < Sample.int8_grouped.group ∧
    (∃ layer1 op, Sample.int8_grouped.create_pipeline Sample.env Sample.opt_int8 =
        some (0, layer1) ∧ layer1.dequantize_ops[0]? = some op ∧
      op.bias_data_size = 1 ∧ op.bias_data.float_at 0 = some 10 ∧
      op.bias_data.float_at 1 = none) ∧
    Sample.int8_grouped.bias_at
      (Sample.int8_grouped.num_output.tdiv Sample.int8_grouped.group * 0 + 1) = some 20 := by
  have hw : Sample.int8_grouped.weight_data_int8_scales.float_at 0 = some 2 := by
    simp [Sample.int8_grouped, Sample.vec, Mat.float_at, Mat.read_float, at?]
  have hb : Sample.int8_grouped.bottom_blob_int8_scales.float_at 0 = some 4 := by
    simp [Sample.int8_grouped, Sample.vec, Mat.float_at, Mat.read_float, at?]
  have h10 : Sample.int8_grouped.bias_data.float_at 0 = some 10 := by
    simp [Sample.int8_grouped, Sample.vec, Mat.float_at, Mat.read_float, at?]
  have h20 : Sample.int8_grouped.bias_at
      (Sample.int8_grouped.num_output.tdiv Sample.int8_grouped.group * 0 + 1) = some 20 := by
    simp [Sample.int8_grouped, Sample.int8_layer, Sample.vec, bias_at, Mat.float_at,
      Mat.read_float, at?]
  obtain ⟨layer1, hc, hops, -, -⟩ :=
    int8_bias_by_group Sample.int8_grouped Sample.env Sample.opt_int8 rfl (Or.inl rfl)
      (by decide)
      (fun g hg => by
        have hg0 : g = 0 := by
          have : g < 1 := hg
          omega
        subst hg0
        exact ⟨2, 4, hw, hb⟩)
  obtain ⟨op, hop, -, hsize, h0, h1⟩ := hops 0 (by decide)
  exact ⟨rfl, by decide, ⟨layer1, op, hc, hop, hsize, by rw [h0]; exact h10, h1⟩, h20⟩

end ConvolutionDepthWise

/-! ## The 32-bit accumulator of the int8 path -/

/-- A value inside the range of a 32-bit `int` is not changed by the wrap. -/
theorem wrap32_of_range (x : Int) (h0 : -2147483648 ≤ x) (h1 : x < 2147483648) :
    wrap32 x = x := by
  unfold wrap32
  rw [Int.emod_eq_of_lt (by omega) (by omega)]
  omega

/-- The product of two signed 8-bit values is at most `16384 = 128 * 128` in absolute
value. -/
theorem int8_product_bound (v w : Int) (hv : -128 ≤ v ∧ v ≤ 127) (hw : -128 ≤ w ∧ w ≤ 127) :
    -16384 ≤ v * w ∧ v * w ≤ 16384 := by
  have h1 : |v| ≤ 128 := abs_le.mpr ⟨by omega, by omega⟩
  have h2 : |w| ≤ 128 := abs_le.mpr ⟨by omega, by omega⟩
  have h3 : |v * w| ≤ 128 * 128 := by
    rw [abs_mul]
    exact mul_le_mul h1 h2 (abs_nonneg _) (by norm_num)
  have h4 := abs_le.mp h3
  constructor <;> omega

/-- Gathering one-element lists and flattening them is gathering the elements. -/
theorem collect_units_flatten {β : Type} (f : Nat → Option β) (n : Nat) :
    (collect (fun k => (f k).map fun x => [x]) n).map List.flatten = collect f n := by
  induction n with
  | zero => rfl
  | succ n ih =>
    rw [collect_succ, collect_succ, ← ih]
    cases collect (fun k => (f k).map fun x => [x]) n with
    | none => rfl
    | some xs =>
      cases f n with
      | none => rfl
      | some y => simp

/-- A running 32-bit sum over `n` batches of `L` products each, every product at most 16384
in absolute value: as long as the number of products stays within 131071 no step wraps, the
result is the start value plus the exact sum, and the exact sum is at most `16384` times the
number of products in absolute value. -/
theorem accumulate_exact (step : Nat → Int → Option Int) (F : Nat → Option (List Int))
    (L n : Nat)
    (hF : ∀ q ps, q < n → F q = some ps →
      ps.length = L ∧ -(16384 * (L : Int)) ≤ ps.sum ∧ ps.sum ≤ 16384 * (L : Int))
    (hstep : ∀ q s (c : Nat), q < n → -(16384 * (c : Int)) ≤ s → s ≤ 16384 * (c : Int) →
      c + L ≤ 131071 → step q s = (F q).map fun ps => s + ps.sum)
    (s : Int) (c : Nat) (hs0 : -(16384 * (c : Int)) ≤ s) (hs1 : s ≤ 16384 * (c : Int))
    (hc : c + n * L ≤ 131071) :
    accumulate step n s = ((collect F n).map List.flatten).map (fun ps => s + ps.sum) ∧
    ∀ pss, collect F n = some pss →
      pss.flatten.length = n * L ∧ -(16384 * ((n * L : Nat) : Int)) ≤ pss.flatten.sum ∧
        pss.flatten.sum ≤ 16384 * ((n * L : Nat) : Int) := by
  induction n with
  | zero =>
    refine ⟨by simp [accumulate, collect], fun pss h => ?_⟩
    simp only [collect, Option.some.injEq] at h
    subst h
    simp
  | succ n ih =>
    have hmul : (n + 1) * L = n * L + L := Nat.succ_mul n L
    obtain ⟨ih1, ih2⟩ := ih (fun q ps hq => hF q ps (by omega))
      (fun q s c hq => hstep q s c (by omega)) (by omega)
    constructor
    · rw [accumulate_succ, collect_succ, ih1]
      cases hcol : collect F n with
      | none => rfl
      | some pss =>
        obtain ⟨-, hb0, hb1⟩ := ih2 pss hcol
        simp only [Option.map_some', Option.some_bind]
        rw [hstep n (s + pss.flatten.sum) (c + n * L) (by omega)
          (by push_cast at hb0 ⊢; omega) (by push_cast at hb1 ⊢; omega) (by omega)]
        cases F n with
        | none => rfl
        | some ps => simp [add_assoc]
    · intro pss' h
      rw [collect_succ, Option.bind_eq_some] at h
      obtain ⟨pss, hcol, h⟩ := h
      rw [Option.map_eq_some'] at h
      obtain ⟨ps, hps, rfl⟩ := h
      obtain ⟨hl, hb0, hb1⟩ := ih2 pss hcol
      obtain ⟨hl1, hc0, hc1⟩ := hF n ps (by omega) hps
      simp only [List.flatten_append, List.flatten_cons, List.flatten_nil, List.append_nil,
        List.length_append, List.sum_append, hl, hl1]
      rw [hmul]
      push_cast at hb0 hb1 ⊢
      refine ⟨rfl, by omega, by omega⟩

namespace ConvolutionDepthWise

/-- The taps of one input channel accumulated in 32 bits from a start value that stands
for `c` products: with int8 inputs and weights and at most 131071 products in all, the
result is the start value plus the exact sum of the products. -/
theorem taps_exact (ofs : List Int) (sptr kptr : Int → Option Int) (maxk : Int)
    (hin : ∀ o v, sptr o = some v → -128 ≤ v ∧ v ≤ 127)
    (hwt : ∀ k v, kptr k = some v → -128 ≤ v ∧ v ≤ 127)
    (s : Int) (c : Nat) (hs0 : -(16384 * (c : Int)) ≤ s) (hs1 : s ≤ 16384 * (c : Int))
    (hc : c + maxk.toNat ≤ 131071) :
    taps fma_int ofs sptr kptr maxk s =
      (int_tap_products ofs sptr kptr maxk).map (fun ps => s + ps.sum) ∧
    ∀ ps, int_tap_products ofs sptr kptr maxk = some ps →
      ps.length = maxk.toNat ∧ -(16384 * (maxk.toNat : Int)) ≤ ps.sum ∧
        ps.sum ≤ 16384 * (maxk.toNat : Int) := by
  have hflat : (collect (fun k => ((at? ofs k).bind fun o => (sptr o).bind fun val =>
      (kptr k).map fun w => val * w).map fun x => [x]) maxk.toNat).map List.flatten =
      int_tap_products ofs sptr kptr maxk := by
    unfold int_tap_products
    exact collect_units_flatten _ _
  have h := accumulate_exact
    (fun k s => (at? ofs k).bind fun o => (sptr o).bind fun val =>
      (kptr k).map fun w => fma_int s val w)
    (fun k => ((at? ofs k).bind fun o => (sptr o).bind fun val =>
      (kptr k).map fun w => val * w).map fun x => [x]) 1 maxk.toNat
    (fun q ps _ hps => by
      rw [Option.map_eq_some'] at hps
      obtain ⟨x, hx, rfl⟩ := hps
      rw [Option.bind_eq_some] at hx
      obtain ⟨o, -, hx⟩ := hx
      rw [Option.bind_eq_some] at hx
      obtain ⟨v, hv, hx⟩ := hx
      rw [Option.map_eq_some'] at hx
      obtain ⟨w, hw, rfl⟩ := hx
      have := int8_product_bound v w (hin o v hv) (hwt _ w hw)
      simp only [List.length_singleton, List.sum_singleton, Nat.cast_one, mul_one]
      exact ⟨trivial, this.1, this.2⟩)
    (fun q s c _ h0 h1 hc1 => by
      beta_reduce
      cases at? ofs q with
      | none => rfl
      | some o =>
        simp only [Option.some_bind]
        cases hv : sptr o with
        | none => rfl
        | some v =>
          simp only [Option.some_bind]
          cases hw : kptr q with
          | none => rfl
          | some w =>
            have := int8_product_bound v w (hin o v hv) (hwt _ w hw)
            simp only [Option.map_some', List.sum_singleton, Option.some.injEq]
            unfold fma_int
            exact wrap32_of_range _ (by omega) (by omega))
    s c hs0 hs1 (by omega)
  rw [hflat] at h
  unfold taps
  refine ⟨h.1, fun ps hps => ?_⟩
  rw [← hflat, Option.map_eq_some'] at hps
  obtain ⟨pss, hpss, rfl⟩ := hps
  have := h.2 pss hpss
  simpa using this


/-- The taps of the input channels of a group accumulated in 32 bits from zero: with int8
inputs and weights and at most 131071 products, the result is the exact sum of the
products. -/
theorem grouped_pixel_exact (K : Kernel Int) (hK : K.fma = fma_int)
    (hin : ∀ q k v, K.input q k = some v → -128 ≤ v ∧ v ≤ 127)
    (hwt : ∀ k v, K.weight k = some v → -128 ≤ v ∧ v ≤ 127)
    (channels_g num_output_g : Int) (g p i j : Nat)
    (hn : channels_g.toNat * K.maxk.toNat ≤ 131071) :
    grouped_pixel K channels_g num_output_g g p i j 0 =
      (int_grouped_products K channels_g num_output_g g p i j).map List.sum ∧
    ∀ ps, int_grouped_products K channels_g num_output_g g p i j = some ps →
      ps.length = channels_g.toNat * K.maxk.toNat ∧
      -(16384 * ((channels_g.toNat * K.maxk.toNat : Nat) : Int)) ≤ ps.sum ∧
      ps.sum ≤ 16384 * ((channels_g.toNat * K.maxk.toNat : Nat) : Int) := by
  have h := accumulate_exact
    (fun q s => taps K.fma K.ofs
      (fun o => K.input (channels_g * g + q) (K.w * (i * K.stride_h) + j * K.stride_w + o))
      (fun k => K.weight
        (K.maxk * channels_g * num_output_g * g + K.maxk * channels_g * p + K.maxk * q + k))
      K.maxk s)
    (fun q => int_tap_products K.ofs
      (fun o => K.input (channels_g * g + q) (K.w * (i * K.stride_h) + j * K.stride_w + o))
      (fun k => K.weight
        (K.maxk * channels_g * num_output_g * g + K.maxk * channels_g * p + K.maxk * q + k))
      K.maxk)
    K.maxk.toNat channels_g.toNat
    (fun q ps hq hps => by
      have hL : K.maxk.toNat ≤ channels_g.toNat * K.maxk.toNat :=
        Nat.le_mul_of_pos_left _ (by omega)
      exact (taps_exact K.ofs _ _ K.maxk (fun o v hv => hin _ _ v hv)
        (fun k v hv => hwt _ v hv) 0 0 (by simp) (by simp) (by omega)).2 ps hps)
    (fun q s c hq h0 h1 hc => by
      beta_reduce
      rw [hK]
      exact (taps_exact K.ofs _ _ K.maxk (fun o v hv => hin _ _ v hv)
        (fun k v hv => hwt _ v hv) s c h0 h1 hc).1)
    0 0 (by simp) (by simp) (by omega)
  unfold grouped_pixel int_grouped_products
  refine ⟨by rw [h.1]; simp [Option.map_map, Function.comp_def], fun ps hps => ?_⟩
  rw [Option.map_eq_some'] at hps
  obtain ⟨pss, hpss, rfl⟩ := hps
  exact h.2 pss hpss

/-- The taps of one channel of a depth-wise convolution accumulated in 32 bits from zero:
with int8 inputs and weights and at most 131071 taps, the result is the exact sum of the
products. -/
theorem depthwise_pixel_exact (K : Kernel Int) (hK : K.fma = fma_int)
    (hin : ∀ q k v, K.input q k = some v → -128 ≤ v ∧ v ≤ 127)
    (hwt : ∀ k v, K.weight k = some v → -128 ≤ v ∧ v ≤ 127)
    (g i j : Nat) (hn : K.maxk.toNat ≤ 131071) :
    depthwise_pixel K g i j 0 = (int_depthwise_products K g i j).map List.sum ∧
    ∀ ps, int_depthwise_products K g i j = some ps →
      ps.length = K.maxk.toNat ∧ -(16384 * (K.maxk.toNat : Int)) ≤ ps.sum ∧
      ps.sum ≤ 16384 * (K.maxk.toNat : Int) := by
  have h := taps_exact K.ofs
    (fun o => K.input g (K.w * (i * K.stride_h) + j * K.stride_w + o))
    (fun k => K.weight (K.maxk * g + k)) K.maxk (fun o v hv => hin _ _ v hv)
    (fun k v hv => hwt _ v hv) 0 0 (by simp) (by simp) (by omega)
  unfold depthwise_pixel int_depthwise_products
  rw [hK]
  refine ⟨by rw [h.1]; simp, h.2⟩

/-- C27: in the int8 path, for inputs and weights that are signed 8-bit values, a kernel
size and a number of channels per group that are not negative, and
`n = kernel_w * kernel_h * (channels / group) <= 131071` taps: the 32-bit accumulator of an
output pixel of the grouped kernels equals the exact integer sum of the `n` products, whose
absolute value is at most `16384 * n`; and when `channels / group` is 1 so does the
accumulator of an output pixel of the depth-wise kernels, with `n = kernel_w * kernel_h`. A
read outside the input or the weights is a fault on both sides. -/
theorem int8_accumulator_exact (self : ConvolutionDepthWise) (bordered : Mat)
    (ofs : List Int) (channels : Int) (g p i j : Nat)
    (hin : ∀ q k v, bordered.read_int q k = some v → -128 ≤ v ∧ v ≤ 127)
    (hwt : ∀ k v, self.weight_data.read_int 0 k = some v → -128 ≤ v ∧ v ≤ 127)
    (hmaxk : 0 ≤ self.kernel_w * self.kernel_h) (hcg : 0 ≤ channels.tdiv self.group)
    (hn : self.kernel_w * self.kernel_h * channels.tdiv self.group ≤ 131071) :
    (grouped_pixel (self.int8_kernel bordered ofs) (channels.tdiv self.group)
        (self.num_output.tdiv self.group) g p i j 0 =
      (int_grouped_products (self.int8_kernel bordered ofs) (channels.tdiv self.group)
        (self.num_output.tdiv self.group) g p i j).map List.sum ∧
    ∀ ps, int_grouped_products (self.int8_kernel bordered ofs) (channels.tdiv self.group)
        (self.num_output.tdiv self.group) g p i j = some ps →
      (ps.length : Int) = self.kernel_w * self.kernel_h * channels.tdiv self.group ∧
      |ps.sum| ≤ 16384 * (self.kernel_w * self.kernel_h * channels.tdiv self.group) ∧
      wrap32 ps.sum = ps.sum) ∧
    (channels.tdiv self.group = 1 →
      depthwise_pixel (self.int8_kernel bordered ofs) g i j 0 =
        (int_depthwise_products (self.int8_kernel bordered ofs) g i j).map List.sum ∧
      ∀ ps, int_depthwise_products (self.int8_kernel bordered ofs) g i j = some ps →
        (ps.length : Int) = self.kernel_w * self.kernel_h ∧
        |ps.sum| ≤ 16384 * (self.kernel_w * self.kernel_h) ∧ wrap32 ps.sum = ps.sum) := by
  have hmk : (self.int8_kernel bordered ofs).maxk = self.kernel_w * self.kernel_h := rfl
  have hcast : (((channels.tdiv self.group).toNat * (self.kernel_w * self.kernel_h).toNat : Nat)
      : Int) = self.kernel_w * self.kernel_h * channels.tdiv self.group := by
    push_cast
    rw [Int.toNat_of_nonneg hmaxk, Int.toNat_of_nonneg hcg]
    ring
  have hnat : (channels.tdiv self.group).toNat * (self.kernel_w * self.kernel_h).toNat ≤
      131071 := by
    have : (((channels.tdiv self.group).toNat * (self.kernel_w * self.kernel_h).toNat : Nat)
        : Int) ≤ 131071 := by rw [hcast]; exact hn
    exact_mod_cast this
  constructor
  · obtain ⟨h1, h2⟩ := grouped_pixel_exact (self.int8_kernel bordered ofs) rfl hin hwt
      (channels.tdiv self.group) (self.num_output.tdiv self.group) g p i j
      (by rw [hmk]; exact hnat)
    refine ⟨h1, fun ps hps => ?_⟩
    obtain ⟨hl, hb0, hb1⟩ := h2 ps hps
    rw [hmk, hcast] at hb0 hb1
    rw [hmk] at hl
    refine ⟨by rw [hl, hcast], abs_le.mpr ⟨hb0, hb1⟩, wrap32_of_range _ (by omega) (by omega)⟩
  · intro hone
    rw [hone, mul_one] at hn
    have hnat1 : (self.kernel_w * self.kernel_h).toNat ≤ 131071 := by omega
    obtain ⟨h1, h2⟩ := depthwise_pixel_exact (self.int8_kernel bordered ofs) rfl hin hwt g i j
      (by rw [hmk]; exact hnat1)
    refine ⟨h1, fun ps hps => ?_⟩
    obtain ⟨hl, hb0, hb1⟩ := h2 ps hps
    rw [hmk, Int.toNat_of_nonneg hmaxk] at hb0 hb1
    rw [hmk] at hl
    refine ⟨by rw [hl, Int.toNat_of_nonneg hmaxk], abs_le.mpr ⟨hb0, hb1⟩,
      wrap32_of_range _ (by omega) (by omega)⟩


/-- Every cell read from a blob built by `int8_blob` holds the fill value. -/
theorem int8_blob_read (w h c : Nat) (v : Int) (q k x : Int)
    (hx : (Sample.int8_blob w h c v).read_int q k = some x) : x = v := by
  unfold Mat.read_int Sample.int8_blob at hx
  simp only [Option.bind_eq_some] at hx
  obtain ⟨pl, hpl, hx⟩ := hx
  unfold at? at hpl hx
  split at hpl
  · exact absurd hpl (by simp)
  · split at hx
    · exact absurd hx (by simp)
    · have h1 : pl ∈ List.replicate c (List.replicate (w * h) v) :=
        List.mem_iff_getElem?.mpr ⟨_, hpl⟩
      rw [List.eq_of_mem_replicate h1] at hx
      exact List.eq_of_mem_replicate (List.mem_iff_getElem?.mpr ⟨_, hx⟩)

/-- Every cell read from a tensor built by `bytes` is one of its elements. -/
theorem bytes_read (xs : List Int) (k x : Int)
    (hx : (Sample.bytes xs).read_int 0 k = some x) : x ∈ xs := by
  unfold Mat.read_int Sample.bytes at hx
  have h0 : at? [xs] 0 = some xs := rfl
  simp only [h0, Option.some_bind] at hx
  unfold at? at hx
  split at hx
  · exact absurd hx (by simp)
  · exact List.mem_iff_getElem?.mpr ⟨_, hx⟩

/-- Instance of `int8_accumulator_exact`: the kernel 3 wide and 1 high with weights 2 on
an int8 input filled with 5; the accumulator of the second channel is the exact sum
`10 + 10 + 10`. -/
theorem int8_accumulator_exact_witness :
    (0 : Int) ≤ (Sample.int8_wide 1 0).kernel_w * (Sample.int8_wide 1 0).kernel_h ∧
    (Sample.int8_wide 1 0).kernel_w * (Sample.int8_wide 1 0).kernel_h *
      (2 : Int).tdiv (Sample.int8_wide 1 0).group ≤ 131071 ∧
    int_depthwise_products
      ((Sample.int8_wide 1 0).int8_kernel (Sample.int8_blob 3 2 2 5) [0, 1, 2]) 1 0 0 =
      some [10, 10, 10] ∧
    depthwise_pixel ((Sample.int8_wide 1 0).int8_kernel (Sample.int8_blob 3 2 2 5) [0, 1, 2])
      1 0 0 0 =
      (int_depthwise_products
        ((Sample.int8_wide 1 0).int8_kernel (Sample.int8_blob 3 2 2 5) [0, 1, 2]) 1 0 0).map
        List.sum := by
  have h := int8_accumulator_exact (Sample.int8_wide 1 0) (Sample.int8_blob 3 2 2 5) [0, 1, 2]
    2 1 0 0 0
    (fun q k v hv => by
      rw [int8_blob_read 3 2 2 5 q k v hv]
      decide)
    (fun k v hv => by
      have hm := bytes_read _ k v hv
      simp only [List.mem_cons, List.mem_singleton, List.not_mem_nil, or_false] at hm
      omega)
    (by decide) (by decide) (by decide)
  exact ⟨by decide, by decide, by decide, (h.2 (by decide)).1⟩

end ConvolutionDepthWise

namespace ConvolutionDepthWise

/-! ## The sub-layer vectors across `create_pipeline` and `destroy_pipeline` -/

/-- The quantization of the weights leaves the group count and the five vectors alone. -/
theorem quantize_weight_vectors (self : ConvolutionDepthWise) (env : Env)
    (layer1 : ConvolutionDepthWise) (h : self.quantize_weight env = some (Sum.inr layer1)) :
    layer1.group = self.group ∧ layer1.quantize_ops = self.quantize_ops ∧
      layer1.dequantize_ops = self.dequantize_ops ∧
      layer1.requantize_ops = self.requantize_ops ∧
      layer1.dequantize_scales = self.dequantize_scales ∧
      layer1.requantize_scales = self.requantize_scales := by
  unfold quantize_weight at h
  split at h
  · simp only at h
    split at h
    · simp at h
    · rw [Option.bind_eq_some] at h
      obtain ⟨q, -, h⟩ := h
      rw [Option.map_eq_some'] at h
      obtain ⟨parts, -, h⟩ := h
      simp only [Sum.inr.injEq] at h
      rw [← h]
      exact ⟨rfl, rfl, rfl, rfl, rfl, rfl⟩
  · simp only [Option.some.injEq, Sum.inr.injEq] at h
    rw [← h]
    exact ⟨rfl, rfl, rfl, rfl, rfl, rfl⟩

/-- What `make_ops` does to the vectors: on the int8 path the two vectors of sub-layers are
resized to `group` and `group` scales are appended; otherwise nothing is touched. -/
theorem make_ops_vectors (self layer1 : ConvolutionDepthWise)
    (h : self.make_ops = some layer1) :
    layer1.group = self.group ∧ layer1.requantize_ops = self.requantize_ops ∧
      layer1.requantize_scales = self.requantize_scales ∧
      (self.use_int8_inference = true →
        layer1.quantize_ops.length = self.group.toNat ∧
        layer1.dequantize_ops.length = self.group.toNat ∧
        layer1.dequantize_scales.length =
          self.dequantize_scales.length + self.group.toNat) ∧
      (self.use_int8_inference = false →
        layer1.quantize_ops = self.quantize_ops ∧
        layer1.dequantize_ops = self.dequantize_ops ∧
        layer1.dequantize_scales = self.dequantize_scales) := by
  unfold make_ops at h
  split at h
  · rename_i hint8
    split at h
    · exact absurd h (by simp)
    · rw [Option.bind_eq_some] at h
      obtain ⟨q, hq, h⟩ := h
      rw [Option.map_eq_some'] at h
      obtain ⟨built, hb, h⟩ := h
      rw [← h]
      refine ⟨rfl, rfl, rfl, fun _ => ⟨collect_length hq, ?_, ?_⟩, fun hf => ?_⟩
      · simp only [List.length_map]
        exact collect_length hb
      · simp only [List.length_append, List.length_map]
        rw [collect_length hb]
      · rw [hint8] at hf
        exact absurd hf (by simp)
  · rename_i hint8
    simp only [Option.some.injEq] at h
    rw [← h]
    exact ⟨rfl, rfl, rfl, fun ht => absurd ht hint8, fun _ => ⟨rfl, rfl, rfl⟩⟩

/-- What a `create_pipeline` that returned `0` does to the vectors. -/
theorem create_pipeline_vectors (self : ConvolutionDepthWise) (env : Env) (opt : Opt)
    (layer1 : ConvolutionDepthWise) (h : self.create_pipeline env opt = some (0, layer1)) :
    layer1.group = self.group ∧ layer1.requantize_ops = self.requantize_ops ∧
      layer1.requantize_scales = self.requantize_scales ∧
      (layer1.use_int8_inference = true →
        layer1.quantize_ops.length = self.group.toNat ∧
        layer1.dequantize_ops.length = self.group.toNat ∧
        layer1.dequantize_scales.length =
          self.dequantize_scales.length + self.group.toNat) ∧
      (layer1.use_int8_inference = false →
        layer1.quantize_ops = self.quantize_ops ∧
        layer1.dequantize_ops = self.dequantize_ops ∧
        layer1.dequantize_scales = self.dequantize_scales) := by
  unfold create_pipeline at h
  simp only at h
  split at h
  · simp at h
  · rw [Option.bind_eq_some] at h
    obtain ⟨r, hr, h⟩ := h
    cases r with
    | inl status =>
      simp only [Option.some.injEq, Prod.mk.injEq] at h
      have := quantize_weight_status _ env status hr
      omega
    | inr layer2 =>
      simp only at h
      rw [Option.map_eq_some'] at h
      obtain ⟨layer3, h3, h⟩ := h
      simp only [Prod.mk.injEq, true_and] at h
      subst h
      obtain ⟨g2, q2, d2, r2, s2, rs2⟩ := quantize_weight_vectors _ env _ hr
      obtain ⟨g3, r3, rs3, hon, hoff⟩ := make_ops_vectors _ _ h3
      have hflag := make_ops_flag _ _ h3
      rw [hflag]
      simp only [g2, q2, d2, s2] at hon hoff
      exact ⟨by rw [g3, g2], by rw [r3, r2], by rw [rs3, rs2], hon, hoff⟩

/-- The state of the vectors along a sequence of successful calls in which no
`create_pipeline` follows another one directly, `created` telling whether the call before
the sequence was a `create_pipeline`. -/
theorem run_calls_state (env : Env) (calls : List PipelineCall) :
    ∀ (created : Bool) (self layer1 : ConvolutionDepthWise),
      creates_apart created calls = true →
      (self.dequantize_scales.length = self.dequantize_ops.length ∧
        self.dequantize_ops.length = self.quantize_ops.length) →
      (created = false → self.quantize_ops = [] ∧ self.dequantize_ops = [] ∧
        self.requantize_ops = [] ∧ self.dequantize_scales = [] ∧
        self.requantize_scales = []) →
      (created = true → self.use_int8_inference = true →
        self.dequantize_ops.length = self.group.toNat) →
      run_calls env calls self = some layer1 →
      (layer1.dequantize_scales.length = layer1.dequantize_ops.length ∧
        layer1.dequantize_ops.length = layer1.quantize_ops.length) ∧
      (created_last created calls = false → layer1.quantize_ops = [] ∧
        layer1.dequantize_ops = [] ∧ layer1.requantize_ops = [] ∧
        layer1.dequantize_scales = [] ∧ layer1.requantize_scales = []) ∧
      (created_last created calls = true → layer1.use_int8_inference = true →
        layer1.dequantize_ops.length = layer1.group.toNat) := by
  induction calls with
  | nil =>
    intro created self layer1 _ heq hoff hon hrun
    simp only [run_calls, Option.some.injEq] at hrun
    subst hrun
    exact ⟨heq, hoff, hon⟩
  | cons c cs ih =>
    intro created self layer1 hap heq hoff hon hrun
    cases c with
    | create opt =>
      simp only [creates_apart, Bool.and_eq_true, Bool.not_eq_true'] at hap
      obtain ⟨hcr, hap⟩ := hap
      obtain ⟨hq, hd, hr, hs, hrs⟩ := hoff hcr
      simp only [run_calls, PipelineCall.apply] at hrun
      rw [Option.bind_eq_some] at hrun
      obtain ⟨r, hr1, hrun⟩ := hrun
      split at hrun
      · rename_i hstatus
        obtain ⟨status, layer2⟩ := r
        simp only at hstatus
        subst hstatus
        obtain ⟨hg, -, -, hton, htoff⟩ := create_pipeline_vectors self env opt layer2 hr1
        refine ih true layer2 layer1 hap ?_ (fun hf => absurd hf (by simp)) ?_ hrun
        · cases hflag : layer2.use_int8_inference with
          | true =>
            obtain ⟨h1, h2, h3⟩ := hton hflag
            rw [hs] at h3
            simp only [List.length_nil, Nat.zero_add] at h3
            exact ⟨by rw [h3, h2], by rw [h2, h1]⟩
          | false =>
            obtain ⟨h1, h2, h3⟩ := htoff hflag
            rw [h1, h2, h3, hq, hd, hs]
            exact ⟨rfl, rfl⟩
        · intro _ hflag
          rw [(hton hflag).2.1, hg]
      · exact absurd hrun (by simp)
    | destroy opt =>
      simp only [creates_apart] at hap
      simp only [run_calls, PipelineCall.apply, Option.some_bind, destroy_pipeline, if_true]
        at hrun
      exact ih false _ layer1 hap ⟨rfl, rfl⟩ (fun _ => ⟨rfl, rfl, rfl, rfl, rfl⟩)
        (fun hf => absurd hf (by simp)) hrun

/-- The flag `created_last` tells the kind of the last call of a sequence. -/
theorem created_last_getLast (calls : List PipelineCall) :
    ∀ created : Bool,
      (∀ o, calls.getLast? = some (PipelineCall.create o) →
        created_last created calls = true) ∧
      (∀ o, calls.getLast? = some (PipelineCall.destroy o) →
        created_last created calls = false) := by
  induction calls with
  | nil => intro created; simp
  | cons c cs ih =>
    intro created
    cases cs with
    | nil =>
      cases c with
      | create opt => simp [created_last]
      | destroy opt => simp [created_last]
    | cons c1 cs1 =>
      rw [List.getLast?_cons_cons]
      cases c with
      | create opt => exact ih true
      | destroy opt => exact ih false

/-- C28, as stated, fails: two successful `create_pipeline` calls in a row on a freshly
constructed int8 layer of two groups leave two quantize and two dequantize sub-layers and
four entries in `dequantize_scales`. -/
theorem second_create_pipeline_appends_scales :
    (Sample.int8_layer.quantize_ops = [] ∧ Sample.int8_layer.dequantize_ops = [] ∧
      Sample.int8_layer.dequantize_scales = []) ∧
    (run_calls Sample.env
        [PipelineCall.create Sample.opt_int8, PipelineCall.create Sample.opt_int8]
        Sample.int8_layer).map
      (fun l => (l.use_int8_inference, l.quantize_ops.length, l.dequantize_ops.length,
        l.dequantize_scales.length)) = some (true, 2, 2, 4) :=
  ⟨⟨rfl, rfl, rfl⟩, by decide⟩


/-- C28, amended: starting from a layer whose five vectors are empty, as the constructor
leaves them, after any sequence of successful `create_pipeline` and `destroy_pipeline` calls
in which no `create_pipeline` follows another one without a `destroy_pipeline` in between,
`dequantize_scales` has the same length as `dequantize_ops` and `quantize_ops`: `group`
after a `create_pipeline` that leaves int8 inference in use, 0 after a `destroy_pipeline`,
which empties the five vectors and returns `0`. In general a successful `create_pipeline`
with int8 inference in use resizes the two vectors of sub-layers to `group` and appends
`group` entries to `dequantize_scales`, whatever it held. -/
theorem pipeline_lengths (self : ConvolutionDepthWise) (env : Env) (calls : List PipelineCall)
    (layer1 : ConvolutionDepthWise)
    (hstart : self.quantize_ops = [] ∧ self.dequantize_ops = [] ∧ self.requantize_ops = [] ∧
      self.dequantize_scales = [] ∧ self.requantize_scales = [])
    (hapart : creates_apart false calls = true)
    (hrun : run_calls env calls self = some layer1) :
    (layer1.dequantize_scales.length = layer1.dequantize_ops.length ∧
      layer1.dequantize_ops.length = layer1.quantize_ops.length) ∧
    (∀ o, calls.getLast? = some (PipelineCall.create o) → layer1.use_int8_inference = true →
      layer1.dequantize_ops.length = layer1.group.toNat) ∧
    (∀ o, calls.getLast? = some (PipelineCall.destroy o) →
      layer1.quantize_ops = [] ∧ layer1.dequantize_ops = [] ∧ layer1.requantize_ops = [] ∧
        layer1.dequantize_scales = [] ∧ layer1.requantize_scales = []) ∧
    (∀ (l : ConvolutionDepthWise) (o : Opt), (l.destroy_pipeline o).1 = 0 ∧
      (l.destroy_pipeline o).2.quantize_ops = [] ∧ (l.destroy_pipeline o).2.dequantize_ops = [] ∧
      (l.destroy_pipeline o).2.requantize_ops = [] ∧
      (l.destroy_pipeline o).2.dequantize_scales = [] ∧
      (l.destroy_pipeline o).2.requantize_scales = []) ∧
    (∀ (l l1 : ConvolutionDepthWise) (o : Opt), l.create_pipeline env o = some (0, l1) →
      l1.use_int8_inference = true →
      l1.quantize_ops.length = l.group.toNat ∧ l1.dequantize_ops.length = l.group.toNat ∧
        l1.dequantize_scales.length = l.dequantize_scales.length + l.group.toNat) := by
  obtain ⟨h1, h2, h3⟩ := run_calls_state env calls false self layer1 hapart
    (by rw [hstart.1, hstart.2.1, hstart.2.2.2.1]; exact ⟨rfl, rfl⟩) (fun _ => hstart)
    (fun hf => absurd hf (by simp)) hrun
  refine ⟨h1, fun o ho => h3 ((created_last_getLast calls false).1 o ho),
    fun o ho => h2 ((created_last_getLast calls false).2 o ho),
    fun l o => ⟨rfl, rfl, rfl, rfl, rfl, rfl⟩, fun l l1 o hc hflag => ?_⟩
  exact (create_pipeline_vectors l env o l1 hc).2.2.2.1 hflag

/-- Instance of `pipeline_lengths`: `create_pipeline`, `destroy_pipeline`,
`create_pipeline` on the int8 layer of two groups; the three lengths are 2 at the end. -/
theorem pipeline_lengths_witness :
    creates_apart false [PipelineCall.create Sample.opt_int8,
      PipelineCall.destroy Sample.opt_int8, PipelineCall.create Sample.opt_int8] = true ∧
    ∃ layer1, run_calls Sample.env [PipelineCall.create Sample.opt_int8,
        PipelineCall.destroy Sample.opt_int8, PipelineCall.create Sample.opt_int8]
        Sample.int8_layer = some layer1 ∧
      layer1.use_int8_inference = true ∧
      layer1.dequantize_scales.length = layer1.dequantize_ops.length ∧
      layer1.dequantize_ops.length = layer1.quantize_ops.length ∧
      layer1.dequantize_ops.length = layer1.group.toNat ∧ layer1.group.toNat = 2 := by
  have hrun : ∃ layer1, run_calls Sample.env [PipelineCall.create Sample.opt_int8,
      PipelineCall.destroy Sample.opt_int8, PipelineCall.create Sample.opt_int8]
      Sample.int8_layer = some layer1 ∧ layer1.use_int8_inference = true ∧
      layer1.group.toNat = 2 := ⟨_, rfl, rfl, rfl⟩
  obtain ⟨layer1, hr, hflag, hg⟩ := hrun
  obtain ⟨h1, h2, -, -, -⟩ := pipeline_lengths Sample.int8_layer Sample.env _ layer1
    ⟨rfl, rfl, rfl, rfl, rfl⟩ (by decide) hr
  exact ⟨by decide, layer1, hr, hflag, h1.1, h1.2, h2 Sample.opt_int8 rfl hflag, hg⟩

end ConvolutionDepthWise

namespace ConvolutionDepthWise

/-! ## The output of the float path -/

/-- On numbers the activation that allows for NaN is the activation in exact arithmetic. -/
theorem activation_float_num (self : ConvolutionDepthWise) (env : Env) (s : ℚ) :
    self.activation_float env (FloatValue.num s) =
      (self.activation env s).map FloatValue.num := by
  unfold activation_float activation
  by_cases h1 : self.activation_type = 1
  · simp only [if_pos h1, FloatValue.std_max, FloatValue.lt, Option.map_some']
    by_cases h : s < 0
    · simp [h, max_eq_right (le_of_lt h)]
    · simp [h, max_eq_left (not_lt.mp h)]
  · by_cases h2 : self.activation_type = 2
    · simp only [if_neg h1, if_pos h2]
      cases self.activation_params.float_at 0 with
      | none => rfl
      | some slope =>
        simp only [Option.map_some', Option.some.injEq, FloatValue.lt, FloatValue.mul]
        by_cases h : 0 < s
        · simp [h]
        · simp [h]
    · by_cases h3 : self.activation_type = 3
      · simp only [if_neg h1, if_neg h2, if_pos h3]
        cases self.activation_params.float_at 0 with
        | none => rfl
        | some lo =>
          cases self.activation_params.float_at 1 with
          | none => rfl
          | some hi =>
            simp only [Option.some_bind, Option.map_some', Option.some.injEq]
            by_cases ha : s < lo
            · by_cases hb : hi < lo
              · simp [ha, hb, FloatValue.lt]
              · simp [ha, hb, FloatValue.lt]
            · by_cases hb : hi < s
              · simp [ha, hb, FloatValue.lt]
              · simp [ha, hb, FloatValue.lt]
      · by_cases h4 : self.activation_type = 4
        · simp only [if_neg h1, if_neg h2, if_neg h3, if_pos h4, Option.map_some']
        · simp only [if_neg h1, if_neg h2, if_neg h3, if_neg h4, Option.map_some']

/-- A NaN sum comes out of every activation as NaN. -/
theorem activation_float_nan (self : ConvolutionDepthWise) (env : Env)
    (hparams : self.activation_type = 2 ∨ self.activation_type = 3 →
      ∃ a b, self.activation_params.float_at 0 = some a ∧
        (self.activation_type = 3 → self.activation_params.float_at 1 = some b)) :
    self.activation_float env FloatValue.nan = some FloatValue.nan := by
  unfold activation_float
  by_cases h1 : self.activation_type = 1
  · simp [if_pos h1, FloatValue.std_max, FloatValue.lt]
  · by_cases h2 : self.activation_type = 2
    · obtain ⟨a, b, ha, -⟩ := hparams (Or.inl h2)
      simp [if_neg h1, if_pos h2, ha, FloatValue.lt, FloatValue.mul]
    · by_cases h3 : self.activation_type = 3
      · obtain ⟨a, b, ha, hb⟩ := hparams (Or.inr h3)
        simp [if_neg h1, if_neg h2, if_pos h3, ha, hb h3, FloatValue.lt]
      · by_cases h4 : self.activation_type = 4
        · simp only [if_neg h1, if_neg h2, if_neg h3, if_pos h4]
        · simp only [if_neg h1, if_neg h2, if_neg h3, if_neg h4]


/-- The loops of the float path compute the elements as the claim words them. -/
theorem float_loops_eq (self : ConvolutionDepthWise) (env : Env) (K : Kernel ℚ)
    (hK : K.fma = fma_float) (channels outw outh : Int) :
    (if channels = self.group ∧ self.group = self.num_output then
        self.float_depthwise env K outw outh
      else self.float_grouped env K channels outw outh) =
      self.float_output_elements env K channels outw outh := by
  unfold float_output_elements
  split
  · unfold float_depthwise
    simp only [float_element_depthwise self env K hK]
  · unfold float_grouped
    simp only [float_element_grouped self env K hK]

/-- C15, as stated, fails: with the clamp to `[0, 1]` configured (`activation_type` 3), a
sum that is NaN (a NaN bias, input or weight, or an infinity times zero among the products)
passes both tests `sum < min` and `sum > max` of lines 709-712 and is stored as it is: the
output element is NaN, which is not `<= 1` and not `>= 0`. -/
theorem clamp_passes_nan :
    Sample.float_clamped.activation_type = 3 ∧
    Sample.float_clamped.activation_params.float_at 0 = some 0 ∧
    Sample.float_clamped.activation_params.float_at 1 = some 1 ∧
    Sample.float_clamped.activation_float Sample.env FloatValue.nan = some FloatValue.nan ∧
    (FloatValue.num 0).le FloatValue.nan = false ∧
    FloatValue.nan.le (FloatValue.num 1) = false := by
  have h0 : Sample.float_clamped.activation_params.float_at 0 = some 0 := by
    simp [Sample.float_clamped, Sample.vec, Mat.float_at, Mat.read_float, at?]
  have h1 : Sample.float_clamped.activation_params.float_at 1 = some 1 := by
    simp [Sample.float_clamped, Sample.vec, Mat.float_at, Mat.read_float, at?]
  refine ⟨rfl, h0, h1, ?_, rfl, rfl⟩
  have h3 : Sample.float_clamped.activation_type = 3 := rfl
  unfold activation_float
  simp [h3, h0, h1, FloatValue.lt]

/-- C15, amended: in exact arithmetic (every `float` a number and every operation exact), on
the float path `forward` returns, whenever no read faults, status `0` and the output blob
whose elements are `act(s)`, where `s` is the bias of the output channel (or `0` when
`bias_term` is `0`) plus the sum of `input * weight` over all taps (of all input channels
of the group), and `act` is applied once: the identity for `activation_type` 0, `max(s, 0)`
for 1, `s` if `s > 0` else `s * slope` for 2 and the clamp `min(max(s, lo), hi)` for 3,
which for `lo <= hi` lies in `[lo, hi]` and is `s` whenever `s` is in `[lo, hi]`. On a sum
that is a number the activation of the source is this one; a sum that is NaN comes out of it
as NaN. -/
theorem float_path_output (self : ConvolutionDepthWise) (env : Env)
    (bottom_blob top_blob : Mat) (opt : Opt) (bordered : Mat) (qw qh : Int) (ofs : List Int)
    (hfloat : self.use_int8_inference = false)
    (hc : c_mod bottom_blob.c self.group = some 0)
    (hn : c_mod self.num_output self.group = some 0)
    (hborder : self.border env bottom_blob bottom_blob.w bottom_blob.h opt = some bordered)
    (hne : bordered.empty = false)
    (hqw : c_div (bordered.w - kernel_extent self.dilation_w self.kernel_w) self.stride_w =
      some qw)
    (hqh : c_div (bordered.h - kernel_extent self.dilation_h self.kernel_h) self.stride_h =
      some qh)
    (hofs : self.space_ofs bordered.w = some ofs)
    (hcreate : (top_blob.create (qw + 1) (qh + 1) self.num_output bottom_blob.elemsize
      opt.blob_allocator (env.granted AllocSite.top_blob)).empty = false) :
    self.forward env bottom_blob top_blob opt =
      (self.float_output_elements env (self.float_kernel bordered ofs) bottom_blob.c
        (qw + 1) (qh + 1)).map (fun planes =>
          ((0 : Int), { top_blob.create (qw + 1) (qh + 1) self.num_output bottom_blob.elemsize
              opt.blob_allocator (env.granted AllocSite.top_blob) with
            data := Buf.floats planes })) ∧
    (∀ s : ℚ,
      (self.activation_type = 0 → self.activation env s = some s) ∧
      (self.activation_type = 1 → self.activation env s = some (max s 0)) ∧
      (self.activation_type = 2 → ∀ slope, self.activation_params.float_at 0 = some slope →
        self.activation env s = some (if s > 0 then s else s * slope)) ∧
      (self.activation_type = 3 → ∀ lo hi, self.activation_params.float_at 0 = some lo →
        self.activation_params.float_at 1 = some hi →
        self.activation env s = some (min (max s lo) hi) ∧
        (lo ≤ hi → lo ≤ min (max s lo) hi ∧ min (max s lo) hi ≤ hi ∧
          (lo ≤ s → s ≤ hi → min (max s lo) hi = s))) ∧
      self.activation_float env (FloatValue.num s) =
        (self.activation env s).map FloatValue.num) ∧
    ((self.activation_type = 2 ∨ self.activation_type = 3 →
        ∃ a b, self.activation_params.float_at 0 = some a ∧
          (self.activation_type = 3 → self.activation_params.float_at 1 = some b)) →
      self.activation_float env FloatValue.nan = some FloatValue.nan) := by
  refine ⟨?_, fun s => ⟨?_, ?_, ?_, ?_, activation_float_num self env s⟩,
    activation_float_nan self env⟩
  · rw [← float_loops_eq self env (self.float_kernel bordered ofs) rfl]
    unfold forward
    simp only [hc, hn, Option.some_bind, ne_eq, not_true_eq_false, if_false]
    unfold forward_checked
    simp only [hfloat, Bool.false_eq_true, false_and, if_false, hborder, Option.some_bind]
    unfold forward_bordered
    simp only [hne, Bool.false_eq_true, if_false, hqw, hqh, Option.some_bind, hofs, hfloat]
    unfold forward_float
    simp only [hcreate, Bool.false_eq_true, if_false]
    split <;> rfl
  · intro h
    simp [activation, h]
  · intro h
    simp [activation, h]
  · intro h slope hs
    simp [activation, h, hs]
  · intro h lo hi hlo hhi
    refine ⟨?_, fun hle => ⟨?_, ?_, fun h1 h2 => ?_⟩⟩
    · simp only [activation, h, hlo, hhi]
      norm_num
      by_cases h1 : s < lo
      · rw [if_pos h1, max_eq_right (le_of_lt h1)]
        by_cases h2 : hi < lo
        · rw [if_pos h2, min_eq_right (le_of_lt h2)]
        · rw [if_neg h2, min_eq_left (not_lt.mp h2)]
      · rw [if_neg h1, max_eq_left (not_lt.mp h1)]
        by_cases h2 : hi < s
        · rw [if_pos h2, min_eq_right (le_of_lt h2)]
        · rw [if_neg h2, min_eq_left (not_lt.mp h2)]
    · exact le_min (le_max_right s lo) hle
    · exact min_le_right _ _
    · rw [max_eq_left h1, min_eq_left h2]


/-- Instance of `float_path_output`: the 1x1 depth-wise layer with weights `2`, `3`, bias
`1/2`, `-5` and the clamp to `[0, 1]` on an input filled with `1`; the sums are `5/2` and
`-2`, and `forward` returns `0` with the elements `1` and `0`. -/
theorem float_path_output_witness :
    Sample.float_clamped.use_int8_inference = false ∧
    Sample.float_clamped.forward Sample.env (Sample.blob 1 1 2 1) Mat.nil Sample.opt =
      some (0, { dims := 3, w := 1, h := 1, c := 2, elemsize := 4, allocator := none
                 data := Buf.floats [[1], [0]] }) := by
  have h := (float_path_output Sample.float_clamped Sample.env (Sample.blob 1 1 2 1) Mat.nil
    Sample.opt (Sample.blob 1 1 2 1) 0 0 [0] rfl (by decide) (by decide) rfl (by decide)
    (by decide) (by decide) rfl (by decide)).1
  refine ⟨rfl, ?_⟩
  rw [h]
  have h0 : Sample.float_clamped.activation_params.float_at 0 = some 0 := by
    simp [Sample.float_clamped, Sample.vec, Mat.float_at, Mat.read_float, at?]
  have h1 : Sample.float_clamped.activation_params.float_at 1 = some 1 := by
    simp [Sample.float_clamped, Sample.vec, Mat.float_at, Mat.read_float, at?]
  have hel : Sample.float_clamped.float_output_elements Sample.env
      (Sample.float_clamped.float_kernel (Sample.blob 1 1 2 1) [0]) (Sample.blob 1 1 2 1).c
      (0 + 1) (0 + 1) = some [[1], [0]] := by
    simp [float_output_elements, float_element, depthwise_products, tap_products, collect,
      plane, bias_at, activation, float_kernel, Sample.float_clamped, Sample.layer,
      ConvolutionDepthWise.new, Sample.blob, Sample.vec, Mat.float_at, Mat.read_float, at?]
    norm_num
  rw [hel]
  rfl

end ConvolutionDepthWise

end ncnn
